import Mathlib

/-!
Verification development for the letterboxd-stats enrichment-and-aggregation
pipeline (`backend/app/pipeline/supabase_enricher.py` and
`backend/app/pipeline/stats_calculator.py`).

The Python code is shallowly embedded: pandas DataFrames become lists of row
structures, Python dicts become insertion-ordered association lists,
`collections.Counter` becomes an insertion-ordered count list, floats become
rationals (ratings are half-stars, so all arithmetic in scope is exact), and
network calls become explicit oracle functions passed as parameters.  Python
stdlib behaviour that the code relies on (Windows-1252/UTF-8 codecs, Unicode
NFKD decomposition, `str.lower`, the `\w`/`\s` character classes, `round`'s
half-even rounding) is modelled explicitly below; the Unicode tables cover the
Windows-1252 repertoire plus the characters exercised by the theorems, and
default to the identity elsewhere.
-/

namespace LbStats

/-- Python `round` on exact values: round half to even, to an integer. -/
def pyRoundInt (q : ℚ) : ℤ :=
  let f : ℤ := ⌊q⌋
  let r : ℚ := q - (f : ℚ)
  if r < 1/2 then f
  else if 1/2 < r then f + 1
  else if f % 2 = 0 then f else f + 1

/-- Python `round(x, 2)`. -/
def round2 (q : ℚ) : ℚ := (pyRoundInt (q * 100) : ℚ) / 100

/-- Python `round(x, 1)`. -/
def round1 (q : ℚ) : ℚ := (pyRoundInt (q * 10) : ℚ) / 10

/-- Insertion-ordered association list standing in for a Python dict:
assignment overwrites in place, new keys append. -/
def aInsert [BEq α] (l : List (α × β)) (k : α) (v : β) : List (α × β) :=
  if l.any (fun p => p.1 == k) then
    l.map (fun p => if p.1 == k then (p.1, v) else p)
  else l ++ [(k, v)]

/-- Python `dict.get(key)` / `dict[key]`: first (unique) binding. -/
def aGet? [BEq α] (l : List (α × β)) (k : α) : Option β :=
  (l.find? (fun p => p.1 == k)).map (fun p => p.2)

/-- Python `dict.pop(key, None)`. -/
def aPop [BEq α] (l : List (α × β)) (k : α) : List (α × β) :=
  l.filter (fun p => !(p.1 == k))

/-- Python `dict.setdefault(k, []).append(v)` on a dict of lists
(also `defaultdict(list)`): append to the existing binding, else add one. -/
def aAppend [BEq α] (l : List (α × List β)) (k : α) (v : β) : List (α × List β) :=
  if l.any (fun p => p.1 == k) then
    l.map (fun p => if p.1 == k then (p.1, p.2 ++ [v]) else p)
  else l ++ [(k, [v])]

/-- `collections.Counter`: insertion-ordered key/count list. -/
abbrev Counter (α : Type) : Type := List (α × Nat)

/-- `Counter[k] += 1`. -/
def cInc [BEq α] (c : Counter α) (k : α) : Counter α :=
  if c.any (fun p => p.1 == k) then
    c.map (fun p => if p.1 == k then (p.1, p.2 + 1) else p)
  else c ++ [(k, 1)]

/-- `Counter[k]` (0 when absent). -/
def cGet [BEq α] (c : Counter α) (k : α) : Nat :=
  ((c.find? (fun p => p.1 == k)).map (fun p => p.2)).getD 0

/-- Stable insertion for a descending sort: `lt a b` means `a`'s key is
strictly below `b`'s, and an element goes after every earlier element of
equal key, matching Python's stable sorts. -/
def stableInsertWith (lt : α → α → Bool) (x : α) : List α → List α
  | [] => [x]
  | y :: ys => if lt y x then x :: y :: ys else y :: stableInsertWith lt x ys

/-- Stable sort, descending under `lt` (Python `sorted(..., reverse=True)`
with a key, `Counter.most_common`, `DataFrame.nlargest(keep='first')`). -/
def stableSortDescWith (lt : α → α → Bool) (l : List α) : List α :=
  l.foldl (fun acc x => stableInsertWith lt x acc) []

/-- Stable sort, descending by a rational key. -/
def stableSortDescBy (key : α → ℚ) (l : List α) : List α :=
  stableSortDescWith (fun a b => key a < key b) l

/-- Stable sort, ascending by a rational key (Python `sorted(..., key=key)`,
`sort_values`, `nsmallest(keep='first')`). -/
def stableSortAscBy (key : α → ℚ) (l : List α) : List α :=
  stableSortDescWith (fun a b => key b < key a) l

/-- `Counter.most_common(n)`: count-descending, ties in insertion order. -/
def mostCommon (c : Counter α) (n : Nat) : List (α × Nat) :=
  (stableSortDescBy (fun p => (p.2 : ℚ)) c).take n

/-- `Counter.most_common()` without a bound. -/
def mostCommonAll (c : Counter α) : List (α × Nat) :=
  stableSortDescBy (fun p => (p.2 : ℚ)) c

/-! ### Model of the Python text stdlib used by `_normalize_title`

Characters are handled by code point.  The tables cover ASCII, the
Windows-1252 repertoire and the characters used in this development's
theorems; characters outside them default to "no decomposition, not
combining, case-fixed, not a word character". -/

/-- Windows-1252 bytes 0x80–0x9F: code point → byte.  The five undefined
bytes (0x81, 0x8D, 0x8F, 0x90, 0x9D) have no entry, so the corresponding
code points are unencodable, as in Python's strict `cp1252` codec. -/
def cp1252Specials : List (Nat × Nat) :=
  [(0x20AC, 0x80), (0x201A, 0x82), (0x192, 0x83), (0x201E, 0x84),
   (0x2026, 0x85), (0x2020, 0x86), (0x2021, 0x87), (0x2C6, 0x88),
   (0x2030, 0x89), (0x160, 0x8A), (0x2039, 0x8B), (0x152, 0x8C),
   (0x17D, 0x8E), (0x2018, 0x91), (0x2019, 0x92), (0x201C, 0x93),
   (0x201D, 0x94), (0x2022, 0x95), (0x2013, 0x96), (0x2014, 0x97),
   (0x2DC, 0x98), (0x2122, 0x99), (0x161, 0x9A), (0x203A, 0x9B),
   (0x153, 0x9C), (0x17E, 0x9E), (0x178, 0x9F)]

/-- `str.encode('windows-1252')` for one character. -/
def cp1252EncodeChar (c : Char) : Option Nat :=
  let n := c.toNat
  if n < 0x80 then some n
  else match (cp1252Specials.find? (fun p => p.1 == n)) with
    | some p => some p.2
    | none => if 0xA0 ≤ n && n ≤ 0xFF then some n else none

/-- `str.encode('windows-1252')`: fails if any character is unencodable. -/
def cp1252Encode (cs : List Char) : Option (List Nat) :=
  cs.mapM cp1252EncodeChar

/-- Is `b` a UTF-8 continuation byte? -/
def utf8Cont (b : Nat) : Bool := 0x80 ≤ b && b ≤ 0xBF

/-- Strict UTF-8 decoder (`bytes.decode('utf-8')`): rejects truncated
sequences, stray continuation bytes, overlong encodings, surrogates and
code points above U+10FFFF, exactly as CPython does. -/
def utf8Decode : List Nat → Option (List Char)
  | [] => some []
  | b :: rest =>
    if b ≤ 0x7F then
      (utf8Decode rest).map (fun cs => Char.ofNat b :: cs)
    else if b < 0xC2 then none
    else if b ≤ 0xDF then
      match rest with
      | b2 :: rest2 =>
        if utf8Cont b2 then
          (utf8Decode rest2).map (fun cs => Char.ofNat ((b - 0xC0) * 0x40 + (b2 - 0x80)) :: cs)
        else none
      | [] => none
    else if b ≤ 0xEF then
      match rest with
      | b2 :: b3 :: rest3 =>
        let lo2 := if b == 0xE0 then 0xA0 else 0x80
        let hi2 := if b == 0xED then 0x9F else 0xBF
        if (lo2 ≤ b2 && b2 ≤ hi2) && utf8Cont b3 then
          (utf8Decode rest3).map (fun cs =>
            Char.ofNat (((b - 0xE0) * 0x1000) + ((b2 - 0x80) * 0x40) + (b3 - 0x80)) :: cs)
        else none
      | _ => none
    else if b ≤ 0xF4 then
      match rest with
      | b2 :: b3 :: b4 :: rest4 =>
        let lo2 := if b == 0xF0 then 0x90 else 0x80
        let hi2 := if b == 0xF4 then 0x8F else 0xBF
        if (lo2 ≤ b2 && b2 ≤ hi2) && (utf8Cont b3 && utf8Cont b4) then
          (utf8Decode rest4).map (fun cs =>
            Char.ofNat (((b - 0xF0) * 0x40000) + ((b2 - 0x80) * 0x1000) +
              ((b3 - 0x80) * 0x40) + (b4 - 0x80)) :: cs)
        else none
      | _ => none
    else none

/-- NFKD decompositions (`unicodedata.normalize('NFKD', ...)`), charwise, for
the repertoire in scope: Latin-1 letters with diacritics, the Windows-1252
extras and a few compatibility characters.  Code points without an entry do
not decompose. -/
def nfkdTable : List (Nat × List Nat) :=
  [(0xC0, [0x41, 0x300]), (0xC1, [0x41, 0x301]), (0xC2, [0x41, 0x302]),
   (0xC3, [0x41, 0x303]), (0xC4, [0x41, 0x308]), (0xC5, [0x41, 0x30A]),
   (0xC7, [0x43, 0x327]), (0xC8, [0x45, 0x300]), (0xC9, [0x45, 0x301]),
   (0xCA, [0x45, 0x302]), (0xCB, [0x45, 0x308]), (0xCC, [0x49, 0x300]),
   (0xCD, [0x49, 0x301]), (0xCE, [0x49, 0x302]), (0xCF, [0x49, 0x308]),
   (0xD1, [0x4E, 0x303]), (0xD2, [0x4F, 0x300]), (0xD3, [0x4F, 0x301]),
   (0xD4, [0x4F, 0x302]), (0xD5, [0x4F, 0x303]), (0xD6, [0x4F, 0x308]),
   (0xD9, [0x55, 0x300]), (0xDA, [0x55, 0x301]), (0xDB, [0x55, 0x302]),
   (0xDC, [0x55, 0x308]), (0xDD, [0x59, 0x301]),
   (0xE0, [0x61, 0x300]), (0xE1, [0x61, 0x301]), (0xE2, [0x61, 0x302]),
   (0xE3, [0x61, 0x303]), (0xE4, [0x61, 0x308]), (0xE5, [0x61, 0x30A]),
   (0xE7, [0x63, 0x327]), (0xE8, [0x65, 0x300]), (0xE9, [0x65, 0x301]),
   (0xEA, [0x65, 0x302]), (0xEB, [0x65, 0x308]), (0xEC, [0x69, 0x300]),
   (0xED, [0x69, 0x301]), (0xEE, [0x69, 0x302]), (0xEF, [0x69, 0x308]),
   (0xF1, [0x6E, 0x303]), (0xF2, [0x6F, 0x300]), (0xF3, [0x6F, 0x301]),
   (0xF4, [0x6F, 0x302]), (0xF5, [0x6F, 0x303]), (0xF6, [0x6F, 0x308]),
   (0xF9, [0x75, 0x300]), (0xFA, [0x75, 0x301]), (0xFB, [0x75, 0x302]),
   (0xFC, [0x75, 0x308]), (0xFD, [0x79, 0x301]), (0xFF, [0x79, 0x308]),
   (0x160, [0x53, 0x30C]), (0x161, [0x73, 0x30C]),
   (0x17D, [0x5A, 0x30C]), (0x17E, [0x7A, 0x30C]),
   (0x178, [0x59, 0x308]),
   (0xAA, [0x61]), (0xBA, [0x6F]), (0xB9, [0x31]), (0xB2, [0x32]),
   (0xB3, [0x33]), (0xB5, [0x3BC]),
   (0x2C6, [0x302]), (0x2DC, [0x303]),
   (0x2026, [0x2E, 0x2E, 0x2E]), (0x2122, [0x54, 0x4D])]

/-- One character's NFKD decomposition; identity outside the table. -/
def nfkdChar (c : Char) : List Char :=
  match nfkdTable.find? (fun p => p.1 == c.toNat) with
  | some p => p.2.map Char.ofNat
  | none => [c]

/-- Combining marks (`unicodedata.combining(c) != 0`) in scope. -/
def combiningSet : List Nat :=
  [0x300, 0x301, 0x302, 0x303, 0x304, 0x306, 0x307, 0x308, 0x30A, 0x30B,
   0x30C, 0x327, 0x328]

/-- `unicodedata.combining(c) != 0` in the modelled repertoire. -/
def isCombining (c : Char) : Bool := combiningSet.any (fun n => n == c.toNat)

/-- Non-ASCII lower-case mappings (`str.lower`) needed beyond the ASCII rule:
only the case pairs that NFKD does not already decompose. -/
def lowerTable : List (Nat × Nat) :=
  [(0xC6, 0xE6), (0xD0, 0xF0), (0xD8, 0xF8), (0xDE, 0xFE), (0x152, 0x153)]

/-- `str.lower`, charwise (the characters in scope lower-case one-to-one). -/
def lowerChar (c : Char) : Char :=
  let n := c.toNat
  if 0x41 ≤ n && n ≤ 0x5A then Char.ofNat (n + 0x20)
  else match lowerTable.find? (fun p => p.1 == n) with
    | some p => Char.ofNat p.2
    | none => c

/-- Non-ASCII word characters (`\w`) in the modelled repertoire: the
case-stable Latin letters of Windows-1252, micro/mu, and U+07DC (reachable
through the mojibake-repair path). -/
def wordExtras : List Nat :=
  [0xDF, 0xE6, 0xF0, 0xF8, 0xFE, 0xC6, 0xD0, 0xD8, 0xDE,
   0x152, 0x153, 0x192, 0xB5, 0x3BC, 0x7DC]

/-- Python regex `\w` (Unicode word character) in the modelled repertoire. -/
def isWordChar (c : Char) : Bool :=
  let n := c.toNat
  (0x30 ≤ n && n ≤ 0x39) || (0x41 ≤ n && n ≤ 0x5A) || (0x61 ≤ n && n ≤ 0x7A) ||
    n == 0x5F || wordExtras.any (fun m => m == n)

/-- Python regex `\s` (Unicode whitespace). -/
def isPySpace (c : Char) : Bool :=
  let n := c.toNat
  n == 0x20 || (0x9 ≤ n && n ≤ 0xD) || (0x1C ≤ n && n ≤ 0x1F) || n == 0x85 ||
    n == 0xA0 || n == 0x1680 || (0x2000 ≤ n && n ≤ 0x200A) ||
    n == 0x2028 || n == 0x2029 || n == 0x202F || n == 0x205F || n == 0x3000

/-- `re.sub(r'\s+', ' ', s)`: rewrite every whitespace run to one space. -/
def collapseSpaceRuns (cs : List Char) : List Char :=
  cs.foldr
    (fun c acc =>
      if isPySpace c then
        if acc.head? == some ' ' then acc else ' ' :: acc
      else c :: acc)
    []

/-- The trailing half of `str.strip()`: drop the final whitespace run. -/
def dropTrailingSpaces (cs : List Char) : List Char :=
  cs.foldr (fun c acc => if acc.isEmpty && isPySpace c then [] else c :: acc) []

/-- `str.strip()`: drop leading and trailing whitespace. -/
def stripEnds (cs : List Char) : List Char :=
  dropTrailingSpaces (cs.dropWhile isPySpace)

/-- The mojibake-repair step of `SupabaseEnricher._normalize_title`:
`title.encode('windows-1252').decode('utf-8')`, and the unchanged title when
either codec step fails. -/
def mojibakeRepair (s : String) : String :=
  match cp1252Encode s.toList with
  | none => s
  | some bytes =>
    match utf8Decode bytes with
    | none => s
    | some cs => String.mk cs

/-- Steps 2–5 of `_normalize_title`: NFKD decomposition with combining marks
dropped, lower-casing, removal of characters that are neither word
characters nor whitespace, and whitespace collapsing/trimming. -/
def postNorm (cs : List Char) : List Char :=
  let decomposed := (cs.flatMap nfkdChar).filter (fun c => !(isCombining c))
  let lowered := decomposed.map lowerChar
  let filtered := lowered.filter (fun c => isWordChar c || isPySpace c)
  stripEnds (collapseSpaceRuns filtered)

/-- `SupabaseEnricher._normalize_title`: the mojibake repair followed by the
decompose/lower/filter/collapse steps. -/
def normalizeTitle (title : String) : String :=
  String.mk (postNorm (mojibakeRepair title).toList)

/-! ### Resolver embedding (`supabase_enricher.py`)

Network calls are oracle functions: `_query_supabase_batch` /
`_query_supabase_ilike` already degrade transport failure to `[]`, so an
oracle value captures every possible response.  Worker-pool passes write to
disjoint slots and are merged after completion (order-independent), so the
sequential embedding is faithful. -/

/-- A `(title, year)` pair, the join key of the pipeline. -/
abbrev FilmKey : Type := String × Int

/-- One entry of a Supabase `cast_details` JSON array. -/
structure CastEntry where
  name : String
  character : Option String
  profilePath : Option String
deriving DecidableEq, Repr

/-- A row of the Supabase `movies` table, with the comma-joined string
fields the transform step parses.  A `cast_details` value delivered as an
unparsable JSON string falls back to `[]` in the code and is modelled by the
empty list. -/
structure SbRow where
  id : Option Nat
  title : String
  year : Option Int
  releaseDate : Option String
  runtime : Option Int
  genres : Option String
  overview : Option String
  popularity : Option ℚ
  imdbRating : Option ℚ
  imdbVotes : Option Int
  posterPath : Option String
  originalLanguage : Option String
  originalTitle : Option String
  productionCountries : Option String
  budget : Option Int
  revenue : Option Int
  productionCompanies : Option String
  castDetails : List CastEntry
  director : Option String
  directorOfPhotography : Option String
  musicComposer : Option String
  writers : Option String
deriving DecidableEq, Repr

/-- `{name, profile_path}` crew person in the enricher output. -/
structure Person where
  name : String
  profilePath : Option String
deriving DecidableEq, Repr

/-- `{name, character, profile_path}` actor in the enricher output. -/
structure ActorCredit where
  name : String
  character : Option String
  profilePath : Option String
deriving DecidableEq, Repr

/-- `{name, logo_path}` production company in the enricher output. -/
structure Company where
  name : String
  logoPath : Option String
deriving DecidableEq, Repr

/-- The canonical enrichment record: the dict shape produced by both
`_transform_supabase_row` and `_tmdb_search`, consumed by the aggregator. -/
structure Movie where
  tmdbId : Option Nat
  title : Option String
  originalTitle : Option String
  releaseDate : Option String
  runtime : Option Int
  genres : List String
  overview : Option String
  popularity : Option ℚ
  voteAverage : Option ℚ
  voteCount : Option Int
  posterPath : Option String
  backdropPath : Option String
  originalLanguage : Option String
  productionCountries : List String
  budget : Option Int
  revenue : Option Int
  productionCompanies : List Company
  actors : List ActorCredit
  directors : List String
  directorProfiles : List (String × Option String)
  cinematographers : List Person
  composers : List Person
  writers : List Person
deriving DecidableEq, Repr

/-- Python `str.split(sep)` for a one-character separator (empty pieces
kept, as in Python). -/
def splitOnChar (sep : Char) (cs : List Char) : List (List Char) :=
  cs.foldr
    (fun c acc =>
      if c == sep then [] :: acc
      else
        match acc with
        | w :: rest => (c :: w) :: rest
        | [] => [[c]])
    [[]]

/-- Python `str.strip()` on a string. -/
def pyStrip (s : String) : String := String.mk (stripEnds s.toList)

/-- The decimal value of a digit string (used for the release-year prefix). -/
def natOfDigits (cs : List Char) : Option Nat :=
  if cs.isEmpty then none
  else
    cs.foldl
      (fun acc c =>
        match acc with
        | some n => if c.isDigit then some (n * 10 + (c.toNat - 48)) else none
        | none => none)
      (some 0)

/-- `[x.strip() for x in s.split(',') if x.strip()]`. -/
def splitCommaClean (s : String) : List String :=
  (((splitOnChar ',' s.toList).map (fun w => String.mk (stripEnds w))).filter
    (fun t => t ≠ ""))

/-- `SupabaseEnricher._transform_supabase_row`. -/
def transformSupabaseRow (row : SbRow) : Movie :=
  let genres := splitCommaClean (row.genres.getD "")
  let productionCompanies :=
    (splitCommaClean (row.productionCompanies.getD "")).map (fun c => Company.mk c none)
  let productionCountries := splitCommaClean (row.productionCountries.getD "")
  let actors := (row.castDetails.take 10).map
    (fun a => ActorCredit.mk a.name (some (a.character.getD "")) a.profilePath)
  let directors := (splitCommaClean (row.director.getD "")).take 3
  let directorProfiles := directors.map (fun d => (d, (none : Option String)))
  let cinematographers :=
    ((splitCommaClean (row.directorOfPhotography.getD "")).map (fun c => Person.mk c none)).take 2
  let composers :=
    ((splitCommaClean (row.musicComposer.getD "")).map (fun c => Person.mk c none)).take 2
  let writers :=
    ((splitCommaClean (row.writers.getD "")).map (fun w => Person.mk w none)).take 3
  { tmdbId := row.id, title := some row.title, originalTitle := row.originalTitle,
    releaseDate := row.releaseDate, runtime := row.runtime, genres := genres,
    overview := row.overview, popularity := row.popularity,
    voteAverage := row.imdbRating, voteCount := row.imdbVotes,
    posterPath := row.posterPath, backdropPath := none,
    originalLanguage := row.originalLanguage,
    productionCountries := productionCountries, budget := row.budget,
    revenue := row.revenue, productionCompanies := productionCompanies,
    actors := actors, directors := directors, directorProfiles := directorProfiles,
    cinematographers := cinematographers, composers := composers, writers := writers }

/-- A search result stub from TMDB `search/movie`. -/
structure TmdbMovieStub where
  id : Nat
  title : Option String
  originalTitle : Option String
deriving DecidableEq, Repr

/-- A cast entry of TMDB `credits`. -/
structure TmdbCast where
  name : String
  character : Option String
  profilePath : Option String
deriving DecidableEq, Repr

/-- A crew entry of TMDB `credits`. -/
structure TmdbCrew where
  name : String
  job : Option String
  profilePath : Option String
deriving DecidableEq, Repr

/-- The TMDB movie-details response (with `append_to_response=credits`). -/
structure TmdbDetails where
  title : Option String
  originalTitle : Option String
  releaseDate : Option String
  runtime : Option Int
  genres : List String
  overview : Option String
  popularity : Option ℚ
  voteAverage : Option ℚ
  voteCount : Option Int
  posterPath : Option String
  backdropPath : Option String
  originalLanguage : Option String
  productionCountries : List String
  budget : Option Int
  revenue : Option Int
  productionCompanies : List Company
  castList : List TmdbCast
  crew : List TmdbCrew
deriving DecidableEq, Repr

/-- The two TMDB endpoints as oracles. `search` takes the query and the
optional year parameter; `none` models a failed request, `some []` an empty
result list. -/
structure TmdbOracle where
  search : String → Option Int → Option (List TmdbMovieStub)
  details : Nat → Option TmdbDetails

/-- The two Supabase query operations as oracles (transport failure is
already degraded to `[]` inside them). -/
structure CatalogOracle where
  batch : List String → List SbRow
  ilike : String → List SbRow

/-- Python's `in` operator on strings (contiguous substring). -/
def strContains (hay needle : String) : Bool :=
  go needle.toList hay.toList
where
  go (n : List Char) : List Char → Bool
    | [] => n.isEmpty
    | c :: t => n.isPrefixOf (c :: t) || go n t

/-- Builds the enrichment record returned by `_tmdb_search` from the stub
and the details response. -/
def buildTmdbMovie (movie : TmdbMovieStub) (details : TmdbDetails) : Movie :=
  let cast := details.castList.take 10
  let directorsList := (details.crew.filter (fun p => p.job == some "Director")).take 3
  { tmdbId := some movie.id, title := details.title,
    originalTitle := details.originalTitle, releaseDate := details.releaseDate,
    runtime := details.runtime, genres := details.genres,
    overview := details.overview, popularity := details.popularity,
    voteAverage := details.voteAverage, voteCount := details.voteCount,
    posterPath := details.posterPath, backdropPath := details.backdropPath,
    originalLanguage := details.originalLanguage,
    productionCountries := details.productionCountries,
    budget := details.budget, revenue := details.revenue,
    productionCompanies := details.productionCompanies.take 3,
    actors := cast.map (fun a => ActorCredit.mk a.name a.character a.profilePath),
    directors := directorsList.map (fun d => d.name),
    directorProfiles := directorsList.map (fun d => (d.name, d.profilePath)),
    cinematographers :=
      ((details.crew.filter (fun p => p.job == some "Director of Photography")).map
        (fun p => Person.mk p.name p.profilePath)).take 2,
    composers :=
      ((details.crew.filter (fun p => p.job == some "Original Music Composer")).map
        (fun p => Person.mk p.name p.profilePath)).take 2,
    writers :=
      ((details.crew.filter (fun p => p.job == some "Screenplay" || p.job == some "Writer")).map
        (fun p => Person.mk p.name p.profilePath)).take 3 }

/-- `SupabaseEnricher._tmdb_search`: query with year, retry without year on
empty, validate the top result by normalized-title substring containment in
either direction, then fetch details. -/
def tmdbSearch (o : TmdbOracle) (title : String) (year : Int) : Option Movie :=
  let firstTry := o.search title (some year)
  let noResults : Option (List TmdbMovieStub) → Bool := fun r =>
    match r with
    | none => true
    | some l => l.isEmpty
  let result := if noResults firstTry then o.search title none else firstTry
  match result with
  | some (movie :: _) =>
    let normSearch := normalizeTitle title
    let normResult := normalizeTitle (movie.title.getD "")
    let normOrig := normalizeTitle (movie.originalTitle.getD "")
    if !(strContains normResult normSearch) && !(strContains normSearch normResult) &&
       !(strContains normOrig normSearch) && !(strContains normSearch normOrig) then
      none
    else
      match o.details movie.id with
      | none => none
      | some details => some (buildTmdbMovie movie details)
  | _ => none

/-- `SupabaseEnricher._fetch_tmdb_single` (the per-job session cache is
semantically transparent: the oracle is a function of the key). -/
def fetchTmdbSingle (o : TmdbOracle) (title : String) (year : Int) : Option Movie :=
  if year == 0 then none else tmdbSearch o title year

/-- One input row of the watched-films DataFrame handed to `enrich_films`
(`Name` and the already-coerced integer `Year`, 0 = unknown). -/
structure FilmRow where
  name : String
  year : Int
deriving DecidableEq, Repr

/-- An entry of the missing-films report (`_tmdb_fallback_films`). -/
structure MissEntry where
  title : String
  year : Int
  tmdbFound : Bool
  supabaseMissReason : String
deriving DecidableEq, Repr

/-- The combined output of `enrich_films`: the enrichment store plus the
missing-films report. -/
structure EnrichResult where
  enriched : List (FilmKey × Movie)
  fallbackFilms : List MissEntry
deriving DecidableEq, Repr

/-- The year filter common to passes 1–4:
`if row_year and abs(int(row_year) - year) <= 2`. -/
def yearOk (reqYear : Int) (rowYear : Option Int) : Bool :=
  match rowYear with
  | some y => y != 0 && (y - reqYear).natAbs ≤ 2
  | none => false

/-- First candidate within the year window (the `for`/`break` loops of
passes 1 and 2). -/
def firstYearMatch (year : Int) (candidates : List SbRow) : Option SbRow :=
  candidates.find? (fun row => yearOk year row.year)

/-- `dict.setdefault(k, []).extend(rows)` (pass 2's normalized lookup). -/
def aExtend [BEq α] (l : List (α × List β)) (k : α) (vs : List β) : List (α × List β) :=
  if l.any (fun p => p.1 == k) then
    l.map (fun p => if p.1 == k then (p.1, p.2 ++ vs) else p)
  else l ++ [(k, vs)]

/-- Structural worker for the batching loop (the fuel is an upper bound on
the number of batches; each step consumes at least one title). -/
def chunks50Go : Nat → List String → List (List String)
  | _, [] => []
  | 0, _ :: _ => []
  | Nat.succ fuel, x :: xs => (x :: xs).take 50 :: chunks50Go fuel ((x :: xs).drop 50)

/-- `films[i:i+50]` batching of the unique titles. -/
def chunks50 (l : List String) : List (List String) :=
  chunks50Go l.length l

/-- `list({...})` over the requested titles.  Python's set iteration order
is arbitrary; first-occurrence order is fixed here, and no proved property
depends on it (the merged lookup is keyed by exact title). -/
def dedupFirst (l : List String) : List String :=
  l.foldl (fun acc t => if acc.contains t then acc else acc ++ [t]) []

/-- Pass 0: batch queries merged into the exact-title lookup
(`supabase_results`). -/
def supabaseResultsOf (cat : CatalogOracle) (filmList : List FilmKey) :
    List (String × List SbRow) :=
  let uniqueTitles := dedupFirst (filmList.map (fun p => p.1))
  let batches := chunks50 uniqueTitles
  let batchResults := batches.map cat.batch
  batchResults.foldl
    (fun acc rows => rows.foldl (fun acc row => aAppend acc row.title row) acc) []

/-- Resolution state threaded through the passes: the enrichment mapping,
the still-unresolved list (`tmdb_needed`) and the miss-reason dict. -/
structure ResState where
  enriched : List (FilmKey × Movie)
  needed : List FilmKey
  reasons : List (FilmKey × String)
deriving Repr

/-- Pass 1's per-key decision: first exact-title candidate within the year
window. -/
def pass1Decide (supabaseResults : List (String × List SbRow)) (k : FilmKey) :
    Option SbRow :=
  firstYearMatch k.2 ((aGet? supabaseResults k.1).getD [])

/-- One step of pass 1's loop over the requested keys. -/
def pass1Step (supabaseResults : List (String × List SbRow)) (st : ResState)
    (k : FilmKey) : ResState :=
  match firstYearMatch k.2 ((aGet? supabaseResults k.1).getD []) with
  | some row => { st with enriched := aInsert st.enriched k (transformSupabaseRow row) }
  | none =>
    { st with
      needed := st.needed ++ [k],
      reasons := aInsert st.reasons k
        (if ((aGet? supabaseResults k.1).getD []).isEmpty then "not_in_db"
         else "year_mismatch") }

/-- Pass 1: exact title + year within ±2; failures are tagged
`year_mismatch` (candidates existed) or `not_in_db` (none). -/
def pass1 (supabaseResults : List (String × List SbRow)) (filmList : List FilmKey) :
    ResState :=
  filmList.foldl (pass1Step supabaseResults) (ResState.mk [] [] [])

/-- Pass 2's global normalized-title lookup over all fetched rows. -/
def normalizedLookupOf (supabaseResults : List (String × List SbRow)) :
    List (String × List SbRow) :=
  supabaseResults.foldl
    (fun acc p => aExtend acc (normalizeTitle p.1) p.2) []

/-- One step of a matching pass: a match moves the key into the enrichment
mapping and drops its miss reason, a miss keeps it in the needed list (the
shared step of passes 2–4). -/
def passStep (d : FilmKey → Option SbRow) (acc : ResState) (k : FilmKey) : ResState :=
  match d k with
  | some row =>
    { acc with
      enriched := aInsert acc.enriched k (transformSupabaseRow row),
      reasons := aPop acc.reasons k }
  | none => { acc with needed := acc.needed ++ [k] }

/-- A pass over the still-needed list with a per-key match decision (the
shared shape of passes 2 and 3). -/
def runPass (decide : FilmKey → Option SbRow) (st : ResState) : ResState :=
  st.needed.foldl (passStep decide) { st with needed := [] }

/-- Pass 2's decision: normalized-title equality plus the year window. -/
def pass2Decide (normalizedLookup : List (String × List SbRow)) (k : FilmKey) :
    Option SbRow :=
  firstYearMatch k.2 ((aGet? normalizedLookup (normalizeTitle k.1)).getD [])

/-- The word-boundary prefix test of passes 3 and 4:
`norm_key.startswith(norm_title) and (len(norm_key) == len(norm_title) or
norm_key[len(norm_title)] == ' ')`. -/
def startsWithBoundary (normKey normTitle : String) : Bool :=
  normTitle.toList.isPrefixOf normKey.toList &&
    (normKey.toList.length == normTitle.toList.length ||
      normKey.toList.get? normTitle.toList.length == some ' ')

/-- Pass 3's decision over the flattened `(normalized title, row)` pool:
skip requested titles of normalized length < 5, else take the first entry
passing the boundary test and the year window. -/
def pass3Decide (entries : List (String × SbRow)) (k : FilmKey) : Option SbRow :=
  let normTitle := normalizeTitle k.1
  if normTitle.length < 5 then none
  else
    entries.findSome?
      (fun e =>
        if startsWithBoundary e.1 normTitle && yearOk k.2 e.2.year then some e.2 else none)

/-- Pass 3's flattened candidate pool (`norm_supabase_entries`). -/
def normEntriesOf (supabaseResults : List (String × List SbRow)) :
    List (String × SbRow) :=
  supabaseResults.flatMap (fun p => p.2.map (fun row => (normalizeTitle p.1, row)))

/-- `str.split()` (whitespace words, empties dropped) on a normalized title,
whose only whitespace is single spaces. -/
def pyWords (s : String) : List String :=
  ((splitOnChar ' ' s.toList).map String.mk).filter (fun w => w ≠ "")

/-- Pass 4's acceptance test for one candidate row: year window, then exact
normalized equality, else the ≥5-length word-boundary prefix branch. -/
def pass4Accept (normTitle : String) (year : Int) (row : SbRow) : Bool :=
  yearOk year row.year &&
    (normalizeTitle row.title == normTitle ||
      (decide (5 ≤ normTitle.length) && startsWithBoundary (normalizeTitle row.title) normTitle))

/-- The first-two-normalized-words `ilike` prefix of a requested key. -/
def prefix2Of (k : FilmKey) : String :=
  String.intercalate " " ((pyWords (normalizeTitle k.1)).take 2)

/-- One step of pass 4's grouping loop: keys with fewer than two normalized
words are set aside, the rest are grouped under their two-word prefix. -/
def pass4Group (acc : List (String × List FilmKey) × List FilmKey) (k : FilmKey) :
    List (String × List FilmKey) × List FilmKey :=
  if (pyWords (normalizeTitle k.1)).length < 2 then (acc.1, acc.2 ++ [k])
  else (aAppend acc.1 (prefix2Of k) k, acc.2)

/-- The effective per-key decision of pass 4: no match for keys with fewer
than two normalized words, else the first `ilike` candidate (for the key's
own two-word prefix) accepted by `pass4Accept`. -/
def pass4DecideG (cat : CatalogOracle) (k : FilmKey) : Option SbRow :=
  if (pyWords (normalizeTitle k.1)).length < 2 then none
  else (cat.ilike (prefix2Of k)).find? (pass4Accept (normalizeTitle k.1) k.2)

/-- One step of pass 4's per-prefix loop: look up the prefix's `ilike` rows
and run the shared matching step over the prefix's grouped keys. -/
def pass4OuterStep (cat : CatalogOracle) (pfx : List (String × List FilmKey))
    (acc : ResState) (p : String × List FilmKey) : ResState :=
  p.2.foldl
    (passStep (fun k =>
      ((aGet? (pfx.map (fun q => (q.1, cat.ilike q.1))) p.1).getD []).find?
        (pass4Accept (normalizeTitle k.1) k.2)))
    acc

/-- Pass 4: group the still-needed keys by their first-two-normalized-words
prefix, run one `ilike` query per prefix, and accept candidates with
`pass4Accept`; keys whose normalized title has fewer than two words skip the
pass. -/
def pass4 (cat : CatalogOracle) (st : ResState) : ResState :=
  let grouping := st.needed.foldl pass4Group ([], [])
  grouping.1.foldl (pass4OuterStep cat grouping.1) { st with needed := grouping.2 }

/-- Phase 2: the optional TMDB fallback over the final needed list (disabled
by default via `TMDB_FALLBACK_ENABLED`); worker completion order only
affects dict insertion order, never contents. -/
def tmdbFallback (enabled : Bool) (tmdb : TmdbOracle) (st : ResState) : ResState :=
  if enabled && !st.needed.isEmpty then
    st.needed.foldl
      (fun acc k =>
        match fetchTmdbSingle tmdb k.1 k.2 with
        | some m => { acc with enriched := aInsert acc.enriched k m }
        | none => acc)
      st
  else st

/-- The lookup list of `enrich_films`: films with year 0 are dropped before
any query is issued. -/
def filmListOf (films : List FilmRow) : List FilmKey :=
  (films.filter (fun r => 0 < r.year)).map (fun r => (r.name, r.year))

/-- `SupabaseEnricher.enrich_films`: films with year 0 are dropped from the
lookup list; passes 1–4 against the catalog; optional TMDB fallback; the
missing-films report is built from the final needed list. -/
def enrichFilms (fallbackEnabled : Bool) (cat : CatalogOracle) (tmdb : TmdbOracle)
    (films : List FilmRow) : EnrichResult :=
  let filmList : List FilmKey := filmListOf films
  let supabaseResults := supabaseResultsOf cat filmList
  let st1 := pass1 supabaseResults filmList
  let st2 := runPass (pass2Decide (normalizedLookupOf supabaseResults)) st1
  let st3 := runPass (pass3Decide (normEntriesOf supabaseResults)) st2
  let st4 := pass4 cat st3
  let st5 := tmdbFallback fallbackEnabled tmdb st4
  { enriched := st5.enriched,
    fallbackFilms :=
      st5.needed.map
        (fun k =>
          MissEntry.mk k.1 k.2 ((aGet? st5.enriched k).isSome)
            ((aGet? st5.reasons k).getD "not_in_db")) }

/-- The final resolution state of `enrich_films` (the value of its local
state after pass 1–4 and the optional fallback); `enrich_films` reads its
output off this state. -/
def resolverFinal (fb : Bool) (cat : CatalogOracle) (tmdb : TmdbOracle)
    (films : List FilmRow) : ResState :=
  tmdbFallback fb tmdb
    (pass4 cat
      (runPass (pass3Decide (normEntriesOf (supabaseResultsOf cat (filmListOf films))))
        (runPass (pass2Decide (normalizedLookupOf (supabaseResultsOf cat (filmListOf films))))
          (pass1 (supabaseResultsOf cat (filmListOf films)) (filmListOf films)))))

/-! ### The TMDB outbound rate-limit gate (`_tmdb_rate_limit`)

Modelled as a pure transition on `(clock, timestamp ledger)`: `time.time()`
is the clock, `time.sleep(d)` advances it.  Calls are serialized by
`_rate_lock`, so a schedule is a list of arrival times processed in order. -/

/-- Clock plus the `_request_times` ledger. -/
structure RLState where
  now : ℚ
  times : List ℚ
deriving Repr

/-- One call of `_tmdb_rate_limit`: drop entries older than 10 s; if the
quota is reached, sleep until the oldest entry expires, then clear the whole
ledger; append the current time.  Returns the new state and the admission
timestamp. -/
def tmdbRateLimit (limit : Nat) (arrival : ℚ) (s : RLState) : RLState × ℚ :=
  let now := if s.now ≤ arrival then arrival else s.now
  let times := s.times.filter (fun t => now - t < 10)
  if limit ≤ times.length then
    let sleepTime := 10 - (now - times.headD 0)
    let now2 := if 0 < sleepTime then now + sleepTime else now
    (RLState.mk now2 [now2], now2)
  else
    (RLState.mk now (times ++ [now]), now)

/-- The admission times produced by a schedule of arrival times. -/
def rateLimitAdmissions (limit : Nat) (arrivals : List ℚ) : List ℚ :=
  (arrivals.foldl
    (fun (acc : RLState × List ℚ) a =>
      let r := tmdbRateLimit limit a acc.1
      (r.1, acc.2 ++ [r.2]))
    (RLState.mk 0 [], [])).2

/-! ### Aggregator embedding (`stats_calculator.py`)

Well-typed user record sets per §6 of the spec: the loader has already
coerced `Year` columns to integers (0 = unknown) and `Watched Date` to valid
dates.  The `stats` dict is an insertion-ordered list of
`(view name, view value)` pairs; `datetime.now()` is an explicit `today`
parameter. -/

/-- A calendar date (`Watched Date` after `pd.to_datetime`). -/
structure Date where
  year : Int
  month : Nat
  day : Nat
deriving DecidableEq, Repr

/-- Days since 1970-01-01 for a proleptic-Gregorian date (the civil-from-days
algorithm); gives date ordering, differences and weekdays. -/
def daysFromCivil (d : Date) : Int :=
  let y : Int := d.year - (if d.month ≤ 2 then 1 else 0)
  let era : Int := Int.fdiv y 400
  let yoe : Int := y - era * 400
  let mp : Int := Int.emod ((d.month : Int) + 9) 12
  let doy : Int := Int.fdiv (153 * mp + 2) 5 + (d.day : Int) - 1
  let doe : Int := yoe * 365 + Int.fdiv yoe 4 - Int.fdiv yoe 100 + doy
  era * 146097 + doe - 719468

/-- `Series.dt.day_name()` (1970-01-01 was a Thursday). -/
def dayNameOf (d : Date) : String :=
  (["Monday", "Tuesday", "Wednesday", "Thursday", "Friday", "Saturday",
    "Sunday"].getD (Int.emod (daysFromCivil d + 3) 7).toNat "Monday")

/-- Zero-padded two-digit rendering. -/
def pad2 (n : Nat) : String :=
  if n < 10 then "0" ++ toString n else toString n

/-- `str(period)` for a monthly period: `YYYY-MM`. -/
def periodStr (y : Int) (m : Nat) : String := toString y ++ "-" ++ pad2 m

/-- `str(date)`: `YYYY-MM-DD`. -/
def dateStr (d : Date) : String :=
  toString d.year ++ "-" ++ pad2 d.month ++ "-" ++ pad2 d.day

/-- The English month names for `strftime('%B ...')`. -/
def monthNames : List String :=
  ["January", "February", "March", "April", "May", "June", "July", "August",
   "September", "October", "November", "December"]

/-- `date.strftime('%B %d, %Y')`. -/
def strftimeLong (d : Date) : String :=
  monthNames.getD (d.month - 1) "January" ++ " " ++ pad2 d.day ++ ", " ++ toString d.year

/-- A row of `watched.csv` / `watchlist.csv` (`Name`, coerced `Year`). -/
structure WatchedRow where
  name : String
  year : Int
deriving DecidableEq, Repr

/-- A row of `diary.csv` after preprocessing. -/
structure DiaryRow where
  name : String
  year : Int
  watchedDate : Date
  rating : Option ℚ
  rewatch : Option String
  tags : Option String
deriving DecidableEq, Repr

/-- A row of `ratings.csv`. -/
structure RatingRow where
  name : String
  year : Int
  rating : ℚ
deriving DecidableEq, Repr

/-- A row of `likes/films.csv`. -/
structure LikedRow where
  name : String
  year : Int
deriving DecidableEq, Repr

/-- The stored diary DataFrame: its rows plus the names of derived columns
added in place by the aggregator (`diary['watch_year'] = ...` adds a column
to the stored frame). -/
structure DiaryTable where
  rows : List DiaryRow
  extraCols : List String
deriving DecidableEq, Repr

/-- The five user record sets handed to `StatsCalculator` (`letterboxd_data`). -/
structure LBData where
  watched : List WatchedRow
  diary : DiaryTable
  ratings : List RatingRow
  watchlist : List WatchedRow
  likedFilms : List LikedRow
deriving DecidableEq, Repr

/-- The whole aggregator input: clock, user record sets, enrichment store. -/
structure Ctx where
  today : Date
  lb : LBData
  tmdb : List (FilmKey × Movie)

/-- `_build_liked_lookup`. -/
def likedSetOf (ctx : Ctx) : List FilmKey :=
  ctx.lb.likedFilms.map (fun r => ((r.name, r.year) : FilmKey))

/-- `_build_watched_lookup` (excludes the watchlist). -/
def watchedSetOf (ctx : Ctx) : List FilmKey :=
  ctx.lb.watched.map (fun r => ((r.name, r.year) : FilmKey))

/-- `_build_rating_lookup` (later rows overwrite earlier ones, as in a dict). -/
def ratingDictOf (ctx : Ctx) : List (FilmKey × ℚ) :=
  ctx.lb.ratings.foldl (fun acc r => aInsert acc (r.name, r.year) r.rating) []

/-- `is_film_watched`. -/
def isFilmWatched (ctx : Ctx) (k : FilmKey) : Bool := (watchedSetOf ctx).contains k

/-- `is_film_liked`. -/
def isFilmLiked (ctx : Ctx) (k : FilmKey) : Bool := (likedSetOf ctx).contains k

/-- `_get_film_rating` (0 when unrated). -/
def getFilmRating (ctx : Ctx) (k : FilmKey) : ℚ :=
  (aGet? (ratingDictOf ctx) k).getD 0

/-- Python truthiness of an optional string (`None` and `''` are falsy). -/
def truthyStr (o : Option String) : Bool :=
  match o with
  | some s => s ≠ ""
  | none => false

/-- Arithmetic mean (callers guard non-emptiness, as the source does). -/
def meanQ (l : List ℚ) : ℚ := l.sum / (l.length : ℚ)

/-- `config.TOP_ACTORS_COUNT` (config.py line 21, default 20). -/
def TOP_ACTORS_COUNT : Nat := 20

/-- `config.TOP_DIRECTORS_COUNT` (config.py line 22, default 15). -/
def TOP_DIRECTORS_COUNT : Nat := 15

/-- `config.TOP_GENRES_COUNT` (config.py line 23, default 10). -/
def TOP_GENRES_COUNT : Nat := 10

/-- The stats-settings attributes that `config.py` actually defines. -/
def configAttrs : List (String × Nat) :=
  [("TOP_ACTORS_COUNT", TOP_ACTORS_COUNT),
   ("TOP_DIRECTORS_COUNT", TOP_DIRECTORS_COUNT),
   ("TOP_GENRES_COUNT", TOP_GENRES_COUNT)]

/-- Attribute access on the `config` module: a missing attribute raises
`AttributeError`. -/
def configGetNat (name : String) : Except String Nat :=
  match aGet? configAttrs name with
  | some v => Except.ok v
  | none => Except.error ("AttributeError: module app.config has no attribute " ++ name)

/-- The `basic` view. -/
structure BasicView where
  totalWatched : Nat
  totalRated : Nat
  totalLiked : Nat
  totalWatchlist : Nat
  totalDiaryEntries : Nat
  avgRating : ℚ
  rewatches : Nat
deriving DecidableEq, Repr

/-- One `favorites` entry of the genre view. -/
structure FavGenre where
  genre : String
  avgRating : ℚ
  count : Nat
deriving DecidableEq, Repr

/-- The `genres` view. -/
structure GenresView where
  distribution : List (String × Nat)
  favorites : List FavGenre
  totalUnique : Nat
deriving DecidableEq, Repr

/-- An actor's per-film record (carries the played character). -/
structure ActorFilm where
  title : String
  year : Int
  rating : Option ℚ
  liked : Bool
  posterPath : Option String
  character : String
deriving DecidableEq, Repr

/-- The per-film record shared by director/crew/studio/decade views. -/
structure FilmInfo where
  title : String
  year : Int
  rating : Option ℚ
  liked : Bool
  posterPath : Option String
deriving DecidableEq, Repr

/-- A `top_by_count` entry of the actors view. -/
structure TopActor where
  name : String
  count : Nat
  likedCount : Nat
  likeRatio : ℚ
  avgRating : ℚ
  profilePath : Option String
  films : List ActorFilm
deriving DecidableEq, Repr

/-- A `top_by_count` entry of the director and crew views. -/
structure TopPerson where
  name : String
  count : Nat
  likedCount : Nat
  likeRatio : ℚ
  avgRating : ℚ
  profilePath : Option String
  films : List FilmInfo
deriving DecidableEq, Repr

/-- A `favorites` entry of the actor/director views. -/
structure FavPerson where
  name : String
  avgRating : ℚ
  count : Nat
deriving DecidableEq, Repr

/-- The `actors` view. -/
structure ActorsView where
  topByCount : List TopActor
  favorites : List FavPerson
  totalUnique : Nat
deriving DecidableEq, Repr

/-- The `directors` view. -/
structure DirectorsView where
  topByCount : List TopPerson
  favorites : List FavPerson
  totalUnique : Nat
deriving DecidableEq, Repr

/-- The `composers` / `cinematographers` / `writers` views. -/
structure CrewView where
  topByCount : List TopPerson
  totalUnique : Nat
deriving DecidableEq, Repr

/-- A `top_by_count` entry of the studios view (no like ratio). -/
structure StudioEntry where
  name : String
  count : Nat
  likedCount : Nat
  avgRating : ℚ
  logoPath : Option String
  films : List FilmInfo
deriving DecidableEq, Repr

/-- The `studios` view. -/
structure StudiosView where
  topByCount : List StudioEntry
  totalUnique : Nat
deriving DecidableEq, Repr

/-- The `shortest`/`longest` film of the runtime view (`year` is absent from
the initial `N/A` placeholder). -/
structure EndpointFilm where
  title : String
  year : Option Int
  runtime : Int
deriving DecidableEq, Repr

/-- The fixed runtime histogram. -/
structure RuntimeDist where
  lt90 : Nat
  r90to120 : Nat
  r120to150 : Nat
  r150to180 : Nat
  r180plus : Nat
deriving DecidableEq, Repr

/-- The `runtime` view. -/
structure RuntimeView where
  average : ℚ
  totalHours : Int
  totalMinutes : Int
  shortest : EndpointFilm
  longest : EndpointFilm
  minRuntime : Int
  maxRuntime : Int
  distribution : RuntimeDist
deriving DecidableEq, Repr

/-- The `geography` view. -/
structure GeoView where
  topCountries : List (String × Nat)
  topLanguages : List (String × Nat)
  totalCountries : Nat
  totalLanguages : Nat
deriving DecidableEq, Repr

/-- The `rating_trends` view. -/
structure RatingTrendsView where
  monthly : List (String × ℚ)
  yearly : List (Int × ℚ)
deriving DecidableEq, Repr

/-- The `tags` view. -/
structure TagsView where
  topTags : List (String × Nat)
  total : Nat
deriving DecidableEq, Repr

/-- The non-empty payload of the `temporal` view (the empty diary yields the
bare `{}` dict, modelled as `none`). -/
structure TemporalData where
  yearly : List (Int × Nat)
  monthly : List (String × Nat)
  byWeekday : List (String × Nat)
deriving DecidableEq, Repr

/-- A `top_rated`/`bottom_rated` film of a year breakdown. -/
structure RatedFilm where
  title : String
  year : Int
  rating : ℚ
  posterPath : Option String
  liked : Bool
deriving DecidableEq, Repr

/-- The per-film record of year-breakdown and liked-view person lists. -/
structure YFilm where
  title : String
  year : Int
  posterPath : Option String
  rating : Option ℚ
deriving DecidableEq, Repr

/-- The `top_actor`/`top_director` of a year breakdown. -/
structure TopYearPerson where
  name : String
  count : Nat
  films : List YFilm
deriving DecidableEq, Repr

/-- The per-year breakdown returned by `_get_year_stats` /
`_empty_year_stats`. -/
structure YearStats where
  totalFilms : Nat
  totalLiked : Nat
  totalRated : Nat
  avgRating : ℚ
  topRated : List RatedFilm
  bottomRated : List RatedFilm
  topActor : Option TopYearPerson
  topDirector : Option TopYearPerson
  genreDistribution : List (String × Nat)
  mostActiveMonth : Nat
  mostActiveMonthCount : Nat
  monthlyBreakdown : List (Nat × Nat)
deriving DecidableEq, Repr

/-- The non-empty payload of `yearly_breakdown` (`{}` on empty diary). -/
structure YearlyBreakdownData where
  lastFullYear : YearStats
  currentYear : YearStats
  lastFullYearValue : Int
  currentYearValue : Int
deriving DecidableEq, Repr

/-- A ranked person of the `liked` view. -/
structure LikedPerson where
  name : String
  count : Nat
  films : List YFilm
deriving DecidableEq, Repr

/-- The `liked` view. -/
structure LikedView where
  topActors : List LikedPerson
  topDirectors : List LikedPerson
  topGenres : List (String × Nat)
  total : Nat
deriving DecidableEq, Repr

/-- A decade's drill-down in the `decades` view. -/
structure DecadeDetail where
  films : List FilmInfo
  total : Nat
  avgRating : ℚ
deriving DecidableEq, Repr

/-- The `decades` view; the empty-watched branch returns a dict without the
`favorite_decade`/`favorite_decade_avg` keys, hence a separate shape. -/
inductive DecadesView where
  | emptyD : DecadesView
  | dataD (distribution : List (String × Nat × Int))
      (topPerDecade : List (String × DecadeDetail))
      (favoriteDecade : Option String) (favoriteDecadeAvg : ℚ) : DecadesView
deriving DecidableEq, Repr

/-- A `most_rewatched` entry. -/
structure RewatchFilm where
  title : String
  year : Int
  rewatchCount : Nat
  rating : Option ℚ
  liked : Bool
  posterPath : Option String
deriving DecidableEq, Repr

/-- The `rewatches` view; the empty branch returns
`{'total': 0, 'films': [], 'most_rewatched': []}`, whose key set differs
from the non-empty branch, hence a separate shape. -/
inductive RewatchView where
  | emptyR : RewatchView
  | dataR (total : Nat) (uniqueFilms : Nat) (mostRewatched : List RewatchFilm) : RewatchView
deriving DecidableEq, Repr

/-- The first/most-recent film of the `journey` view. -/
structure JourneyFilm where
  title : String
  year : Int
  date : String
  posterPath : Option String
deriving DecidableEq, Repr

/-- A watch-count milestone of the `journey` view. -/
structure Milestone where
  number : Nat
  title : String
  year : Int
  date : String
  posterPath : Option String
deriving DecidableEq, Repr

/-- The non-empty payload of the `journey` view (`{}` on empty diary). -/
structure JourneyData where
  firstFilm : JourneyFilm
  recentFilm : JourneyFilm
  milestones : List Milestone
  totalDiaryEntries : Nat
  maxDay : Option String
  maxDayCount : Nat
  maxMonth : Option String
  maxMonthCount : Nat
  longestStreak : Nat
  daysSinceFirst : Int
deriving DecidableEq, Repr

/-- A `five_star_films` entry. -/
structure FiveStarFilm where
  title : String
  year : Int
  posterPath : Option String
  liked : Bool
deriving DecidableEq, Repr

/-- One emitted fun fact, by payload; the icon/f-string rendering is
presentation and carries exactly these values. -/
inductive FunFact where
  | watchTime (totalHours : Int) (days : ℚ) (weeks : ℚ) : FunFact
  | actorTime (hours : ℚ) (name : String) (count : Nat) : FunFact
  | topDirectorFact (name : String) (count : Nat) (likedCount : Nat) : FunFact
  | decadePref (decade : String) (avg : ℚ) : FunFact
  | filmSpan (span : Int) (oldest : Int) (newest : Int) : FunFact
  | avgFilmAge (age : ℚ) : FunFact
  | filmsPerYear (avg : ℚ) (yearsActive : Nat) : FunFact
deriving DecidableEq, Repr

/-- A value of the `stats` dict: one constructor per view shape. -/
inductive View where
  | basic (v : BasicView) : View
  | genres (v : GenresView) : View
  | actors (v : ActorsView) : View
  | directors (v : DirectorsView) : View
  | runtime (v : RuntimeView) : View
  | geography (v : GeoView) : View
  | ratingTrends (v : RatingTrendsView) : View
  | genreRatingCorrelation (v : List (String × List (ℚ × Nat))) : View
  | tags (v : TagsView) : View
  | temporal (v : Option TemporalData) : View
  | yearlyBreakdown (v : Option YearlyBreakdownData) : View
  | liked (v : LikedView) : View
  | ratingDistribution (v : List (ℚ × Nat)) : View
  | crew (v : CrewView) : View
  | studios (v : StudiosView) : View
  | decades (v : DecadesView) : View
  | rewatches (v : RewatchView) : View
  | journey (v : Option JourneyData) : View
  | fiveStarFilms (v : List FiveStarFilm) : View
  | funFacts (v : List FunFact) : View
deriving Repr

/-- The `stats` dict: view name to view value, in insertion order. -/
abbrev Stats : Type := List (String × View)

/-- Python truthiness of a stored per-film rating (`None` and `0.0` falsy). -/
def truthyRating (o : Option ℚ) : Bool :=
  match o with
  | some r => r ≠ 0
  | none => false

/-- The rated subset of an actor's film list, as rating values (the
`[f['rating'] for f in films if f['rating']]` idiom). -/
def ratedOfA (films : List ActorFilm) : List ℚ :=
  (films.filter (fun f => truthyRating f.rating)).map (fun f => f.rating.getD 0)

/-- The rated subset of a film-info list, as rating values. -/
def ratedOfI (films : List FilmInfo) : List ℚ :=
  (films.filter (fun f => truthyRating f.rating)).map (fun f => f.rating.getD 0)

/-- `metadata.get('poster_path')` through `tmdb_data.get(key, {})`. -/
def mdPoster (ctx : Ctx) (k : FilmKey) : Option String :=
  match aGet? ctx.tmdb k with
  | some m => m.posterPath
  | none => none

/-- Keys in first-occurrence order (`dict`/`Counter` key order). -/
def dedupKeys [BEq α] (l : List α) : List α :=
  l.foldl (fun acc x => if acc.contains x then acc else acc ++ [x]) []

/-- pandas `groupby(key)` over rows: groups keyed and sorted ascending by
`ord`, each group in row order. -/
def groupbySorted [BEq κ] (keyOf : α → κ) (ord : κ → ℚ) (l : List α) :
    List (κ × List α) :=
  (stableSortAscBy ord (dedupKeys (l.map keyOf))).map
    (fun k => (k, l.filter (fun x => keyOf x == k)))

/-- `Series.idxmax` over key/count pairs: the first key attaining the
maximal count. -/
def idxmaxP (l : List (α × Nat)) : Option (α × Nat) :=
  l.foldl
    (fun acc p =>
      match acc with
      | none => some p
      | some q => if q.2 < p.2 then some p else acc)
    none

/-- `_calculate_basic_stats`. -/
def calcBasicStats (ctx : Ctx) : BasicView :=
  { totalWatched := ctx.lb.watched.length
    totalRated := ctx.lb.ratings.length
    totalLiked := ctx.lb.likedFilms.length
    totalWatchlist := ctx.lb.watchlist.length
    totalDiaryEntries := ctx.lb.diary.rows.length
    avgRating :=
      if ctx.lb.ratings.isEmpty then 0
      else round2 (meanQ (ctx.lb.ratings.map (fun r => r.rating)))
    rewatches :=
      if ctx.lb.diary.rows.isEmpty then 0
      else ctx.lb.diary.rows.countP (fun r => r.rewatch.isSome) }

/-- `_calculate_genre_stats` (watched films only). -/
def calcGenreStats (ctx : Ctx) : GenresView :=
  let agg :=
    ctx.tmdb.foldl
      (fun (acc : Counter String × List (String × List ℚ)) p =>
        if isFilmWatched ctx p.1 then
          let rating := getFilmRating ctx p.1
          p.2.genres.foldl
            (fun acc g =>
              (cInc acc.1 g, if 0 < rating then aAppend acc.2 g rating else acc.2))
            acc
        else acc)
      ([], [])
  let favorites :=
    (stableSortDescBy (fun f => f.avgRating)
      (agg.2.foldl
        (fun acc p =>
          if 3 ≤ p.2.length then
            acc ++ [FavGenre.mk p.1 (round2 (meanQ p.2)) p.2.length]
          else acc)
        [])).take 10
  { distribution := mostCommon agg.1 TOP_GENRES_COUNT
    favorites := favorites
    totalUnique := agg.1.length }

/-- The single-pass aggregation state of `_calculate_actor_stats`. -/
structure ActorAgg where
  counts : Counter String
  ratings : List (String × List ℚ)
  films : List (String × List ActorFilm)
  likedCounts : Counter String
  profiles : List (String × String)

/-- The aggregation loop of `_calculate_actor_stats` (watched films only). -/
def actorAggOf (ctx : Ctx) : ActorAgg :=
  ctx.tmdb.foldl
    (fun agg p =>
      if isFilmWatched ctx p.1 then
        let rating := getFilmRating ctx p.1
        let isLiked := isFilmLiked ctx p.1
        p.2.actors.foldl
          (fun (agg : ActorAgg) a =>
            { counts := cInc agg.counts a.name
              profiles :=
                if !(agg.profiles.any (fun q => q.1 == a.name)) && truthyStr a.profilePath then
                  agg.profiles ++ [(a.name, a.profilePath.getD "")]
                else agg.profiles
              likedCounts :=
                if isLiked then cInc agg.likedCounts a.name else agg.likedCounts
              films :=
                aAppend agg.films a.name
                  (ActorFilm.mk p.1.1 p.1.2 (if rating ≠ 0 then some rating else none)
                    isLiked p.2.posterPath (a.character.getD ""))
              ratings :=
                if 0 < rating then aAppend agg.ratings a.name rating else agg.ratings })
          agg
      else agg)
    (ActorAgg.mk [] [] [] [] [])

/-- `_calculate_actor_stats`. -/
def calcActorStats (ctx : Ctx) : ActorsView :=
  let agg := actorAggOf ctx
  let favorites :=
    (stableSortDescBy (fun f => f.avgRating)
      (agg.ratings.foldl
        (fun acc p =>
          if 3 ≤ p.2.length then
            acc ++ [FavPerson.mk p.1 (round2 (meanQ p.2)) p.2.length]
          else acc)
        [])).take 15
  let topByCount :=
    (mostCommon agg.counts TOP_ACTORS_COUNT).map
      (fun p =>
        let films := stableSortDescBy (fun f => (f.year : ℚ)) ((aGet? agg.films p.1).getD [])
        let likedCount := cGet agg.likedCounts p.1
        let avgRating :=
          match aGet? agg.ratings p.1 with
          | some rl => round2 (meanQ rl)
          | none => 0
        TopActor.mk p.1 p.2 likedCount
          (if 0 < p.2 then round1 ((likedCount : ℚ) / (p.2 : ℚ) * 100) else 0)
          avgRating (aGet? agg.profiles p.1) films)
  ActorsView.mk topByCount favorites agg.counts.length

/-- The single-pass aggregation state of `_calculate_director_stats`. -/
structure DirectorAgg where
  counts : Counter String
  ratings : List (String × List ℚ)
  films : List (String × List FilmInfo)
  likedCounts : Counter String
  profiles : List (String × String)

/-- `director_profile_map.get(director)` on the `director_profiles` dict. -/
def dpGet (l : List (String × Option String)) (d : String) : Option String :=
  ((l.find? (fun p => p.1 == d)).map (fun p => p.2)).getD none

/-- The aggregation loop of `_calculate_director_stats` (watched only). -/
def directorAggOf (ctx : Ctx) : DirectorAgg :=
  ctx.tmdb.foldl
    (fun agg p =>
      if isFilmWatched ctx p.1 then
        let rating := getFilmRating ctx p.1
        let isLiked := isFilmLiked ctx p.1
        p.2.directors.foldl
          (fun (agg : DirectorAgg) d =>
            { counts := cInc agg.counts d
              profiles :=
                if !(agg.profiles.any (fun q => q.1 == d)) &&
                    truthyStr (dpGet p.2.directorProfiles d) then
                  agg.profiles ++ [(d, (dpGet p.2.directorProfiles d).getD "")]
                else agg.profiles
              likedCounts := if isLiked then cInc agg.likedCounts d else agg.likedCounts
              films :=
                aAppend agg.films d
                  (FilmInfo.mk p.1.1 p.1.2 (if rating ≠ 0 then some rating else none)
                    isLiked p.2.posterPath)
              ratings :=
                if 0 < rating then aAppend agg.ratings d rating else agg.ratings })
          agg
      else agg)
    (DirectorAgg.mk [] [] [] [] [])

/-- `_calculate_director_stats`. -/
def calcDirectorStats (ctx : Ctx) : DirectorsView :=
  let agg := directorAggOf ctx
  let favorites :=
    (stableSortDescBy (fun f => f.avgRating)
      (agg.ratings.foldl
        (fun acc p =>
          if 2 ≤ p.2.length then
            acc ++ [FavPerson.mk p.1 (round2 (meanQ p.2)) p.2.length]
          else acc)
        [])).take 10
  let topByCount :=
    (mostCommon agg.counts TOP_DIRECTORS_COUNT).map
      (fun p =>
        let films := stableSortDescBy (fun f => (f.year : ℚ)) ((aGet? agg.films p.1).getD [])
        let likedCount := cGet agg.likedCounts p.1
        let avgRating :=
          match aGet? agg.ratings p.1 with
          | some rl => round2 (meanQ rl)
          | none => 0
        TopPerson.mk p.1 p.2 likedCount
          (if 0 < p.2 then round1 ((likedCount : ℚ) / (p.2 : ℚ) * 100) else 0)
          avgRating (aGet? agg.profiles p.1) films)
  DirectorsView.mk topByCount favorites agg.counts.length

/-- The fold state of `_calculate_runtime_stats`. -/
structure RtAcc where
  runtimes : List Int
  dist : RuntimeDist
  shortest : EndpointFilm
  longest : EndpointFilm

/-- `_calculate_runtime_stats` (watched films only). -/
def calcRuntimeStats (ctx : Ctx) : RuntimeView :=
  let acc :=
    ctx.tmdb.foldl
      (fun (acc : RtAcc) p =>
        if isFilmWatched ctx p.1 then
          match p.2.runtime with
          | some r =>
            if 0 < r then
              { runtimes := acc.runtimes ++ [r]
                shortest :=
                  if r < acc.shortest.runtime then EndpointFilm.mk p.1.1 (some p.1.2) r
                  else acc.shortest
                longest :=
                  if acc.longest.runtime < r then EndpointFilm.mk p.1.1 (some p.1.2) r
                  else acc.longest
                dist :=
                  if r < 90 then { acc.dist with lt90 := acc.dist.lt90 + 1 }
                  else if r < 120 then { acc.dist with r90to120 := acc.dist.r90to120 + 1 }
                  else if r < 150 then { acc.dist with r120to150 := acc.dist.r120to150 + 1 }
                  else if r < 180 then { acc.dist with r150to180 := acc.dist.r150to180 + 1 }
                  else { acc.dist with r180plus := acc.dist.r180plus + 1 } }
            else acc
          | none => acc
        else acc)
      (RtAcc.mk [] (RuntimeDist.mk 0 0 0 0 0) (EndpointFilm.mk "N/A" none 999999)
        (EndpointFilm.mk "N/A" none 0))
  let totalMinutes := acc.runtimes.sum
  { average :=
      if acc.runtimes.isEmpty then 0
      else round1 ((totalMinutes : ℚ) / (acc.runtimes.length : ℚ))
    totalHours := pyRoundInt ((totalMinutes : ℚ) / 60)
    totalMinutes := totalMinutes
    shortest :=
      if acc.shortest.runtime == 999999 then EndpointFilm.mk "N/A" none 0 else acc.shortest
    longest := acc.longest
    minRuntime := (acc.runtimes.min?).getD 0
    maxRuntime := (acc.runtimes.max?).getD 0
    distribution := acc.dist }

/-- `_calculate_country_language_stats` (watched films only).  Reads
`config.TOP_COUNTRIES_COUNT` / `config.TOP_LANGUAGES_COUNT`, neither of
which `config.py` defines, so the attribute access raises. -/
def calcCountryLanguageStats (ctx : Ctx) : Except String GeoView :=
  let agg :=
    ctx.tmdb.foldl
      (fun (acc : Counter String × Counter String) p =>
        if isFilmWatched ctx p.1 then
          let countryCounts := p.2.productionCountries.foldl cInc acc.1
          let languageCounts :=
            if truthyStr p.2.originalLanguage then
              cInc acc.2 (p.2.originalLanguage.getD "")
            else acc.2
          (countryCounts, languageCounts)
        else acc)
      ([], [])
  match configGetNat "TOP_COUNTRIES_COUNT" with
  | Except.error e => Except.error e
  | Except.ok nc =>
    match configGetNat "TOP_LANGUAGES_COUNT" with
    | Except.error e => Except.error e
    | Except.ok nl =>
      Except.ok
        (GeoView.mk (mostCommon agg.1 nc) (mostCommon agg.2 nl) agg.1.length agg.2.length)

/-- `_calculate_rating_trends`. -/
def calcRatingTrends (ctx : Ctx) : RatingTrendsView :=
  if ctx.lb.diary.rows.isEmpty then RatingTrendsView.mk [] []
  else
    let rated := ctx.lb.diary.rows.filter (fun r => r.rating.isSome)
    if rated.isEmpty then RatingTrendsView.mk [] []
    else
      let monthly :=
        (groupbySorted (fun r => ((r.watchedDate.year, r.watchedDate.month) : Int × Nat))
          (fun k => ((k.1 * 12 + (k.2 : Int) : Int) : ℚ)) rated).map
          (fun g => (periodStr g.1.1 g.1.2, round2 (meanQ (g.2.map (fun r => r.rating.getD 0)))))
      let yearly :=
        (groupbySorted (fun r => r.watchedDate.year) (fun (y : Int) => (y : ℚ)) rated).map
          (fun g => (g.1, round2 (meanQ (g.2.map (fun r => r.rating.getD 0)))))
      RatingTrendsView.mk monthly yearly

/-- One `matrix[genre][bucket] += 1` step of
`_calculate_genre_rating_correlation`. -/
def matStep (m : List (String × Counter ℚ)) (g : String) (b : ℚ) :
    List (String × Counter ℚ) :=
  let m1 := if m.any (fun p => p.1 == g) then m else m ++ [(g, [])]
  m1.map (fun p => if p.1 == g then (p.1, cInc p.2 b) else p)

/-- `_calculate_genre_rating_correlation` (note: no watched-only filter). -/
def calcGenreRatingCorrelation (ctx : Ctx) : List (String × Counter ℚ) :=
  ctx.tmdb.foldl
    (fun m p =>
      let rating := getFilmRating ctx p.1
      if 0 < rating then
        let bucket := (pyRoundInt (rating * 2) : ℚ) / 2
        p.2.genres.foldl (fun m g => matStep m g bucket) m
      else m)
    []

/-- `_calculate_tag_stats` (comma-split, stripped, no empty filter). -/
def calcTagStats (ctx : Ctx) : TagsView :=
  if ctx.lb.diary.rows.isEmpty then TagsView.mk [] 0
  else
    let counts :=
      ctx.lb.diary.rows.foldl
        (fun acc r =>
          match r.tags with
          | some s =>
            ((splitOnChar ',' s.toList).map (fun w => String.mk (stripEnds w))).foldl cInc acc
          | none => acc)
        []
    TagsView.mk (mostCommon counts 20) counts.length

/-- `diary['col'] = ...` on the stored frame: adds the column name in place
(an existing column is overwritten without changing the column set). -/
def addCol (cols : List String) (c : String) : List String :=
  if cols.contains c then cols else cols ++ [c]

/-- `_calculate_temporal_stats`.  It assigns `watch_year`, `watch_month` and
`weekday` columns to the stored diary frame, so it returns the temporal view
together with the updated diary table. -/
def calcTemporalStats (ctx : Ctx) : Option TemporalData × DiaryTable :=
  if ctx.lb.diary.rows.isEmpty then (none, ctx.lb.diary)
  else
    let rows := ctx.lb.diary.rows
    let cols :=
      addCol (addCol (addCol ctx.lb.diary.extraCols "watch_year") "watch_month") "weekday"
    let yearly :=
      stableSortAscBy (fun (p : Int × Nat) => (p.1 : ℚ))
        (rows.foldl (fun acc r => cInc acc r.watchedDate.year) [])
    let monthlyAll :=
      (groupbySorted (fun r => ((r.watchedDate.year, r.watchedDate.month) : Int × Nat))
        (fun k => ((k.1 * 12 + (k.2 : Int) : Int) : ℚ)) rows).map
        (fun g => (periodStr g.1.1 g.1.2, g.2.length))
    let monthly := monthlyAll.drop (monthlyAll.length - 24)
    let byWeekday :=
      mostCommonAll (rows.foldl (fun acc r => cInc acc (dayNameOf r.watchedDate)) [])
    (some (TemporalData.mk yearly monthly byWeekday), DiaryTable.mk rows cols)

/-- `_empty_year_stats`. -/
def emptyYearStats : YearStats :=
  YearStats.mk 0 0 0 0 [] [] none none [] 0 0 []

/-- `_get_year_stats`. -/
def calcYearStats (ctx : Ctx) (year : Int) : YearStats :=
  if ctx.lb.diary.rows.isEmpty then emptyYearStats
  else
    let yd := ctx.lb.diary.rows.filter (fun r => r.watchedDate.year == year)
    if yd.isEmpty then emptyYearStats
    else
      let likedCount := yd.countP (fun r => isFilmLiked ctx (r.name, r.year))
      let rated := yd.filter (fun r => r.rating.isSome)
      let mkRated := fun (r : DiaryRow) =>
        RatedFilm.mk r.name r.year (r.rating.getD 0) (mdPoster ctx (r.name, r.year))
          (isFilmLiked ctx (r.name, r.year))
      let topRated :=
        if rated.isEmpty then []
        else ((stableSortDescBy (fun r => r.rating.getD 0) rated).take 8).map mkRated
      let bottomRated :=
        if 8 ≤ rated.length then
          ((stableSortAscBy (fun r => r.rating.getD 0) rated).take 8).map mkRated
        else []
      let monthCounter := yd.foldl (fun acc r => cInc acc r.watchedDate.month) []
      let mam := (mostCommonAll monthCounter).headD (0, 0)
      let agg :=
        yd.foldl
          (fun (acc : Counter String × Counter String × Counter String ×
              List (String × List YFilm) × List (String × List YFilm)) r =>
            let md := aGet? ctx.tmdb (r.name, r.year)
            let filmInfo := YFilm.mk r.name r.year (mdPoster ctx (r.name, r.year)) r.rating
            let afterActors :=
              ((md.map (fun m => m.actors)).getD []).foldl
                (fun (q : Counter String × List (String × List YFilm)) a =>
                  (cInc q.1 a.name, aAppend q.2 a.name filmInfo))
                (acc.1, acc.2.2.2.1)
            let afterDirectors :=
              ((md.map (fun m => m.directors)).getD []).foldl
                (fun (q : Counter String × List (String × List YFilm)) d =>
                  (cInc q.1 d, aAppend q.2 d filmInfo))
                (acc.2.1, acc.2.2.2.2)
            let genreCounts := ((md.map (fun m => m.genres)).getD []).foldl cInc acc.2.2.1
            (afterActors.1, afterDirectors.1, genreCounts, afterActors.2, afterDirectors.2))
          ([], [], [], [], [])
      let actorCounts := agg.1
      let directorCounts := agg.2.1
      let genreCounts := agg.2.2.1
      let actorYearFilms := agg.2.2.2.1
      let directorYearFilms := agg.2.2.2.2
      let topActor :=
        match mostCommon actorCounts 1 with
        | p :: _ => some (TopYearPerson.mk p.1 p.2 (((aGet? actorYearFilms p.1).getD []).take 10))
        | [] => none
      let topDirector :=
        match mostCommon directorCounts 1 with
        | p :: _ => some (TopYearPerson.mk p.1 p.2 ((aGet? directorYearFilms p.1).getD []))
        | [] => none
      let monthlyBreakdown :=
        (groupbySorted (fun r => r.watchedDate.month) (fun (m : Nat) => (m : ℚ)) yd).map
          (fun g => (g.1, g.2.length))
      { totalFilms := yd.length
        totalLiked := likedCount
        totalRated := rated.length
        avgRating :=
          if rated.isEmpty then 0 else round2 (meanQ (rated.map (fun r => r.rating.getD 0)))
        topRated := topRated
        bottomRated := bottomRated
        topActor := topActor
        topDirector := topDirector
        genreDistribution := mostCommon genreCounts 10
        mostActiveMonth := mam.1
        mostActiveMonthCount := mam.2
        monthlyBreakdown := monthlyBreakdown }

/-- `_calculate_yearly_breakdown`. -/
def calcYearlyBreakdown (ctx : Ctx) : Option YearlyBreakdownData :=
  if ctx.lb.diary.rows.isEmpty then none
  else
    some
      (YearlyBreakdownData.mk (calcYearStats ctx (ctx.today.year - 1))
        (calcYearStats ctx ctx.today.year) (ctx.today.year - 1) ctx.today.year)

/-- `_calculate_liked_stats`. -/
def calcLikedStats (ctx : Ctx) : LikedView :=
  if ctx.lb.likedFilms.isEmpty then LikedView.mk [] [] [] 0
  else
    let agg :=
      ctx.lb.likedFilms.foldl
        (fun (acc : Counter String × Counter String × Counter String ×
            List (String × List YFilm) × List (String × List YFilm)) r =>
          let k : FilmKey := (r.name, r.year)
          let md := aGet? ctx.tmdb k
          let rating := getFilmRating ctx k
          let filmInfo :=
            YFilm.mk r.name r.year (mdPoster ctx k) (if rating ≠ 0 then some rating else none)
          let afterActors :=
            ((md.map (fun m => m.actors)).getD []).foldl
              (fun (q : Counter String × List (String × List YFilm)) a =>
                (cInc q.1 a.name, aAppend q.2 a.name filmInfo))
              (acc.1, acc.2.2.2.1)
          let afterDirectors :=
            ((md.map (fun m => m.directors)).getD []).foldl
              (fun (q : Counter String × List (String × List YFilm)) d =>
                (cInc q.1 d, aAppend q.2 d filmInfo))
              (acc.2.1, acc.2.2.2.2)
          let genreCounts := ((md.map (fun m => m.genres)).getD []).foldl cInc acc.2.2.1
          (afterActors.1, afterDirectors.1, genreCounts, afterActors.2, afterDirectors.2))
        ([], [], [], [], [])
    let topActors :=
      (mostCommon agg.1 15).map
        (fun p =>
          LikedPerson.mk p.1 p.2
            (stableSortDescBy (fun f => (f.year : ℚ)) ((aGet? agg.2.2.2.1 p.1).getD [])))
    let topDirectors :=
      (mostCommon agg.2.1 15).map
        (fun p =>
          LikedPerson.mk p.1 p.2
            (stableSortDescBy (fun f => (f.year : ℚ)) ((aGet? agg.2.2.2.2 p.1).getD [])))
    LikedView.mk topActors topDirectors (mostCommon agg.2.2.1 10) ctx.lb.likedFilms.length

/-- The ten half-star levels iterated by `_calculate_rating_distribution`. -/
def ratingLevels : List ℚ :=
  [1/2, 1, 3/2, 2, 5/2, 3, 7/2, 4, 9/2, 5]

/-- `_calculate_rating_distribution`. -/
def calcRatingDistribution (ratings : List RatingRow) : List (ℚ × Nat) :=
  if ratings.isEmpty then []
  else
    ratingLevels.map
      (fun r => (r, (ratings.filter (fun row => row.rating == r)).length))

/-- The single-role aggregation state of `_calculate_crew_stats`. -/
structure CrewAgg where
  counts : Counter String
  films : List (String × List FilmInfo)
  likedCounts : Counter String
  profiles : List (String × String)

/-- The aggregation loop of one `_calculate_crew_stats` role (the
near-identical loop is written once in the source too, over `crew_roles`). -/
def crewAggOf (sel : Movie → List Person) (ctx : Ctx) : CrewAgg :=
  ctx.tmdb.foldl
    (fun (agg : CrewAgg) p =>
      if isFilmWatched ctx p.1 then
        let rating := getFilmRating ctx p.1
        let isLiked := isFilmLiked ctx p.1
        (sel p.2).foldl
          (fun (agg : CrewAgg) person =>
            { counts := cInc agg.counts person.name
              profiles :=
                if truthyStr person.profilePath &&
                    !(agg.profiles.any (fun q => q.1 == person.name)) then
                  agg.profiles ++ [(person.name, person.profilePath.getD "")]
                else agg.profiles
              likedCounts :=
                if isLiked then cInc agg.likedCounts person.name else agg.likedCounts
              films :=
                aAppend agg.films person.name
                  (FilmInfo.mk p.1.1 p.1.2 (if rating ≠ 0 then some rating else none)
                    isLiked p.2.posterPath) })
          agg
      else agg)
    (CrewAgg.mk [] [] [] [])

/-- One role of `_calculate_crew_stats`, parameterized by the role's field
selector. -/
def calcCrewRole (sel : Movie → List Person) (ctx : Ctx) : CrewView :=
  let agg := crewAggOf sel ctx
  let topPeople :=
    (mostCommon agg.counts 10).map
      (fun p =>
        let films := stableSortDescBy (fun f => (f.year : ℚ)) ((aGet? agg.films p.1).getD [])
        let likedCount := cGet agg.likedCounts p.1
        let ratingsList :=
          (films.filter (fun f => truthyRating f.rating)).map (fun f => f.rating.getD 0)
        TopPerson.mk p.1 p.2 likedCount
          (if 0 < p.2 then round1 ((likedCount : ℚ) / (p.2 : ℚ) * 100) else 0)
          (if ratingsList.isEmpty then 0 else round2 (meanQ ratingsList))
          (aGet? agg.profiles p.1) films)
  CrewView.mk topPeople agg.counts.length

/-- The aggregation state of `_calculate_studio_stats`. -/
structure StudioAgg where
  counts : Counter String
  films : List (String × List FilmInfo)
  likedCounts : Counter String
  logos : List (String × String)

/-- The aggregation loop of `_calculate_studio_stats`. -/
def studioAggOf (ctx : Ctx) : StudioAgg :=
  ctx.tmdb.foldl
    (fun (agg : StudioAgg) p =>
      if isFilmWatched ctx p.1 then
        let rating := getFilmRating ctx p.1
        let isLiked := isFilmLiked ctx p.1
        p.2.productionCompanies.foldl
          (fun (agg : StudioAgg) c =>
            { counts := cInc agg.counts c.name
              logos :=
                if truthyStr c.logoPath && !(agg.logos.any (fun q => q.1 == c.name)) then
                  agg.logos ++ [(c.name, c.logoPath.getD "")]
                else agg.logos
              likedCounts :=
                if isLiked then cInc agg.likedCounts c.name else agg.likedCounts
              films :=
                aAppend agg.films c.name
                  (FilmInfo.mk p.1.1 p.1.2 (if rating ≠ 0 then some rating else none)
                    isLiked p.2.posterPath) })
          agg
      else agg)
    (StudioAgg.mk [] [] [] [])

/-- `_calculate_studio_stats` (companies are dicts in both transforms). -/
def calcStudioStats (ctx : Ctx) : StudiosView :=
  let agg := studioAggOf ctx
  let topStudios :=
    (mostCommon agg.counts 10).map
      (fun p =>
        let films := stableSortDescBy (fun f => (f.year : ℚ)) ((aGet? agg.films p.1).getD [])
        let likedCount := cGet agg.likedCounts p.1
        let ratingsList :=
          (films.filter (fun f => truthyRating f.rating)).map (fun f => f.rating.getD 0)
        StudioEntry.mk p.1 p.2 likedCount
          (if ratingsList.isEmpty then 0 else round2 (meanQ ratingsList))
          (aGet? agg.logos p.1) films)
  StudiosView.mk topStudios agg.counts.length

/-- Bool order `False < True` for the `(rating, liked)` tuple sort key. -/
def boolLt (a b : Bool) : Bool := !a && b

/-- `_calculate_decade_stats`. -/
def calcDecadeStats (ctx : Ctx) : DecadesView :=
  if ctx.lb.watched.isEmpty then DecadesView.emptyD
  else
    let agg :=
      ctx.lb.watched.foldl
        (fun (acc : Counter Int × List (Int × List FilmInfo) × List (Int × List ℚ)) r =>
          if 0 < r.year then
            let decade := Int.fdiv r.year 10 * 10
            let k : FilmKey := (r.name, r.year)
            let rating := getFilmRating ctx k
            let films :=
              aAppend acc.2.1 decade
                (FilmInfo.mk r.name r.year (if rating ≠ 0 then some rating else none)
                  (isFilmLiked ctx k) (mdPoster ctx k))
            let ratings :=
              if 0 < rating then aAppend acc.2.2 decade rating else acc.2.2
            (cInc acc.1 decade, films, ratings)
          else acc)
        ([], [], [])
    let decadeCounts := agg.1
    let decadeFilms := agg.2.1
    let decadeRatings := agg.2.2
    let distribution :=
      (stableSortAscBy (fun (p : Int × Nat) => (p.1 : ℚ)) decadeCounts).map
        (fun p => (toString p.1 ++ "s", p.2, p.1))
    let topPerDecade :=
      decadeFilms.map
        (fun p =>
          let ratedFilms := p.2.filter (fun f => truthyRating f.rating)
          let sortedFilms :=
            (stableSortDescWith
              (fun a b =>
                a.rating.getD 0 < b.rating.getD 0 ||
                  (a.rating.getD 0 == b.rating.getD 0 && boolLt a.liked b.liked))
              ratedFilms).take 5
          let avgRating :=
            match aGet? decadeRatings p.1 with
            | some rl => round2 (meanQ rl)
            | none => 0
          (toString p.1 ++ "s", DecadeDetail.mk sortedFilms (cGet decadeCounts p.1) avgRating))
    let best :=
      decadeRatings.foldl
        (fun (acc : Option String × ℚ) p =>
          if 10 ≤ p.2.length then
            let avg := meanQ p.2
            if acc.2 < avg then (some (toString p.1 ++ "s"), avg) else acc
          else acc)
        (none, 0)
    DecadesView.dataD distribution topPerDecade best.1 (round2 best.2)

/-- `_calculate_rewatch_stats`. -/
def calcRewatchStats (ctx : Ctx) : RewatchView :=
  if ctx.lb.diary.rows.isEmpty then RewatchView.emptyR
  else
    let rw := ctx.lb.diary.rows.filter (fun r => r.rewatch == some "Yes")
    if rw.isEmpty then RewatchView.emptyR
    else
      let counts : Counter FilmKey := rw.foldl (fun acc r => cInc acc (r.name, r.year)) []
      let most :=
        (mostCommon counts 10).map
          (fun p =>
            let rating := getFilmRating ctx p.1
            RewatchFilm.mk p.1.1 p.1.2 (p.2 + 1)
              (if rating ≠ 0 then some rating else none) (isFilmLiked ctx p.1)
              (mdPoster ctx p.1))
      RewatchView.dataR rw.length counts.length most

/-- The longest run of consecutive days (`longest_streak` loop over the
sorted distinct watch dates). -/
def longestStreakOf (days : List Int) : Nat :=
  (days.foldl
    (fun (acc : Nat × Nat × Option Int) d =>
      match acc.2.2 with
      | none => (acc.1, acc.2.1, some d)
      | some p =>
        if d - p == 1 then (max acc.1 (acc.2.1 + 1), acc.2.1 + 1, some d)
        else (acc.1, 1, some d))
    (1, 1, none)).1

/-- `_calculate_journey_stats`. -/
def calcJourneyStats (ctx : Ctx) : Option JourneyData :=
  if ctx.lb.diary.rows.isEmpty then none
  else
    let sortedD :=
      stableSortAscBy (fun r => (daysFromCivil r.watchedDate : ℚ)) ctx.lb.diary.rows
    match sortedD with
    | [] => none
    | f :: rest =>
      let mkJourneyFilm := fun (e : DiaryRow) =>
        JourneyFilm.mk e.name e.year (strftimeLong e.watchedDate)
          (mdPoster ctx (e.name, e.year))
      let recent := (f :: rest).getLastD f
      let milestones :=
        ([100, 250, 500, 750, 1000, 1500, 2000]).foldl
          (fun acc num =>
            if num ≤ sortedD.length then
              match sortedD.get? (num - 1) with
              | some e =>
                acc ++ [Milestone.mk num e.name e.year (strftimeLong e.watchedDate)
                  (mdPoster ctx (e.name, e.year))]
              | none => acc
            else acc)
          []
      let daily :=
        (groupbySorted (fun r => r.watchedDate) (fun (d : Date) => (daysFromCivil d : ℚ)) sortedD).map
          (fun g => (g.1, g.2.length))
      let maxDayP := idxmaxP daily
      let monthly :=
        (groupbySorted (fun r => ((r.watchedDate.year, r.watchedDate.month) : Int × Nat))
          (fun k => ((k.1 * 12 + (k.2 : Int) : Int) : ℚ)) sortedD).map
          (fun g => (g.1, g.2.length))
      let maxMonthP := idxmaxP monthly
      let dates :=
        stableSortAscBy (fun d => (daysFromCivil d : ℚ))
          (dedupKeys (sortedD.map (fun r => r.watchedDate)))
      some
        { firstFilm := mkJourneyFilm f
          recentFilm := mkJourneyFilm recent
          milestones := milestones
          totalDiaryEntries := sortedD.length
          maxDay := maxDayP.map (fun p => dateStr p.1)
          maxDayCount := (maxDayP.map (fun p => p.2)).getD 0
          maxMonth := maxMonthP.map (fun p => periodStr p.1.1 p.1.2)
          maxMonthCount := (maxMonthP.map (fun p => p.2)).getD 0
          longestStreak := longestStreakOf (dates.map daysFromCivil)
          daysSinceFirst :=
            match dates with
            | d :: _ => daysFromCivil ctx.today - daysFromCivil d
            | [] => 0 }

/-- `_calculate_five_star_films`. -/
def calcFiveStarFilms (ctx : Ctx) : List FiveStarFilm :=
  if ctx.lb.ratings.isEmpty then []
  else
    stableSortDescBy (fun f => (f.year : ℚ))
      ((ctx.lb.ratings.filter (fun r => r.rating == 5)).map
        (fun r =>
          FiveStarFilm.mk r.name r.year (mdPoster ctx (r.name, r.year))
            (isFilmLiked ctx (r.name, r.year))))

/-- `_calculate_fun_facts` (consumes the runtime/actor/director/decade views
computed earlier in the same pass).  NB `metadata.get('runtime', 0)` returns
the stored `None` for a record with a null runtime, which would raise
`TypeError` in the sum; that path is modelled as 0 and is unreachable in the
shipped pipeline (`calculate_all` aborts earlier, see the geography view). -/
def calcFunFacts (ctx : Ctx) (runtimeV : RuntimeView) (actorsV : ActorsView)
    (directorsV : DirectorsView) (decadesV : DecadesView) : List FunFact :=
  let f1 :=
    if 0 < runtimeV.totalHours then
      [FunFact.watchTime runtimeV.totalHours (round1 ((runtimeV.totalHours : ℚ) / 24))
        (round1 ((runtimeV.totalHours : ℚ) / 168))]
    else []
  let f2 :=
    match actorsV.topByCount with
    | top :: _ =>
      let actorRuntime : Int :=
        top.films.foldl
          (fun acc f =>
            acc +
              (match aGet? ctx.tmdb (f.title, f.year) with
               | some m => m.runtime.getD 0
               | none => 0))
          0
      if 0 < actorRuntime then
        [FunFact.actorTime (round1 ((actorRuntime : ℚ) / 60)) top.name top.count]
      else []
    | [] => []
  let f3 :=
    match directorsV.topByCount with
    | top :: _ => [FunFact.topDirectorFact top.name top.count top.likedCount]
    | [] => []
  let f4 :=
    match decadesV with
    | DecadesView.dataD _ _ (some fd) avg => [FunFact.decadePref fd avg]
    | _ => []
  let oldnew :=
    ctx.lb.watched.foldl
      (fun (acc : Option (String × Int) × Option (String × Int)) r =>
        if 1800 < r.year then
          let oldest :=
            match acc.1 with
            | none => some (r.name, r.year)
            | some o => if r.year < o.2 then some (r.name, r.year) else acc.1
          let newest :=
            match acc.2 with
            | none => some (r.name, r.year)
            | some n => if n.2 < r.year then some (r.name, r.year) else acc.2
          (oldest, newest)
        else acc)
      (none, none)
  let f5 :=
    match oldnew with
    | (some o, some n) => [FunFact.filmSpan (n.2 - o.2) o.2 n.2]
    | _ => []
  let ages :=
    (ctx.lb.watched.filter (fun r => 1800 < r.year)).map
      (fun r => ((ctx.today.year - r.year : Int) : ℚ))
  let f6 := if ages.isEmpty then [] else [FunFact.avgFilmAge (round1 (meanQ ages))]
  let f7 :=
    if ctx.lb.diary.rows.isEmpty then []
    else
      let yearsActive := (dedupKeys (ctx.lb.diary.rows.map (fun r => r.watchedDate.year))).length
      if 0 < yearsActive then
        [FunFact.filmsPerYear (round1 ((ctx.lb.diary.rows.length : ℚ) / (yearsActive : ℚ)))
          yearsActive]
      else []
  f1 ++ f2 ++ f3 ++ f4 ++ f5 ++ f6 ++ f7

/-- `StatsCalculator.calculate_all`: runs the view routines in source order
and assembles the `stats` dict.  The geography step's missing config
attributes abort the run (`Except.error`), leaving the stored diary
untouched; on the (unreachable) success path the diary carries the columns
added by the temporal step, whose row data the later routines re-read
unchanged. -/
def calculateAll (ctx : Ctx) : Except String Stats × DiaryTable :=
  let basic := calcBasicStats ctx
  let genres := calcGenreStats ctx
  let actors := calcActorStats ctx
  let directors := calcDirectorStats ctx
  let runtimeV := calcRuntimeStats ctx
  match calcCountryLanguageStats ctx with
  | Except.error e => (Except.error e, ctx.lb.diary)
  | Except.ok geography =>
    let trends := calcRatingTrends ctx
    let corr := calcGenreRatingCorrelation ctx
    let tagsV := calcTagStats ctx
    let tmp := calcTemporalStats ctx
    let yearly := calcYearlyBreakdown ctx
    let likedV := calcLikedStats ctx
    let rdist := calcRatingDistribution ctx.lb.ratings
    let composersV := calcCrewRole (fun m => m.composers) ctx
    let cinematographersV := calcCrewRole (fun m => m.cinematographers) ctx
    let writersV := calcCrewRole (fun m => m.writers) ctx
    let studiosV := calcStudioStats ctx
    let decadesV := calcDecadeStats ctx
    let rewatchesV := calcRewatchStats ctx
    let journeyV := calcJourneyStats ctx
    let fiveStar := calcFiveStarFilms ctx
    let funFactsV := calcFunFacts ctx runtimeV actors directors decadesV
    (Except.ok
      [("basic", View.basic basic), ("genres", View.genres genres),
       ("actors", View.actors actors), ("directors", View.directors directors),
       ("runtime", View.runtime runtimeV), ("geography", View.geography geography),
       ("rating_trends", View.ratingTrends trends),
       ("genre_rating_correlation", View.genreRatingCorrelation corr),
       ("tags", View.tags tagsV), ("temporal", View.temporal tmp.1),
       ("yearly_breakdown", View.yearlyBreakdown yearly), ("liked", View.liked likedV),
       ("rating_distribution", View.ratingDistribution rdist),
       ("composers", View.crew composersV),
       ("cinematographers", View.crew cinematographersV),
       ("writers", View.crew writersV), ("studios", View.studios studiosV),
       ("decades", View.decades decadesV), ("rewatches", View.rewatches rewatchesV),
       ("journey", View.journey journeyV), ("five_star_films", View.fiveStarFilms fiveStar),
       ("fun_facts", View.funFacts funFactsV)], tmp.2)

/-! ### Auxiliary predicates and concrete instances used by the theorems -/

/-- A character that the decompose/lower steps leave alone: no NFKD
decomposition, not a combining mark, case-fixed. -/
def charStable (c : Char) : Bool :=
  nfkdChar c == [c] && !(isCombining c) && lowerChar c == c

/-- No two adjacent whitespace characters. -/
def noAdjSpaces : List Char → Bool
  | a :: b :: t => !(isPySpace a && isPySpace b) && noAdjSpaces (b :: t)
  | _ => true

/-- The release year of an enrichment record (leading `YYYY` of
`release_date`). -/
def releaseYearOf (m : Movie) : Option Int :=
  match m.releaseDate with
  | some s => (natOfDigits ((splitOnChar '-' s.toList).headD [])).map Int.ofNat
  | none => none

/-- A catalog oracle with no rows (every query comes back empty, as it also
would on transport failure). -/
def emptyCatalog : CatalogOracle := CatalogOracle.mk (fun _ => []) (fun _ => [])

/-- A fallback-service oracle whose requests all fail. -/
def noTmdbOracle : TmdbOracle := TmdbOracle.mk (fun _ _ => none) (fun _ => none)

/-- A catalog row for Parasite (2019). -/
def parasiteRow : SbRow :=
  { id := some 1
    title := "Parasite"
    year := some 2019
    releaseDate := some "2019-05-30"
    runtime := some 132
    genres := some "Thriller, Drama"
    overview := none
    popularity := none
    imdbRating := some (17/2)
    imdbVotes := some 900
    posterPath := some "/p.jpg"
    originalLanguage := some "ko"
    originalTitle := none
    productionCountries := some "South Korea"
    budget := none
    revenue := none
    productionCompanies := some "Barunson"
    castDetails := [CastEntry.mk "Song Kang-ho" (some "Ki-taek") none]
    director := some "Bong Joon Ho"
    directorOfPhotography := some "Hong Kyung-pyo"
    musicComposer := some "Jung Jae-il"
    writers := some "Bong Joon Ho, Han Jin-won" }

/-- A catalog holding exactly the Parasite row, with exact-title batch
matching and no prefix results. -/
def parasiteCatalog : CatalogOracle :=
  CatalogOracle.mk (fun titles => if titles.contains "Parasite" then [parasiteRow] else [])
    (fun _ => [])

/-- The TMDB details of a search result whose release year (1950) is far
from the requested year. -/
def mismatchDetails : TmdbDetails :=
  { title := some "Abcde"
    originalTitle := some "Abcde"
    releaseDate := some "1950-01-01"
    runtime := some 90
    genres := []
    overview := none
    popularity := none
    voteAverage := none
    voteCount := none
    posterPath := none
    backdropPath := none
    originalLanguage := none
    productionCountries := []
    budget := none
    revenue := none
    productionCompanies := []
    castList := []
    crew := [] }

/-- A fallback oracle that finds "Abcde" only on the year-less retry and
returns the 1950 release in its details. -/
def mismatchTmdbOracle : TmdbOracle :=
  TmdbOracle.mk
    (fun q y =>
      if q == "Abcde" && y == none then some [TmdbMovieStub.mk 7 (some "Abcde") (some "Abcde")]
      else some [])
    (fun i => if i == 7 then some mismatchDetails else none)

/-- A catalog row whose title extends a requested title at a word
boundary ("Glass Onion" → "Glass Onion: A Knives Out Mystery"). -/
def glassOnionRow : SbRow :=
  { id := some 2
    title := "Glass Onion: A Knives Out Mystery"
    year := some 2022
    releaseDate := none
    runtime := some 139
    genres := some "Mystery"
    overview := none
    popularity := none
    imdbRating := none
    imdbVotes := none
    posterPath := none
    originalLanguage := none
    originalTitle := none
    productionCountries := none
    budget := none
    revenue := none
    productionCompanies := none
    castDetails := []
    director := some "Rian Johnson"
    directorOfPhotography := none
    musicComposer := none
    writers := none }

/-- A one-row diary for exercising the temporal step. -/
def diaryRowC : DiaryRow :=
  DiaryRow.mk "Film A" 2020 (Date.mk 2024 3 15) (some 4) (some "Yes") none

/-- User record sets with a single diary row and nothing else. -/
def ctxTemporal : Ctx :=
  { today := Date.mk 2025 6 1
    lb :=
      { watched := []
        diary := DiaryTable.mk [diaryRowC] []
        ratings := []
        watchlist := []
        likedFilms := [] }
    tmdb := [] }

/-- An enrichment record with empty credits, for building concrete stores. -/
def baseMovie : Movie :=
  { tmdbId := none
    title := none
    originalTitle := none
    releaseDate := none
    runtime := none
    genres := []
    overview := none
    popularity := none
    voteAverage := none
    voteCount := none
    posterPath := none
    backdropPath := none
    originalLanguage := none
    productionCountries := []
    budget := none
    revenue := none
    productionCompanies := []
    actors := []
    directors := []
    directorProfiles := []
    cinematographers := []
    composers := []
    writers := [] }

/-- A record crediting actor "X", director "D", composer "C" and studio "S". -/
def creditedMovie : Movie :=
  { baseMovie with
    actors := [ActorCredit.mk "X" (some "") none]
    directors := ["D"]
    directorProfiles := [("D", none)]
    composers := [Person.mk "C" none]
    cinematographers := [Person.mk "P" none]
    writers := [Person.mk "W" none]
    productionCompanies := [Company.mk "S" none] }

/-- Three watched, rated films (4.0, 5.0, 3.0 stars) sharing the credits of
`creditedMovie`; the first is liked. -/
def ctxRated : Ctx :=
  { today := Date.mk 2025 6 1
    lb :=
      { watched := [WatchedRow.mk "F1" 2001, WatchedRow.mk "F2" 2002, WatchedRow.mk "F3" 2003]
        diary := DiaryTable.mk [] []
        ratings := [RatingRow.mk "F1" 2001 4, RatingRow.mk "F2" 2002 5, RatingRow.mk "F3" 2003 3]
        watchlist := []
        likedFilms := [LikedRow.mk "F1" 2001] }
    tmdb :=
      [((("F1", 2001) : FilmKey), creditedMovie), ((("F2", 2002) : FilmKey), creditedMovie),
       ((("F3", 2003) : FilmKey), creditedMovie)] }

/-- A placeholder actor entry (only used as a `headD` default). -/
def dummyTopActor : TopActor := TopActor.mk "" 0 0 0 0 none []

/-- The first `top_by_count` actor entry of the rated example context. -/
def actorEntryW : TopActor :=
  ((calcActorStats ctxRated).topByCount).headD dummyTopActor

/-- Every record in the enrichment mapping after passes 1–4 is the transform
of a catalog row that passed the ±2-year window for its key. -/
def EnrichedFromCatalog (enriched : List (FilmKey × Movie)) : Prop :=
  ∀ k m, aGet? enriched k = some m →
    ∃ row : SbRow, m = transformSupabaseRow row ∧ yearOk k.2 row.year = true

/-! ## Lemmas about the dict / counter embedding -/

/-- A key's miss reason is one of the two tags the resolver ever records. -/
def ReasonOk (rs : List (FilmKey × String)) (k : FilmKey) : Prop :=
  aGet? rs k = some "not_in_db" ∨ aGet? rs k = some "year_mismatch"

section AssocLemmas

variable {α : Type} {β : Type} [BEq α] [LawfulBEq α]

theorem find?_map_preserve_fst (l : List (α × β)) (f : α × β → α × β)
    (hf : ∀ p, (f p).1 = p.1) (k : α) :
    (l.map f).find? (fun p => p.1 == k) = (l.find? (fun p => p.1 == k)).map f := by
  induction l with
  | nil => rfl
  | cons p t ih =>
    by_cases hp : p.1 == k
    · simp [List.find?, hf, hp]
    · simp only [List.map_cons, List.find?, hf, hp]
      exact ih

theorem find?_none_of_any_false {l : List (α × β)} {k : α}
    (h : ¬(l.any (fun p => p.1 == k) = true)) :
    l.find? (fun p => p.1 == k) = none := by
  rw [List.find?_eq_none]
  intro p hp hc
  rw [List.any_eq_true] at h
  push_neg at h
  exact absurd hc (h p hp)

theorem aGet?_aInsert_self (l : List (α × β)) (k : α) (v : β) :
    aGet? (aInsert l k v) k = some v := by
  unfold aInsert aGet?
  by_cases h : l.any (fun p => p.1 == k)
  · rw [if_pos h, find?_map_preserve_fst _ _ (fun p => by by_cases hp : p.1 == k <;> simp [hp])]
    rw [List.any_eq_true] at h
    obtain ⟨p, hp, hpk⟩ := h
    rcases ha : l.find? (fun p => p.1 == k) with _ | q
    · rw [List.find?_eq_none] at ha
      exact absurd hpk (ha p hp)
    · rw [ha]
      have hq := List.find?_some ha
      simp [hq]
  · rw [if_neg h, List.find?_append, find?_none_of_any_false h]
    simp [List.find?]

theorem aGet?_aInsert_ne (l : List (α × β)) (k k' : α) (v : β)
    (hne : k' ≠ k) : aGet? (aInsert l k v) k' = aGet? l k' := by
  unfold aInsert aGet?
  by_cases h : l.any (fun p => p.1 == k)
  · rw [if_pos h, find?_map_preserve_fst _ _ (fun p => by by_cases hp : p.1 == k <;> simp [hp])]
    rcases ha : l.find? (fun p => p.1 == k') with _ | q
    · rw [ha]
      rfl
    · rw [ha]
      have hq := List.find?_some ha
      have hqk : ¬(q.1 == k) = true := by
        simp only [beq_iff_eq] at hq ⊢
        rw [hq]
        exact hne
      simp [hqk]
  · rw [if_neg h, List.find?_append]
    have h2 : (([(k, v)] : List (α × β)).find? (fun p => p.1 == k')) = none := by
      simp only [List.find?]
      have : ¬(k == k') = true := by
        simp only [beq_iff_eq]
        exact fun hc => hne hc.symm
      simp [this]
    rcases ha : l.find? (fun p => p.1 == k') with _ | q <;> rw [ha] <;> simp [h2]

theorem aGet?_aInsert_isSome (l : List (α × β)) (k k' : α) (v : β)
    (h : (aGet? l k').isSome) : (aGet? (aInsert l k v) k').isSome := by
  by_cases hk : k' = k
  · subst hk
    rw [aGet?_aInsert_self]
    rfl
  · rwa [aGet?_aInsert_ne _ _ _ _ hk]

theorem aGet?_aPop_self (l : List (α × β)) (k : α) :
    aGet? (aPop l k) k = none := by
  unfold aPop aGet?
  have : (l.filter (fun p => !(p.1 == k))).find? (fun p => p.1 == k) = none := by
    rw [List.find?_eq_none]
    intro p hp
    rw [List.mem_filter] at hp
    simp only [Bool.not_eq_true'] at hp
    simp [hp.2]
  rw [this]
  rfl

theorem aGet?_aPop_ne (l : List (α × β)) (k k' : α) (hne : k' ≠ k) :
    aGet? (aPop l k) k' = aGet? l k' := by
  unfold aPop aGet?
  congr 1
  induction l with
  | nil => rfl
  | cons p t ih =>
    by_cases hp : p.1 == k
    · have hp' : ¬(p.1 == k') = true := by
        simp only [beq_iff_eq] at hp ⊢
        rw [hp]
        exact fun hc => hne hc.symm
      simp only [List.filter, hp, Bool.not_true, List.find?, hp', Bool.false_eq_true,
        if_false, cond_false]
      exact ih
    · by_cases hp' : p.1 == k'
      · simp [List.filter, hp, List.find?, hp']
      · simp only [List.filter, hp, Bool.not_false, List.find?, hp', cond_true,
          Bool.false_eq_true, if_false, cond_false]
        exact ih

theorem aGet?_aAppend_self (l : List (α × List β)) (k : α) (v : β) :
    aGet? (aAppend l k v) k = some ((aGet? l k).getD [] ++ [v]) := by
  unfold aAppend aGet?
  by_cases h : l.any (fun p => p.1 == k)
  · rw [if_pos h,
      find?_map_preserve_fst _ _ (fun p => by by_cases hp : p.1 == k <;> simp [hp])]
    rw [List.any_eq_true] at h
    obtain ⟨p, hp, hpk⟩ := h
    rcases ha : l.find? (fun p => p.1 == k) with _ | q
    · rw [List.find?_eq_none] at ha
      exact absurd hpk (ha p hp)
    · rw [ha]
      have hq := List.find?_some ha
      simp [hq]
  · rw [if_neg h, List.find?_append, find?_none_of_any_false h]
    simp [List.find?]

theorem aGet?_aAppend_ne (l : List (α × List β)) (k k' : α) (v : β) (hne : k' ≠ k) :
    aGet? (aAppend l k v) k' = aGet? l k' := by
  unfold aAppend aGet?
  by_cases h : l.any (fun p => p.1 == k)
  · rw [if_pos h,
      find?_map_preserve_fst _ _ (fun p => by by_cases hp : p.1 == k <;> simp [hp])]
    rcases ha : l.find? (fun p => p.1 == k') with _ | q
    · rw [ha]
      rfl
    · rw [ha]
      have hq := List.find?_some ha
      have hqk : ¬(q.1 == k) = true := by
        simp only [beq_iff_eq] at hq ⊢
        rw [hq]
        exact hne
      simp [hqk]
  · rw [if_neg h, List.find?_append]
    have h2 : (([(k, [v])] : List (α × List β)).find? (fun p => p.1 == k')) = none := by
      simp only [List.find?]
      have : ¬(k == k') = true := by
        simp only [beq_iff_eq]
        exact fun hc => hne hc.symm
      simp [this]
    rcases ha : l.find? (fun p => p.1 == k') with _ | q <;> rw [ha] <;> simp [h2]

theorem cGet_cInc_self (c : Counter α) (k : α) :
    cGet (cInc c k) k = cGet c k + 1 := by
  unfold cInc cGet
  by_cases h : c.any (fun p => p.1 == k)
  · rw [if_pos h,
      find?_map_preserve_fst _ _ (fun p => by by_cases hp : p.1 == k <;> simp [hp])]
    rw [List.any_eq_true] at h
    obtain ⟨p, hp, hpk⟩ := h
    rcases ha : c.find? (fun p => p.1 == k) with _ | q
    · rw [List.find?_eq_none] at ha
      exact absurd hpk (ha p hp)
    · rw [ha]
      have hq := List.find?_some ha
      simp [hq]
  · rw [if_neg h, List.find?_append, find?_none_of_any_false h]
    simp [List.find?]

theorem cGet_cInc_ne (c : Counter α) (k k' : α) (hne : k' ≠ k) :
    cGet (cInc c k) k' = cGet c k' := by
  unfold cInc cGet
  by_cases h : c.any (fun p => p.1 == k)
  · rw [if_pos h,
      find?_map_preserve_fst _ _ (fun p => by by_cases hp : p.1 == k <;> simp [hp])]
    rcases ha : c.find? (fun p => p.1 == k') with _ | q
    · rw [ha]
      rfl
    · rw [ha]
      have hq := List.find?_some ha
      have hqk : ¬(q.1 == k) = true := by
        simp only [beq_iff_eq] at hq ⊢
        rw [hq]
        exact hne
      simp [hqk]
  · rw [if_neg h, List.find?_append]
    have h2 : (([(k, 1)] : Counter α).find? (fun p => p.1 == k')) = none := by
      simp only [List.find?]
      have : ¬(k == k') = true := by
        simp only [beq_iff_eq]
        exact fun hc => hne hc.symm
      simp [this]
    rcases ha : c.find? (fun p => p.1 == k') with _ | q <;> rw [ha] <;> simp [h2]

theorem cGet_le_of_cInc (c liked : Counter α) (k : α)
    (h : ∀ n, cGet liked n ≤ cGet c n) :
    ∀ n, cGet liked n ≤ cGet (cInc c k) n := by
  intro n
  by_cases hn : n = k
  · subst hn
    rw [cGet_cInc_self]
    exact Nat.le_succ_of_le (h n)
  · rw [cGet_cInc_ne _ _ _ hn]
    exact h n

end AssocLemmas

/-! ## C1 — aggregator totality -/

/-- C1: the claim says `calculate_all` terminates without raising and
returns a StatisticsResult with every documented view key present.  In fact
for every well-typed input it raises `AttributeError` while computing the
geography view (`config.TOP_COUNTRIES_COUNT` is not defined in `config.py`),
so no StatisticsResult is ever returned; the stored diary is still untouched
at the abort since only the basic/genre/actor/director/runtime views have
run. -/
theorem c1_calculate_all_raises (ctx : Ctx) :
    (calculateAll ctx).1 =
      Except.error "AttributeError: module app.config has no attribute TOP_COUNTRIES_COUNT" ∧
    (calculateAll ctx).2 = ctx.lb.diary := by
  constructor <;> rfl

/-! ## C3 — the aggregator mutates the diary table -/

/-- C3 (counterexample): the claim says no aggregation routine ever adds a
column to an input table, citing `_calculate_temporal_stats`; that routine,
run on a one-row diary, returns the stored diary table with three new
columns (`watch_year`, `watch_month`, `weekday`), so the table differs from
the input. -/
theorem c3_counterexample :
    (calcTemporalStats ctxTemporal).2.extraCols = ["watch_year", "watch_month", "weekday"] ∧
    ctxTemporal.lb.diary.extraCols = [] ∧
    (calcTemporalStats ctxTemporal).2 ≠ ctxTemporal.lb.diary := by
  refine ⟨rfl, rfl, ?_⟩
  decide

/-- C3 (amended): the aggregation routines never alter the rows or values of
any input table; the one structural mutation is `_calculate_temporal_stats`
adding the derived columns `watch_year`, `watch_month` and `weekday` to the
stored diary table when the diary is non-empty.  (In the shipped pipeline
even that is unreachable: `calculate_all` aborts at the geography step
first, leaving the diary exactly as it was.) -/
theorem c3_amended (ctx : Ctx) :
    (calcTemporalStats ctx).2.rows = ctx.lb.diary.rows ∧
    (calcTemporalStats ctx).2.extraCols =
      (if ctx.lb.diary.rows.isEmpty then ctx.lb.diary.extraCols
       else
         ctx.lb.diary.extraCols ++
           (["watch_year", "watch_month", "weekday"].filter
             (fun c => !(ctx.lb.diary.extraCols.contains c)))) ∧
    (calculateAll ctx).2 = ctx.lb.diary := by
  refine ⟨?_, ?_, rfl⟩
  · unfold calcTemporalStats
    by_cases h : ctx.lb.diary.rows.isEmpty <;> simp [h]
  · unfold calcTemporalStats
    by_cases h : ctx.lb.diary.rows.isEmpty
    · simp [h]
    · simp only [h, Bool.false_eq_true, if_false]
      generalize ctx.lb.diary.extraCols = e
      have dm : ("watch_month" : String) ≠ "watch_year" := by decide
      have dw1 : ("weekday" : String) ≠ "watch_year" := by decide
      have dw2 : ("weekday" : String) ≠ "watch_month" := by decide
      by_cases h1 : "watch_year" ∈ e <;>
        by_cases h2 : "watch_month" ∈ e <;>
          by_cases h3 : "weekday" ∈ e <;>
            simp [addCol, h1, h2, h3, List.mem_append, dm, dw1, dw2, List.filter]

/-! ## C7 — the outbound rate-limit window -/

/-- C7: the claim says at most the quota (here 2) of requests is admitted in
any rolling 10-second window.  With arrivals at t = 0, 5, 6 and 11 the
gate admits at t = 0, 5, 10 and 11: the window [5, 15) holds three
admissions, exceeding the quota, because after its blocking sleep the gate
clears the whole timestamp ledger instead of only the expired entries. -/
theorem c7_window_violation :
    rateLimitAdmissions 2 [0, 5, 6, 11] = [0, 5, 10, 11] ∧
    (rateLimitAdmissions 2 [0, 5, 6, 11]).countP
        (fun t => decide (5 ≤ t) && decide (t < 15)) = 3 ∧
    2 < 3 := by
  refine ⟨?_, ?_, by decide⟩
  · norm_num [rateLimitAdmissions, tmdbRateLimit, List.foldl]
  · norm_num [rateLimitAdmissions, tmdbRateLimit, List.foldl, List.countP, List.countP.go]

/-! ## C8 — the rating-distribution buckets -/

/-- C8 (counterexample): the claim says the `rating_distribution` view has
exactly ten half-star buckets for every ratings set including the empty one;
on an empty ratings set the code returns `[]`, not ten zero-filled
buckets. -/
theorem c8_counterexample :
    calcRatingDistribution [] = [] ∧ (calcRatingDistribution []).length ≠ 10 := by
  exact ⟨rfl, by decide⟩

/-- C8 (amended): for every non-empty ratings record set the view has
exactly the ten half-star buckets 0.5 … 5.0 in order, each counting the
rated rows at exactly that level; an empty ratings set yields `[]`. -/
theorem c8_amended (ratings : List RatingRow) (h : ratings ≠ []) :
    (calcRatingDistribution ratings).map Prod.fst = ratingLevels ∧
    (calcRatingDistribution ratings).length = 10 ∧
    ∀ p ∈ calcRatingDistribution ratings,
      p.2 = ratings.countP (fun row => row.rating == p.1) := by
  have he : ratings.isEmpty = false := by
    simpa [List.isEmpty_iff] using h
  unfold calcRatingDistribution
  rw [he]
  simp only [Bool.false_eq_true, if_false]
  refine ⟨?_, ?_, ?_⟩
  · rw [List.map_map]
    rfl
  · simp [ratingLevels]
  · intro p hp
    rw [List.mem_map] at hp
    obtain ⟨r, _, rfl⟩ := hp
    simp [List.countP_eq_length_filter]

/-! ## Shared resolver-pass machinery -/

theorem foldl_preserve {σ α : Type} (P : σ → Prop) (f : σ → α → σ)
    (h : ∀ s a, P s → P (f s a)) : ∀ (l : List α) (s : σ), P s → P (l.foldl f s) := by
  intro l
  induction l with
  | nil => exact fun s hs => hs
  | cons x t ih => exact fun s hs => ih _ (h s x hs)

theorem firstYearMatch_some {year : Int} {cands : List SbRow} {row : SbRow}
    (h : firstYearMatch year cands = some row) : yearOk year row.year = true := by
  unfold firstYearMatch at h
  have := List.find?_some h
  simpa using this

theorem yearOk_iff (reqYear : Int) (rowYear : Option Int) :
    yearOk reqYear rowYear = true ↔
      ∃ y, rowYear = some y ∧ y ≠ 0 ∧ (y - reqYear).natAbs ≤ 2 := by
  cases rowYear <;> simp [yearOk]

/-- Keys never resolved with `TMDB_FALLBACK_ENABLED = False`. -/
theorem tmdbFallback_disabled (tmdb : TmdbOracle) (st : ResState) :
    tmdbFallback false tmdb st = st := by
  simp [tmdbFallback]

theorem enrichFilms_enriched (fb : Bool) (cat : CatalogOracle) (tmdb : TmdbOracle)
    (films : List FilmRow) :
    (enrichFilms fb cat tmdb films).enriched = (resolverFinal fb cat tmdb films).enriched :=
  rfl

theorem enrichFilms_fallbackFilms (fb : Bool) (cat : CatalogOracle) (tmdb : TmdbOracle)
    (films : List FilmRow) :
    (enrichFilms fb cat tmdb films).fallbackFilms =
      (resolverFinal fb cat tmdb films).needed.map
        (fun k =>
          MissEntry.mk k.1 k.2
            ((aGet? (resolverFinal fb cat tmdb films).enriched k).isSome)
            ((aGet? (resolverFinal fb cat tmdb films).reasons k).getD "not_in_db")) :=
  rfl

theorem enrichedFromCatalog_insert {enriched : List (FilmKey × Movie)} {k : FilmKey}
    {row : SbRow} (hP : EnrichedFromCatalog enriched) (hy : yearOk k.2 row.year = true) :
    EnrichedFromCatalog (aInsert enriched k (transformSupabaseRow row)) := by
  intro k' m hm
  by_cases hk : k' = k
  · subst hk
    rw [aGet?_aInsert_self] at hm
    exact ⟨row, (Option.some.injEq _ _).mp hm ▸ rfl, hy⟩
  · rw [aGet?_aInsert_ne _ _ _ _ hk] at hm
    exact hP k' m hm

theorem pass1_enrichedFromCatalog (sb : List (String × List SbRow)) (keys : List FilmKey) :
    EnrichedFromCatalog (pass1 sb keys).enriched := by
  unfold pass1
  refine foldl_preserve (fun st : ResState => EnrichedFromCatalog st.enriched) _ ?_ keys
    (ResState.mk [] [] []) (by intro k m hm; simp [aGet?] at hm)
  intro st k hP
  rcases hfm : firstYearMatch k.2 ((aGet? sb k.1).getD []) with _ | row
  · simpa [pass1Step, hfm] using hP
  · have hy : yearOk k.2 row.year = true := firstYearMatch_some hfm
    simpa [pass1Step, hfm] using enrichedFromCatalog_insert hP hy

theorem runPass_enrichedFromCatalog (decide : FilmKey → Option SbRow) (st : ResState)
    (hdec : ∀ k row, decide k = some row → yearOk k.2 row.year = true)
    (hP : EnrichedFromCatalog st.enriched) :
    EnrichedFromCatalog (runPass decide st).enriched := by
  unfold runPass
  refine foldl_preserve (fun st : ResState => EnrichedFromCatalog st.enriched) _ ?_ st.needed
    { st with needed := [] } hP
  intro acc k hPacc
  rcases hd : decide k with _ | row
  · simpa [passStep, hd] using hPacc
  · simpa [passStep, hd] using enrichedFromCatalog_insert hPacc (hdec k row hd)

theorem pass2Decide_yearOk (nl : List (String × List SbRow)) (k : FilmKey) (row : SbRow)
    (h : pass2Decide nl k = some row) : yearOk k.2 row.year = true := by
  unfold pass2Decide at h
  exact firstYearMatch_some h

theorem pass3Decide_spec (entries : List (String × SbRow)) (k : FilmKey) (row : SbRow)
    (h : pass3Decide entries k = some row) :
    5 ≤ (normalizeTitle k.1).length ∧
      ∃ e ∈ entries, e.2 = row ∧
        startsWithBoundary e.1 (normalizeTitle k.1) = true ∧ yearOk k.2 row.year = true := by
  unfold pass3Decide at h
  by_cases hlen : (normalizeTitle k.1).length < 5
  · rw [if_pos hlen] at h
    exact absurd h (by simp)
  · rw [if_neg hlen] at h
    obtain ⟨e, he, hfe⟩ := List.exists_of_findSome?_eq_some h
    by_cases hc : startsWithBoundary e.1 (normalizeTitle k.1) &&
        yearOk k.2 e.2.year
    · rw [if_pos hc] at hfe
      obtain ⟨h1, h2⟩ := Bool.and_eq_true_iff.mp hc
      have he2 : e.2 = row := (Option.some.injEq _ _).mp hfe
      exact ⟨Nat.le_of_not_lt hlen, e, he, he2, h1, he2 ▸ h2⟩
    · rw [if_neg hc] at hfe
      exact absurd hfe (by simp)

theorem pass4Accept_spec (normTitle : String) (year : Int) (row : SbRow)
    (h : pass4Accept normTitle year row = true) :
    yearOk year row.year = true ∧
      (normalizeTitle row.title = normTitle ∨
        (5 ≤ normTitle.length ∧
          startsWithBoundary (normalizeTitle row.title) normTitle = true)) := by
  unfold pass4Accept at h
  obtain ⟨hy, hrest⟩ := Bool.and_eq_true_iff.mp h
  refine ⟨hy, ?_⟩
  rcases Bool.or_eq_true_iff.mp hrest with heq | hpre
  · exact Or.inl (beq_iff_eq.mp heq)
  · obtain ⟨hlen, hb⟩ := Bool.and_eq_true_iff.mp hpre
    exact Or.inr ⟨of_decide_eq_true hlen, hb⟩

theorem pass4_enrichedFromCatalog (cat : CatalogOracle) (st : ResState)
    (hP : EnrichedFromCatalog st.enriched) :
    EnrichedFromCatalog (pass4 cat st).enriched := by
  unfold pass4
  refine foldl_preserve (fun s : ResState => EnrichedFromCatalog s.enriched) _ ?_ _ _ hP
  intro acc p hPacc
  refine foldl_preserve (fun s : ResState => EnrichedFromCatalog s.enriched) _ ?_ _ _ hPacc
  intro acc2 k hPacc2
  unfold passStep
  dsimp only
  split
  · next row hf =>
      exact enrichedFromCatalog_insert hPacc2 ((pass4Accept_spec _ _ _ (List.find?_some hf)).1)
  · exact hPacc2

/-! ## C5 — prefix-pass word-boundary acceptance -/

/-- C5: in pass 3 and pass 4, a candidate is accepted only when its
normalized title equals the requested normalized title or extends it at a
word boundary (next character end-of-string or a space), the prefix branch
applying only to requested normalized titles of length ≥ 5; the boundary
test itself admits exactly equality-by-length or a following space, so a
candidate merely containing the request as a non-boundary substring is never
matched. -/
theorem c5_prefix_boundary :
    (∀ (entries : List (String × SbRow)) (k : FilmKey) (row : SbRow),
      pass3Decide entries k = some row →
        5 ≤ (normalizeTitle k.1).length ∧
          ∃ e ∈ entries, e.2 = row ∧
            startsWithBoundary e.1 (normalizeTitle k.1) = true ∧
            yearOk k.2 row.year = true) ∧
    (∀ (normTitle : String) (year : Int) (row : SbRow),
      pass4Accept normTitle year row = true →
        normalizeTitle row.title = normTitle ∨
          (5 ≤ normTitle.length ∧
            startsWithBoundary (normalizeTitle row.title) normTitle = true)) ∧
    (∀ normKey normTitle : String, startsWithBoundary normKey normTitle = true →
      normKey = normTitle ∨ normKey.toList.get? normTitle.toList.length = some ' ') := by
  refine ⟨pass3Decide_spec, fun nt y row h => (pass4Accept_spec nt y row h).2, ?_⟩
  intro normKey normTitle h
  unfold startsWithBoundary at h
  obtain ⟨hpre, hrest⟩ := Bool.and_eq_true_iff.mp h
  rcases Bool.or_eq_true_iff.mp hrest with hlen | hsp
  · left
    have hl : normKey.toList.length = normTitle.toList.length := beq_iff_eq.mp hlen
    have h2 := List.IsPrefix.eq_of_length (List.isPrefixOf_iff_prefix.mp hpre) hl.symm
    exact String.ext h2.symm
  · right
    exact (beq_iff_eq).mp hsp

set_option maxRecDepth 100000 in
/-- C5 (witness): pass 3 accepts "Glass Onion" against the catalog title
"Glass Onion: A Knives Out Mystery" (boundary extension), and the pass-4
acceptance test for the same pair satisfies the boundary conclusion. -/
theorem c5_witness :
    (pass3Decide [(normalizeTitle glassOnionRow.title, glassOnionRow)]
        (("Glass Onion", 2022) : FilmKey) = some glassOnionRow ∧
      (5 ≤ (normalizeTitle "Glass Onion").length ∧
        ∃ e ∈ [(normalizeTitle glassOnionRow.title, glassOnionRow)], e.2 = glassOnionRow ∧
          startsWithBoundary e.1 (normalizeTitle "Glass Onion") = true ∧
          yearOk 2022 glassOnionRow.year = true)) ∧
    (pass4Accept (normalizeTitle "Glass Onion") 2022 glassOnionRow = true ∧
      (normalizeTitle glassOnionRow.title = normalizeTitle "Glass Onion" ∨
        (5 ≤ (normalizeTitle "Glass Onion").length ∧
          startsWithBoundary (normalizeTitle glassOnionRow.title)
            (normalizeTitle "Glass Onion") = true))) := by
  have h3 : pass3Decide [(normalizeTitle glassOnionRow.title, glassOnionRow)]
      (("Glass Onion", 2022) : FilmKey) = some glassOnionRow := by decide
  have h4 : pass4Accept (normalizeTitle "Glass Onion") 2022 glassOnionRow = true := by decide
  exact ⟨⟨h3, c5_prefix_boundary.1 _ _ _ h3⟩, ⟨h4, c5_prefix_boundary.2.1 _ _ _ h4⟩⟩

/-! ## C4 — the year window of resolved films -/

/-- C4 (amended): with the fallback disabled (its default), every record in
the final enrichment mapping is the transform of a catalog row whose year is
non-null, non-zero and within ±2 of the requested year; the optional TMDB
fallback pass validates only by title substring and enforces no year window
(see the counterexample). -/
theorem c4_amended (cat : CatalogOracle) (tmdb : TmdbOracle) (films : List FilmRow)
    (k : FilmKey) (m : Movie)
    (h : aGet? (enrichFilms false cat tmdb films).enriched k = some m) :
    ∃ row : SbRow, m = transformSupabaseRow row ∧
      ∃ y, row.year = some y ∧ y ≠ 0 ∧ (y - k.2).natAbs ≤ 2 := by
  rw [enrichFilms_enriched] at h
  unfold resolverFinal at h
  rw [tmdbFallback_disabled] at h
  have hP : EnrichedFromCatalog
      (pass4 cat
        (runPass (pass3Decide (normEntriesOf (supabaseResultsOf cat (filmListOf films))))
          (runPass (pass2Decide (normalizedLookupOf (supabaseResultsOf cat (filmListOf films))))
            (pass1 (supabaseResultsOf cat (filmListOf films)) (filmListOf films))))).enriched := by
    refine pass4_enrichedFromCatalog _ _ ?_
    refine runPass_enrichedFromCatalog _ _ ?_ ?_
    · intro k' row hrow
      exact (pass3Decide_spec _ _ _ hrow).2.choose_spec.2.2.2
    · refine runPass_enrichedFromCatalog _ _ (pass2Decide_yearOk _) ?_
      exact pass1_enrichedFromCatalog _ _
  obtain ⟨row, hm, hy⟩ := hP k m h
  exact ⟨row, hm, (yearOk_iff _ _).mp hy⟩

set_option maxRecDepth 100000 in
/-- C4 (witness): the amended statement at a catalog resolving Parasite
(2019) in pass 1. -/
theorem c4_witness :
    aGet? (enrichFilms false parasiteCatalog noTmdbOracle [FilmRow.mk "Parasite" 2019]).enriched
        (("Parasite", 2019) : FilmKey) = some (transformSupabaseRow parasiteRow) ∧
    (∃ row : SbRow, transformSupabaseRow parasiteRow = transformSupabaseRow row ∧
      ∃ y, row.year = some y ∧ y ≠ 0 ∧ (y - 2019).natAbs ≤ 2) := by
  have h : aGet? (enrichFilms false parasiteCatalog noTmdbOracle
      [FilmRow.mk "Parasite" 2019]).enriched (("Parasite", 2019) : FilmKey) =
      some (transformSupabaseRow parasiteRow) := by rfl
  exact ⟨h, c4_amended parasiteCatalog noTmdbOracle [FilmRow.mk "Parasite" 2019]
    (("Parasite", 2019) : FilmKey) (transformSupabaseRow parasiteRow) h⟩

set_option maxRecDepth 100000 in
/-- C4 (counterexample): with the fallback pass enabled, the resolver
resolves ("Abcde", 2020) to the sole candidate the fallback service offered,
whose release year is 1950 — 70 years from the requested year, far outside
±2 — because `_tmdb_search` validates candidates only by normalized-title
substring containment, never by year. -/
theorem c4_counterexample :
    releaseYearOf
        ((aGet? (enrichFilms true emptyCatalog mismatchTmdbOracle
            [FilmRow.mk "Abcde" 2020]).enriched (("Abcde", 2020) : FilmKey)).getD baseMovie) =
      some 1950 ∧
    (aGet? (enrichFilms true emptyCatalog mismatchTmdbOracle
        [FilmRow.mk "Abcde" 2020]).enriched (("Abcde", 2020) : FilmKey)).isSome = true ∧
    ¬((1950 - 2020 : Int).natAbs ≤ 2) := by
  refine ⟨by rfl, by rfl, by decide⟩

/-- C8 (witness): the amended statement instantiated at a one-row ratings
set. -/
theorem c8_witness :
    ([RatingRow.mk "A" 2000 4] ≠ []) ∧
    ((calcRatingDistribution [RatingRow.mk "A" 2000 4]).map Prod.fst = ratingLevels ∧
      (calcRatingDistribution [RatingRow.mk "A" 2000 4]).length = 10 ∧
      ∀ p ∈ calcRatingDistribution [RatingRow.mk "A" 2000 4],
        p.2 = [RatingRow.mk "A" 2000 4].countP (fun row => row.rating == p.1)) :=
  ⟨by decide, c8_amended [RatingRow.mk "A" 2000 4] (by decide)⟩

/-! ## C2 — one outcome per requested key -/

theorem aGet?_isSome_of_mem {α β : Type} [BEq α] [LawfulBEq α] {l : List (α × β)}
    {p : α × β} (h : p ∈ l) : (aGet? l p.1).isSome = true := by
  rcases hf : l.find? (fun q => q.1 == p.1) with _ | q
  · rw [List.find?_eq_none] at hf
    exact absurd (by simp) (hf p h)
  · simp [aGet?, hf]

theorem find?_map_fst_eq {α β γ : Type} [BEq α] (l : List (α × β)) (f : α × β → α × γ)
    (hf : ∀ p, (f p).1 = p.1) (k : α) :
    (l.map f).find? (fun p => p.1 == k) = (l.find? (fun p => p.1 == k)).map f := by
  induction l with
  | nil => rfl
  | cons p t ih =>
    by_cases hp : (p.1 == k) = true
    · simp [List.find?, hf, hp]
    · simp only [List.map_cons, List.find?, hf, hp]
      exact ih

theorem aGet?_map_fst {α β γ : Type} [BEq α] [LawfulBEq α] (g : α → γ)
    (l : List (α × β)) (q : α) (h : (aGet? l q).isSome = true) :
    aGet? (l.map (fun p => (p.1, g p.1))) q = some (g q) := by
  unfold aGet? at h ⊢
  rw [find?_map_fst_eq l (fun p => (p.1, g p.1)) (fun p => rfl) q]
  rcases hf : l.find? (fun p => p.1 == q) with _ | p
  · rw [hf] at h
    simp at h
  · have hp := List.find?_some hf
    rw [hf]
    simp [beq_iff_eq.mp hp]

theorem forall_mem_aAppend {α β : Type} [BEq α] [LawfulBEq α] {P : α × List β → Prop}
    {l : List (α × List β)} {key : α} {v : β}
    (h : ∀ p ∈ l, P p)
    (hext : ∀ p ∈ l, p.1 = key → P (p.1, p.2 ++ [v]))
    (hnew : P (key, [v])) :
    ∀ p ∈ aAppend l key v, P p := by
  intro p hp
  unfold aAppend at hp
  by_cases hany : (l.any (fun q => q.1 == key)) = true
  · rw [if_pos hany] at hp
    rw [List.mem_map] at hp
    obtain ⟨q, hq, rfl⟩ := hp
    by_cases hqk : (q.1 == key) = true
    · rw [if_pos hqk]
      exact hext q hq (beq_iff_eq.mp hqk)
    · rw [if_neg hqk]
      exact h q hq
  · rw [if_neg hany] at hp
    rcases List.mem_append.mp hp with h2 | h2
    · exact h p h2
    · rw [List.mem_singleton] at h2
      subst h2
      exact hnew

theorem exists_mem_aAppend_self {α β : Type} [BEq α] [LawfulBEq α]
    (l : List (α × List β)) (key : α) (v : β) :
    ∃ p ∈ aAppend l key v, p.1 = key ∧ v ∈ p.2 := by
  unfold aAppend
  by_cases hany : (l.any (fun q => q.1 == key)) = true
  · rw [if_pos hany]
    rw [List.any_eq_true] at hany
    obtain ⟨q, hq, hqk⟩ := hany
    refine ⟨(q.1, q.2 ++ [v]), List.mem_map.mpr ⟨q, hq, ?_⟩, beq_iff_eq.mp hqk,
      List.mem_append_right _ (List.mem_singleton.mpr rfl)⟩
    rw [if_pos hqk]
  · rw [if_neg hany]
    exact ⟨(key, [v]), List.mem_append_right _ (List.mem_singleton.mpr rfl), rfl,
      List.mem_singleton.mpr rfl⟩

theorem exists_mem_aAppend_of_mem {α β : Type} [BEq α] {l : List (α × List β)}
    {key : α} {v x : β} (h : ∃ p ∈ l, x ∈ p.2) :
    ∃ p ∈ aAppend l key v, x ∈ p.2 := by
  obtain ⟨q, hq, hx⟩ := h
  unfold aAppend
  by_cases hany : (l.any (fun r => r.1 == key)) = true
  · rw [if_pos hany]
    refine ⟨_, List.mem_map.mpr ⟨q, hq, rfl⟩, ?_⟩
    by_cases hqk : (q.1 == key) = true
    · rw [if_pos hqk]
      exact List.mem_append_left _ hx
    · rw [if_neg hqk]
      exact hx
  · rw [if_neg hany]
    exact ⟨q, List.mem_append_left _ hq, hx⟩

theorem mem_aAppend_rev {α β : Type} [BEq α] {l : List (α × List β)} {key : α}
    {v x : β} (h : ∃ p ∈ aAppend l key v, x ∈ p.2) :
    x = v ∨ ∃ p ∈ l, x ∈ p.2 := by
  obtain ⟨p, hp, hx⟩ := h
  unfold aAppend at hp
  by_cases hany : (l.any (fun q => q.1 == key)) = true
  · rw [if_pos hany] at hp
    rw [List.mem_map] at hp
    obtain ⟨q, hq, rfl⟩ := hp
    by_cases hqk : (q.1 == key) = true
    · rw [if_pos hqk] at hx
      rcases List.mem_append.mp hx with h2 | h2
      · exact Or.inr ⟨q, hq, h2⟩
      · exact Or.inl (List.mem_singleton.mp h2)
    · rw [if_neg hqk] at hx
      exact Or.inr ⟨q, hq, hx⟩
  · rw [if_neg hany] at hp
    rcases List.mem_append.mp hp with h2 | h2
    · exact Or.inr ⟨p, h2, hx⟩
    · rw [List.mem_singleton] at h2
      subst h2
      exact Or.inl (List.mem_singleton.mp hx)

theorem reasonOk_congr {rs rs' : List (FilmKey × String)} {k : FilmKey}
    (h : aGet? rs' k = aGet? rs k) (hr : ReasonOk rs k) : ReasonOk rs' k := by
  unfold ReasonOk at hr ⊢
  rw [h]
  exact hr

theorem passFold_inv (d D : FilmKey → Option SbRow) :
    ∀ (l : List FilmKey) (acc : ResState),
    (∀ k ∈ l, d k = D k) →
    (∀ k ∈ acc.needed, D k = none) →
    (∀ k ∈ acc.needed, aGet? acc.enriched k = none) →
    (∀ k ∈ acc.needed, ReasonOk acc.reasons k) →
    (∀ k ∈ l, D k = none → ReasonOk acc.reasons k) →
    (∀ k ∈ l, D k = none → aGet? acc.enriched k = none) →
    ((l.foldl (passStep d) acc).needed =
        acc.needed ++ l.filter (fun k => (d k).isNone)) ∧
    (∀ k ∈ (l.foldl (passStep d) acc).needed, D k = none) ∧
    (∀ k ∈ (l.foldl (passStep d) acc).needed,
        aGet? (l.foldl (passStep d) acc).enriched k = none) ∧
    (∀ k ∈ (l.foldl (passStep d) acc).needed,
        ReasonOk (l.foldl (passStep d) acc).reasons k) ∧
    (∀ k ∈ l, (aGet? (l.foldl (passStep d) acc).enriched k).isSome = true ∨
        k ∈ (l.foldl (passStep d) acc).needed) ∧
    (∀ k, (aGet? acc.enriched k).isSome = true →
        (aGet? (l.foldl (passStep d) acc).enriched k).isSome = true) ∧
    (∀ k, D k = none →
        aGet? (l.foldl (passStep d) acc).enriched k = aGet? acc.enriched k ∧
        aGet? (l.foldl (passStep d) acc).reasons k = aGet? acc.reasons k) := by
  intro l
  induction l with
  | nil =>
    intro acc _ A1 A2 A3 _ _
    refine ⟨by simp, A1, A2, A3, ?_, fun k h => h, fun k _ => ⟨rfl, rfl⟩⟩
    intro k hk
    exact absurd hk (List.not_mem_nil k)
  | cons x xs ih =>
    intro acc hag A1 A2 A3 A4 A5
    have hagx : d x = D x := hag x (List.mem_cons_self x xs)
    rcases hdx : d x with _ | row
    · have hDx : D x = none := by rw [← hagx, hdx]
      have hstep : passStep d acc x = { acc with needed := acc.needed ++ [x] } := by
        unfold passStep
        rw [hdx]
      rw [List.foldl_cons, hstep]
      have hag' : ∀ k ∈ xs, d k = D k := fun k hk => hag k (List.mem_cons_of_mem x hk)
      have A1' : ∀ k ∈ acc.needed ++ [x], D k = none := by
        intro k hk
        rcases List.mem_append.mp hk with hk | hk
        · exact A1 k hk
        · rw [List.mem_singleton] at hk
          subst hk
          exact hDx
      have A2' : ∀ k ∈ acc.needed ++ [x], aGet? acc.enriched k = none := by
        intro k hk
        rcases List.mem_append.mp hk with hk | hk
        · exact A2 k hk
        · rw [List.mem_singleton] at hk
          subst hk
          exact A5 k (List.mem_cons_self k xs) hDx
      have A3' : ∀ k ∈ acc.needed ++ [x], ReasonOk acc.reasons k := by
        intro k hk
        rcases List.mem_append.mp hk with hk | hk
        · exact A3 k hk
        · rw [List.mem_singleton] at hk
          subst hk
          exact A4 k (List.mem_cons_self k xs) hDx
      obtain ⟨ihEq, ihB1, ihB2, ihB3, ihB4, ihB5, ihB7⟩ :=
        ih { acc with needed := acc.needed ++ [x] } hag' A1' A2' A3'
          (fun k hk => A4 k (List.mem_cons_of_mem x hk))
          (fun k hk => A5 k (List.mem_cons_of_mem x hk))
      refine ⟨?_, ihB1, ihB2, ihB3, ?_, ihB5, ihB7⟩
      · rw [ihEq]
        have hfc : (x :: xs).filter (fun k => (d k).isNone) =
            x :: xs.filter (fun k => (d k).isNone) := by
          simp [List.filter_cons, hdx]
        rw [hfc]
        simp [List.append_assoc]
      · intro k hk
        rcases List.mem_cons.mp hk with hk | hk
        · subst hk
          right
          rw [ihEq]
          exact List.mem_append_left _
            (List.mem_append_right _ (List.mem_singleton.mpr rfl))
        · exact ihB4 k hk
    · have hDx : D x = some row := by rw [← hagx, hdx]
      have hnex : ∀ k, D k = none → k ≠ x := by
        intro k hk he
        subst he
        rw [hDx] at hk
        exact Option.noConfusion hk
      have hstep : passStep d acc x =
          { acc with enriched := aInsert acc.enriched x (transformSupabaseRow row),
                     reasons := aPop acc.reasons x } := by
        unfold passStep
        rw [hdx]
      rw [List.foldl_cons, hstep]
      have hag' : ∀ k ∈ xs, d k = D k := fun k hk => hag k (List.mem_cons_of_mem x hk)
      have A2' : ∀ k ∈ acc.needed,
          aGet? (aInsert acc.enriched x (transformSupabaseRow row)) k = none := by
        intro k hk
        rw [aGet?_aInsert_ne _ _ _ _ (hnex k (A1 k hk))]
        exact A2 k hk
      have A3' : ∀ k ∈ acc.needed, ReasonOk (aPop acc.reasons x) k := by
        intro k hk
        exact reasonOk_congr (aGet?_aPop_ne _ _ _ (hnex k (A1 k hk))) (A3 k hk)
      have A4' : ∀ k ∈ xs, D k = none → ReasonOk (aPop acc.reasons x) k := by
        intro k hk hDk
        exact reasonOk_congr (aGet?_aPop_ne _ _ _ (hnex k hDk))
          (A4 k (List.mem_cons_of_mem x hk) hDk)
      have A5' : ∀ k ∈ xs, D k = none →
          aGet? (aInsert acc.enriched x (transformSupabaseRow row)) k = none := by
        intro k hk hDk
        rw [aGet?_aInsert_ne _ _ _ _ (hnex k hDk)]
        exact A5 k (List.mem_cons_of_mem x hk) hDk
      obtain ⟨ihEq, ihB1, ihB2, ihB3, ihB4, ihB5, ihB7⟩ :=
        ih { acc with enriched := aInsert acc.enriched x (transformSupabaseRow row),
                      reasons := aPop acc.reasons x } hag' A1 A2' A3' A4' A5'
      refine ⟨?_, ihB1, ihB2, ihB3, ?_, ?_, ?_⟩
      · rw [ihEq]
        have hfc : (x :: xs).filter (fun k => (d k).isNone) =
            xs.filter (fun k => (d k).isNone) := by
          simp [List.filter_cons, hdx]
        rw [hfc]
      · intro k hk
        rcases List.mem_cons.mp hk with hk | hk
        · subst hk
          left
          apply ihB5
          rw [aGet?_aInsert_self]
          rfl
        · exact ihB4 k hk
      · intro k h
        exact ihB5 k (aGet?_aInsert_isSome _ _ _ _ h)
      · intro k hDk
        obtain ⟨he, hr⟩ := ihB7 k hDk
        constructor
        · rw [he, aGet?_aInsert_ne _ _ _ _ (hnex k hDk)]
        · rw [hr, aGet?_aPop_ne _ _ _ (hnex k hDk)]

theorem runPass_inv (d : FilmKey → Option SbRow) (st : ResState)
    (H2 : ∀ k ∈ st.needed, aGet? st.enriched k = none)
    (H3 : ∀ k ∈ st.needed, ReasonOk st.reasons k) :
    (∀ k ∈ (runPass d st).needed, aGet? (runPass d st).enriched k = none) ∧
    (∀ k ∈ (runPass d st).needed, ReasonOk (runPass d st).reasons k) ∧
    (∀ k ∈ st.needed,
        (aGet? (runPass d st).enriched k).isSome = true ∨ k ∈ (runPass d st).needed) ∧
    (∀ k, (aGet? st.enriched k).isSome = true →
        (aGet? (runPass d st).enriched k).isSome = true) := by
  obtain ⟨_, _, B2, B3, B4, B5, _⟩ :=
    passFold_inv d d st.needed { st with needed := [] }
      (fun k _ => rfl)
      (fun k hk => absurd hk (List.not_mem_nil k))
      (fun k hk => absurd hk (List.not_mem_nil k))
      (fun k hk => absurd hk (List.not_mem_nil k))
      (fun k hk _ => H3 k hk)
      (fun k hk _ => H2 k hk)
  exact ⟨B2, B3, B4, B5⟩

theorem pass1Fold_inv (sr : List (String × List SbRow)) :
    ∀ (l : List FilmKey) (acc : ResState),
    (∀ k ∈ acc.needed, pass1Decide sr k = none) →
    (∀ k ∈ acc.needed, ReasonOk acc.reasons k) →
    (∀ k, pass1Decide sr k = none → aGet? acc.enriched k = none) →
    (∀ k ∈ (l.foldl (pass1Step sr) acc).needed, pass1Decide sr k = none) ∧
    (∀ k ∈ (l.foldl (pass1Step sr) acc).needed,
        ReasonOk (l.foldl (pass1Step sr) acc).reasons k) ∧
    (∀ k, pass1Decide sr k = none →
        aGet? (l.foldl (pass1Step sr) acc).enriched k = none) ∧
    (∀ k ∈ l, (aGet? (l.foldl (pass1Step sr) acc).enriched k).isSome = true ∨
        k ∈ (l.foldl (pass1Step sr) acc).needed) ∧
    (∀ k, (aGet? acc.enriched k).isSome = true →
        (aGet? (l.foldl (pass1Step sr) acc).enriched k).isSome = true) ∧
    (∀ k ∈ acc.needed, k ∈ (l.foldl (pass1Step sr) acc).needed) := by
  intro l
  induction l with
  | nil =>
    intro acc A1 A2 A3
    refine ⟨A1, A2, A3, ?_, fun k h => h, fun k hk => hk⟩
    intro k hk
    exact absurd hk (List.not_mem_nil k)
  | cons x xs ih =>
    intro acc A1 A2 A3
    rcases hdx : pass1Decide sr x with _ | row
    · have hdx' : firstYearMatch x.2 ((aGet? sr x.1).getD []) = none := hdx
      have hstep : pass1Step sr acc x =
          { acc with
            needed := acc.needed ++ [x],
            reasons := aInsert acc.reasons x
              (if ((aGet? sr x.1).getD []).isEmpty then "not_in_db"
               else "year_mismatch") } := by
        unfold pass1Step
        rw [hdx']
      rw [List.foldl_cons, hstep]
      have A1' : ∀ k ∈ acc.needed ++ [x], pass1Decide sr k = none := by
        intro k hk
        rcases List.mem_append.mp hk with hk | hk
        · exact A1 k hk
        · rw [List.mem_singleton] at hk
          subst hk
          exact hdx
      have A2' : ∀ k ∈ acc.needed ++ [x],
          ReasonOk (aInsert acc.reasons x
            (if ((aGet? sr x.1).getD []).isEmpty then "not_in_db"
             else "year_mismatch")) k := by
        intro k hk
        by_cases hkx : k = x
        · subst hkx
          unfold ReasonOk
          rw [aGet?_aInsert_self]
          by_cases hie : ((aGet? sr k.1).getD []).isEmpty = true
          · rw [if_pos hie]
            exact Or.inl rfl
          · rw [if_neg hie]
            exact Or.inr rfl
        · have hk' : k ∈ acc.needed := by
            rcases List.mem_append.mp hk with hk | hk
            · exact hk
            · rw [List.mem_singleton] at hk
              exact absurd hk hkx
          exact reasonOk_congr (aGet?_aInsert_ne _ _ _ _ hkx) (A2 k hk')
      obtain ⟨ihB1, ihB2, ihB3, ihB4, ihB5, ihB6⟩ :=
        ih { acc with
              needed := acc.needed ++ [x],
              reasons := aInsert acc.reasons x
                (if ((aGet? sr x.1).getD []).isEmpty then "not_in_db"
                 else "year_mismatch") } A1' A2' A3
      refine ⟨ihB1, ihB2, ihB3, ?_, ihB5, ?_⟩
      · intro k hk
        rcases List.mem_cons.mp hk with hk | hk
        · subst hk
          right
          exact ihB6 k (List.mem_append_right _ (List.mem_singleton.mpr rfl))
        · exact ihB4 k hk
      · intro k hk
        exact ihB6 k (List.mem_append_left _ hk)
    · have hdx' : firstYearMatch x.2 ((aGet? sr x.1).getD []) = some row := hdx
      have hnex : ∀ k, pass1Decide sr k = none → k ≠ x := by
        intro k hk he
        subst he
        rw [hdx] at hk
        exact Option.noConfusion hk
      have hstep : pass1Step sr acc x =
          { acc with enriched := aInsert acc.enriched x (transformSupabaseRow row) } := by
        unfold pass1Step
        rw [hdx']
      rw [List.foldl_cons, hstep]
      have A3' : ∀ k, pass1Decide sr k = none →
          aGet? (aInsert acc.enriched x (transformSupabaseRow row)) k = none := by
        intro k hk
        rw [aGet?_aInsert_ne _ _ _ _ (hnex k hk)]
        exact A3 k hk
      obtain ⟨ihB1, ihB2, ihB3, ihB4, ihB5, ihB6⟩ :=
        ih { acc with enriched := aInsert acc.enriched x (transformSupabaseRow row) }
          A1 A2 A3'
      refine ⟨ihB1, ihB2, ihB3, ?_, ?_, ihB6⟩
      · intro k hk
        rcases List.mem_cons.mp hk with hk | hk
        · subst hk
          left
          apply ihB5
          rw [aGet?_aInsert_self]
          rfl
        · exact ihB4 k hk
      · intro k h
        exact ihB5 k (aGet?_aInsert_isSome _ _ _ _ h)

theorem pass1_inv (sr : List (String × List SbRow)) (fl : List FilmKey) :
    (∀ k ∈ (pass1 sr fl).needed, aGet? (pass1 sr fl).enriched k = none) ∧
    (∀ k ∈ (pass1 sr fl).needed, ReasonOk (pass1 sr fl).reasons k) ∧
    (∀ k ∈ fl, (aGet? (pass1 sr fl).enriched k).isSome = true ∨
        k ∈ (pass1 sr fl).needed) := by
  obtain ⟨B1, B2, B3, B4, _, _⟩ :=
    pass1Fold_inv sr fl (ResState.mk [] [] [])
      (fun k hk => absurd hk (List.not_mem_nil k))
      (fun k hk => absurd hk (List.not_mem_nil k))
      (fun k _ => rfl)
  exact ⟨fun k hk => B3 k (B1 k hk), B2, B4⟩

theorem pass4Group_inv :
    ∀ (l : List FilmKey) (acc : List (String × List FilmKey) × List FilmKey),
    (∀ p ∈ acc.1, ∀ k ∈ p.2,
        prefix2Of k = p.1 ∧ ¬(pyWords (normalizeTitle k.1)).length < 2) →
    (∀ k ∈ acc.2, (pyWords (normalizeTitle k.1)).length < 2) →
    (∀ p ∈ (l.foldl pass4Group acc).1, ∀ k ∈ p.2,
        prefix2Of k = p.1 ∧ ¬(pyWords (normalizeTitle k.1)).length < 2) ∧
    (∀ k ∈ (l.foldl pass4Group acc).2, (pyWords (normalizeTitle k.1)).length < 2) ∧
    (∀ k ∈ l, k ∈ (l.foldl pass4Group acc).2 ∨
        ∃ p ∈ (l.foldl pass4Group acc).1, k ∈ p.2) ∧
    (∀ k, (k ∈ (l.foldl pass4Group acc).2 ∨ ∃ p ∈ (l.foldl pass4Group acc).1, k ∈ p.2) →
        k ∈ acc.2 ∨ (∃ p ∈ acc.1, k ∈ p.2) ∨ k ∈ l) ∧
    (∀ k, (k ∈ acc.2 ∨ ∃ p ∈ acc.1, k ∈ p.2) →
        k ∈ (l.foldl pass4Group acc).2 ∨ ∃ p ∈ (l.foldl pass4Group acc).1, k ∈ p.2) := by
  intro l
  induction l with
  | nil =>
    intro acc G1 G2
    refine ⟨G1, G2, ?_, ?_, fun k h => h⟩
    · intro k hk
      exact absurd hk (List.not_mem_nil k)
    · intro k hk
      exact hk.imp id Or.inl
  | cons x xs ih =>
    intro acc G1 G2
    by_cases hshort : (pyWords (normalizeTitle x.1)).length < 2
    · have hstep : pass4Group acc x = (acc.1, acc.2 ++ [x]) := by
        unfold pass4Group
        rw [if_pos hshort]
      rw [List.foldl_cons, hstep]
      have G2' : ∀ k ∈ acc.2 ++ [x], (pyWords (normalizeTitle k.1)).length < 2 := by
        intro k hk
        rcases List.mem_append.mp hk with hk | hk
        · exact G2 k hk
        · rw [List.mem_singleton] at hk
          subst hk
          exact hshort
      obtain ⟨J1, J2, J3, J4, J5⟩ := ih (acc.1, acc.2 ++ [x]) G1 G2'
      refine ⟨J1, J2, ?_, ?_, ?_⟩
      · intro k hk
        rcases List.mem_cons.mp hk with hk | hk
        · subst hk
          exact J5 k (Or.inl (List.mem_append_right _ (List.mem_singleton.mpr rfl)))
        · exact J3 k hk
      · intro k hk
        rcases J4 k hk with h | h | h
        · rcases List.mem_append.mp h with h | h
          · exact Or.inl h
          · rw [List.mem_singleton] at h
            subst h
            exact Or.inr (Or.inr (List.mem_cons_self k xs))
        · exact Or.inr (Or.inl h)
        · exact Or.inr (Or.inr (List.mem_cons_of_mem x h))
      · intro k hk
        apply J5
        rcases hk with h | h
        · exact Or.inl (List.mem_append_left _ h)
        · exact Or.inr h
    · have hstep : pass4Group acc x = (aAppend acc.1 (prefix2Of x) x, acc.2) := by
        unfold pass4Group
        rw [if_neg hshort]
      rw [List.foldl_cons, hstep]
      have G1' : ∀ p ∈ aAppend acc.1 (prefix2Of x) x, ∀ k ∈ p.2,
          prefix2Of k = p.1 ∧ ¬(pyWords (normalizeTitle k.1)).length < 2 := by
        refine forall_mem_aAppend G1 ?_ ?_
        · intro p hp hpk k hk
          rcases List.mem_append.mp hk with hk | hk
          · exact G1 p hp k hk
          · rw [List.mem_singleton] at hk
            subst hk
            exact ⟨hpk.symm, hshort⟩
        · intro k hk
          rw [List.mem_singleton] at hk
          subst hk
          exact ⟨rfl, hshort⟩
      obtain ⟨J1, J2, J3, J4, J5⟩ := ih (aAppend acc.1 (prefix2Of x) x, acc.2) G1' G2
      refine ⟨J1, J2, ?_, ?_, ?_⟩
      · intro k hk
        rcases List.mem_cons.mp hk with hk | hk
        · subst hk
          apply J5
          right
          obtain ⟨p, hp, _, hx⟩ := exists_mem_aAppend_self acc.1 (prefix2Of k) k
          exact ⟨p, hp, hx⟩
        · exact J3 k hk
      · intro k hk
        rcases J4 k hk with h | h | h
        · exact Or.inl h
        · rcases mem_aAppend_rev h with h | h
          · subst h
            exact Or.inr (Or.inr (List.mem_cons_self k xs))
          · exact Or.inr (Or.inl h)
        · exact Or.inr (Or.inr (List.mem_cons_of_mem x h))
      · intro k hk
        apply J5
        rcases hk with h | h
        · exact Or.inl h
        · exact Or.inr (exists_mem_aAppend_of_mem h)

theorem pass4Fold_inv (cat : CatalogOracle) (pfx : List (String × List FilmKey))
    (st : ResState)
    (hO1 : ∀ p ∈ pfx, ∀ k ∈ p.2,
        prefix2Of k = p.1 ∧ ¬(pyWords (normalizeTitle k.1)).length < 2)
    (hO2 : ∀ p ∈ pfx, ∀ k ∈ p.2, k ∈ st.needed)
    (hS2 : ∀ k ∈ st.needed, aGet? st.enriched k = none)
    (hS3 : ∀ k ∈ st.needed, ReasonOk st.reasons k) :
    ∀ (gl : List (String × List FilmKey)) (acc : ResState),
    (∀ p ∈ gl, p ∈ pfx) →
    (∀ k ∈ acc.needed, pass4DecideG cat k = none) →
    (∀ k ∈ acc.needed, aGet? acc.enriched k = none) →
    (∀ k ∈ acc.needed, ReasonOk acc.reasons k) →
    (∀ k, pass4DecideG cat k = none →
        aGet? acc.enriched k = aGet? st.enriched k ∧
        aGet? acc.reasons k = aGet? st.reasons k) →
    (∀ k ∈ (gl.foldl (pass4OuterStep cat pfx) acc).needed, pass4DecideG cat k = none) ∧
    (∀ k ∈ (gl.foldl (pass4OuterStep cat pfx) acc).needed,
        aGet? (gl.foldl (pass4OuterStep cat pfx) acc).enriched k = none) ∧
    (∀ k ∈ (gl.foldl (pass4OuterStep cat pfx) acc).needed,
        ReasonOk (gl.foldl (pass4OuterStep cat pfx) acc).reasons k) ∧
    (∀ p ∈ gl, ∀ k ∈ p.2,
        (aGet? (gl.foldl (pass4OuterStep cat pfx) acc).enriched k).isSome = true ∨
          k ∈ (gl.foldl (pass4OuterStep cat pfx) acc).needed) ∧
    (∀ k, (aGet? acc.enriched k).isSome = true →
        (aGet? (gl.foldl (pass4OuterStep cat pfx) acc).enriched k).isSome = true) ∧
    (∀ k ∈ acc.needed, k ∈ (gl.foldl (pass4OuterStep cat pfx) acc).needed) := by
  intro gl
  induction gl with
  | nil =>
    intro acc _ A1 A2 A3 _
    refine ⟨A1, A2, A3, ?_, fun k h => h, fun k hk => hk⟩
    intro p hp
    exact absurd hp (List.not_mem_nil p)
  | cons p gl' ih =>
    intro acc hsub A1 A2 A3 A4
    have hp : p ∈ pfx := hsub p (List.mem_cons_self p gl')
    have hcr : (aGet? (pfx.map (fun q => (q.1, cat.ilike q.1))) p.1).getD [] =
        cat.ilike p.1 := by
      rw [aGet?_map_fst (fun a => cat.ilike a) pfx p.1 (aGet?_isSome_of_mem hp)]
      rfl
    have hag : ∀ k ∈ p.2,
        ((aGet? (pfx.map (fun q => (q.1, cat.ilike q.1))) p.1).getD []).find?
          (pass4Accept (normalizeTitle k.1) k.2) = pass4DecideG cat k := by
      intro k hk
      obtain ⟨hpre, hlen⟩ := hO1 p hp k hk
      rw [hcr]
      unfold pass4DecideG
      rw [if_neg hlen, hpre]
    rw [List.foldl_cons]
    obtain ⟨iEq, iB1, iB2, iB3, iB4, iB5, iB7⟩ :=
      passFold_inv
        (fun k => ((aGet? (pfx.map (fun q => (q.1, cat.ilike q.1))) p.1).getD []).find?
          (pass4Accept (normalizeTitle k.1) k.2))
        (pass4DecideG cat) p.2 acc hag A1 A2 A3
        (fun k hk hDk => by
          obtain ⟨_, hr⟩ := A4 k hDk
          exact reasonOk_congr hr (hS3 k (hO2 p hp k hk)))
        (fun k hk hDk => by
          obtain ⟨he, _⟩ := A4 k hDk
          rw [he]
          exact hS2 k (hO2 p hp k hk))
    obtain ⟨jB1, jB2, jB3, jB4, jB5, jB6⟩ :=
      ih (pass4OuterStep cat pfx acc p)
        (fun q hq => hsub q (List.mem_cons_of_mem p hq))
        iB1 iB2 iB3
        (fun k hDk => by
          obtain ⟨he, hr⟩ := iB7 k hDk
          obtain ⟨he0, hr0⟩ := A4 k hDk
          exact ⟨he.trans he0, hr.trans hr0⟩)
    refine ⟨jB1, jB2, jB3, ?_, ?_, ?_⟩
    · intro q hq k hk
      rcases List.mem_cons.mp hq with hq | hq
      · subst hq
        rcases iB4 k hk with h | h
        · exact Or.inl (jB5 k h)
        · exact Or.inr (jB6 k h)
      · exact jB4 q hq k hk
    · intro k h
      exact jB5 k (iB5 k h)
    · intro k hk
      apply jB6
      show k ∈ (p.2.foldl (passStep (fun k =>
        ((aGet? (pfx.map (fun q => (q.1, cat.ilike q.1))) p.1).getD []).find?
          (pass4Accept (normalizeTitle k.1) k.2))) acc).needed
      rw [iEq]
      exact List.mem_append_left _ hk

theorem pass4_inv (cat : CatalogOracle) (st : ResState)
    (hS2 : ∀ k ∈ st.needed, aGet? st.enriched k = none)
    (hS3 : ∀ k ∈ st.needed, ReasonOk st.reasons k) :
    (∀ k ∈ (pass4 cat st).needed, aGet? (pass4 cat st).enriched k = none) ∧
    (∀ k ∈ (pass4 cat st).needed, ReasonOk (pass4 cat st).reasons k) ∧
    (∀ k ∈ st.needed,
        (aGet? (pass4 cat st).enriched k).isSome = true ∨ k ∈ (pass4 cat st).needed) ∧
    (∀ k, (aGet? st.enriched k).isSome = true →
        (aGet? (pass4 cat st).enriched k).isSome = true) := by
  obtain ⟨G1, G2, G3, G4, _⟩ :=
    pass4Group_inv st.needed ([], [])
      (fun p hp => absurd hp (List.not_mem_nil p))
      (fun k hk => absurd hk (List.not_mem_nil k))
  have hmem : ∀ k, (k ∈ (st.needed.foldl pass4Group ([], [])).2 ∨
      ∃ p ∈ (st.needed.foldl pass4Group ([], [])).1, k ∈ p.2) → k ∈ st.needed := by
    intro k hk
    rcases G4 k hk with h | h | h
    · exact absurd h (List.not_mem_nil k)
    · obtain ⟨p, hp, _⟩ := h
      exact absurd hp (List.not_mem_nil p)
    · exact h
  obtain ⟨B1, B2, B3, B4, B5, B6⟩ :=
    pass4Fold_inv cat (st.needed.foldl pass4Group ([], [])).1 st G1
      (fun p hp k hk => hmem k (Or.inr ⟨p, hp, hk⟩)) hS2 hS3
      (st.needed.foldl pass4Group ([], [])).1
      { st with needed := (st.needed.foldl pass4Group ([], [])).2 }
      (fun p hp => hp)
      (fun k hk => by
        unfold pass4DecideG
        rw [if_pos (G2 k hk)])
      (fun k hk => hS2 k (hmem k (Or.inl hk)))
      (fun k hk => hS3 k (hmem k (Or.inl hk)))
      (fun k _ => ⟨rfl, rfl⟩)
  refine ⟨B2, B3, ?_, B5⟩
  intro k hk
  rcases G3 k hk with h | h
  · exact Or.inr (B6 k h)
  · obtain ⟨p, hp, hk2⟩ := h
    exact B4 p hp k hk2

theorem resolver_inv (cat : CatalogOracle) (tmdb : TmdbOracle) (films : List FilmRow) :
    (∀ k ∈ (resolverFinal false cat tmdb films).needed,
        aGet? (resolverFinal false cat tmdb films).enriched k = none) ∧
    (∀ k ∈ (resolverFinal false cat tmdb films).needed,
        ReasonOk (resolverFinal false cat tmdb films).reasons k) ∧
    (∀ k ∈ filmListOf films,
        (aGet? (resolverFinal false cat tmdb films).enriched k).isSome = true ∨
          k ∈ (resolverFinal false cat tmdb films).needed) := by
  have hrw : resolverFinal false cat tmdb films =
      pass4 cat
        (runPass (pass3Decide (normEntriesOf (supabaseResultsOf cat (filmListOf films))))
          (runPass (pass2Decide (normalizedLookupOf (supabaseResultsOf cat (filmListOf films))))
            (pass1 (supabaseResultsOf cat (filmListOf films)) (filmListOf films)))) := by
    unfold resolverFinal
    exact tmdbFallback_disabled tmdb _
  obtain ⟨D1, R1, C1⟩ :=
    pass1_inv (supabaseResultsOf cat (filmListOf films)) (filmListOf films)
  obtain ⟨D2, R2, C2v, M2⟩ :=
    runPass_inv (pass2Decide (normalizedLookupOf (supabaseResultsOf cat (filmListOf films))))
      (pass1 (supabaseResultsOf cat (filmListOf films)) (filmListOf films)) D1 R1
  obtain ⟨D3, R3, C3v, M3⟩ :=
    runPass_inv (pass3Decide (normEntriesOf (supabaseResultsOf cat (filmListOf films))))
      (runPass (pass2Decide (normalizedLookupOf (supabaseResultsOf cat (filmListOf films))))
        (pass1 (supabaseResultsOf cat (filmListOf films)) (filmListOf films))) D2 R2
  obtain ⟨D4, R4, C4v, M4⟩ :=
    pass4_inv cat
      (runPass (pass3Decide (normEntriesOf (supabaseResultsOf cat (filmListOf films))))
        (runPass (pass2Decide (normalizedLookupOf (supabaseResultsOf cat (filmListOf films))))
          (pass1 (supabaseResultsOf cat (filmListOf films)) (filmListOf films)))) D3 R3
  rw [hrw]
  refine ⟨D4, R4, ?_⟩
  intro k hk
  rcases C1 k hk with h | h
  · exact Or.inl (M4 k (M3 k (M2 k h)))
  · rcases C2v k h with h2 | h2
    · exact Or.inl (M4 k (M3 k h2))
    · rcases C3v k h2 with h3 | h3
      · exact Or.inl (M4 k h3)
      · exact C4v k h3

/-- C2 (counterexample): the claim says a requested key with year 0 receives
an immediate `not_in_catalog` outcome; the code drops such keys from the
lookup list before any pass, so they receive no outcome at all — neither an
enrichment record nor a missing-films entry. -/
theorem c2_counterexample :
    (enrichFilms true emptyCatalog noTmdbOracle [FilmRow.mk "A" 0]).enriched = [] ∧
    (enrichFilms true emptyCatalog noTmdbOracle [FilmRow.mk "A" 0]).fallbackFilms = [] := by
  constructor <;> rfl

/-- C2 (amended): with the TMDB fallback disabled (its default), every
requested key with a positive year receives exactly one outcome — an
enrichment record, or else a missing-films entry carrying its title and
year, marked not-found, with reason `not_in_db` or `year_mismatch` (never
both kinds for one key) — while keys with year 0 are silently dropped:
the run behaves exactly as if they had never been requested. -/
theorem c2_amended (cat : CatalogOracle) (tmdb : TmdbOracle) (films : List FilmRow) :
    (∀ k ∈ filmListOf films,
      (aGet? (enrichFilms false cat tmdb films).enriched k).isSome = true ∨
        ∃ e ∈ (enrichFilms false cat tmdb films).fallbackFilms,
          e.title = k.1 ∧ e.year = k.2) ∧
    (∀ e ∈ (enrichFilms false cat tmdb films).fallbackFilms,
      aGet? (enrichFilms false cat tmdb films).enriched (e.title, e.year) = none ∧
        e.tmdbFound = false ∧
        (e.supabaseMissReason = "not_in_db" ∨ e.supabaseMissReason = "year_mismatch")) ∧
    (∀ fb : Bool, enrichFilms fb cat tmdb films =
        enrichFilms fb cat tmdb (films.filter (fun r => 0 < r.year))) := by
  obtain ⟨hD, hR, hC⟩ := resolver_inv cat tmdb films
  refine ⟨?_, ?_, ?_⟩
  · intro k hk
    rcases hC k hk with h | h
    · exact Or.inl (by rw [enrichFilms_enriched]; exact h)
    · right
      rw [enrichFilms_fallbackFilms]
      exact ⟨_, List.mem_map.mpr ⟨k, h, rfl⟩, rfl, rfl⟩
  · intro e he
    rw [enrichFilms_fallbackFilms] at he
    obtain ⟨k, hk, rfl⟩ := List.mem_map.mp he
    have hnone := hD k hk
    refine ⟨?_, ?_, ?_⟩
    · rw [enrichFilms_enriched]
      exact hnone
    · show (aGet? (resolverFinal false cat tmdb films).enriched k).isSome = false
      rw [hnone]
      rfl
    · rcases hR k hk with h | h
      · left
        show (aGet? (resolverFinal false cat tmdb films).reasons k).getD "not_in_db" =
          "not_in_db"
        rw [h]
        rfl
      · right
        show (aGet? (resolverFinal false cat tmdb films).reasons k).getD "not_in_db" =
          "year_mismatch"
        rw [h]
        rfl
  · intro fb
    have hfl : filmListOf (films.filter (fun r => 0 < r.year)) = filmListOf films := by
      simp [filmListOf, List.filter_filter]
    simp only [enrichFilms]
    rw [hfl]

/-- C2 (witness): the amended statement at a two-film request — Parasite
(2019), which the catalog resolves, and a year-0 film, which the filter
equality shows is ignored outright. -/
theorem c2_witness :
    ((("Parasite", (2019 : Int)) : FilmKey) ∈
        filmListOf [FilmRow.mk "Parasite" 2019, FilmRow.mk "Z" 0]) ∧
    ((aGet? (enrichFilms false parasiteCatalog noTmdbOracle
          [FilmRow.mk "Parasite" 2019, FilmRow.mk "Z" 0]).enriched
        (("Parasite", (2019 : Int)) : FilmKey)).isSome = true ∨
      ∃ e ∈ (enrichFilms false parasiteCatalog noTmdbOracle
          [FilmRow.mk "Parasite" 2019, FilmRow.mk "Z" 0]).fallbackFilms,
        e.title = "Parasite" ∧ e.year = 2019) ∧
    enrichFilms true parasiteCatalog noTmdbOracle
        [FilmRow.mk "Parasite" 2019, FilmRow.mk "Z" 0] =
      enrichFilms true parasiteCatalog noTmdbOracle
        ([FilmRow.mk "Parasite" 2019, FilmRow.mk "Z" 0].filter (fun r => 0 < r.year)) := by
  have hmem : (("Parasite", (2019 : Int)) : FilmKey) ∈
      filmListOf [FilmRow.mk "Parasite" 2019, FilmRow.mk "Z" 0] := by decide
  exact ⟨hmem,
    (c2_amended parasiteCatalog noTmdbOracle
      [FilmRow.mk "Parasite" 2019, FilmRow.mk "Z" 0]).1 _ hmem,
    (c2_amended parasiteCatalog noTmdbOracle
      [FilmRow.mk "Parasite" 2019, FilmRow.mk "Z" 0]).2.2 true⟩

/-! ## C6 — normalize idempotence -/

theorem toNat_ofNat_lt {n : Nat} (h : n < 55296) : (Char.ofNat n).toNat = n := by
  rw [Char.ofNat, dif_pos (Or.inl h)]
  rfl

theorem nfkdChar_of_lt (c : Char) (h : c.toNat < 0xAA) : nfkdChar c = [c] := by
  have hall : ∀ p ∈ nfkdTable, 0xAA ≤ p.1 := by decide
  have hfind : nfkdTable.find? (fun p => p.1 == c.toNat) = none := by
    rw [List.find?_eq_none]
    intro p hp hc
    have h1 := hall p hp
    rw [beq_iff_eq.mp hc] at h1
    omega
  unfold nfkdChar
  rw [hfind]

theorem isCombining_of_lt (c : Char) (h : c.toNat < 0x300) : isCombining c = false := by
  have hall : ∀ n ∈ combiningSet, 0x300 ≤ n := by decide
  rw [Bool.eq_false_iff]
  intro hany
  rw [isCombining, List.any_eq_true] at hany
  obtain ⟨n, hn, hc⟩ := hany
  have h1 := hall n hn
  rw [beq_iff_eq.mp hc] at h1
  omega

theorem lowerChar_id_of (c : Char) (h1 : ¬(0x41 ≤ c.toNat ∧ c.toNat ≤ 0x5A))
    (h2 : c.toNat < 0xC6) : lowerChar c = c := by
  have hall : ∀ p ∈ lowerTable, 0xC6 ≤ p.1 := by decide
  have hfind : lowerTable.find? (fun p => p.1 == c.toNat) = none := by
    rw [List.find?_eq_none]
    intro p hp hc
    have hx := hall p hp
    rw [beq_iff_eq.mp hc] at hx
    omega
  have hcond : ¬((decide (0x41 ≤ c.toNat) && decide (c.toNat ≤ 0x5A)) = true) := by
    simp only [Bool.and_eq_true, decide_eq_true_eq]
    exact h1
  simp only [lowerChar]
  rw [if_neg hcond, hfind]

theorem nfkd_out_stable (c0 c : Char) (hmem : c ∈ nfkdChar c0)
    (hc : isCombining c = false) : nfkdChar c = [c] := by
  unfold nfkdChar at hmem
  rcases hf : nfkdTable.find? (fun p => p.1 == c0.toNat) with _ | p
  · rw [hf] at hmem
    rw [List.mem_singleton] at hmem
    subst hmem
    unfold nfkdChar
    rw [hf]
  · rw [hf] at hmem
    have hp : p ∈ nfkdTable := List.mem_of_find?_eq_some hf
    rw [List.mem_map] at hmem
    obtain ⟨m, hm, rfl⟩ := hmem
    have hfin : ∀ q ∈ nfkdTable, ∀ m ∈ q.2,
        isCombining (Char.ofNat m) = false → nfkdChar (Char.ofNat m) = [Char.ofNat m] := by
      decide
    exact hfin p hp m hm hc

theorem lower_pres (c : Char) (hn : nfkdChar c = [c]) (hc : isCombining c = false) :
    nfkdChar (lowerChar c) = [lowerChar c] ∧
    isCombining (lowerChar c) = false ∧
    lowerChar (lowerChar c) = lowerChar c := by
  by_cases hAZ : 0x41 ≤ c.toNat ∧ c.toNat ≤ 0x5A
  · have hcond : (decide (0x41 ≤ c.toNat) && decide (c.toNat ≤ 0x5A)) = true := by
      simp [hAZ.1, hAZ.2]
    have hl : lowerChar c = Char.ofNat (c.toNat + 0x20) := by
      simp only [lowerChar]
      rw [if_pos hcond]
    have htn : (Char.ofNat (c.toNat + 0x20)).toNat = c.toNat + 0x20 :=
      toNat_ofNat_lt (by omega)
    rw [hl]
    refine ⟨nfkdChar_of_lt _ (by omega), isCombining_of_lt _ (by omega),
      lowerChar_id_of _ (by omega) (by omega)⟩
  · have hcond : ¬((decide (0x41 ≤ c.toNat) && decide (c.toNat ≤ 0x5A)) = true) := by
      simp only [Bool.and_eq_true, decide_eq_true_eq]
      exact hAZ
    rcases hf : lowerTable.find? (fun p => p.1 == c.toNat) with _ | p
    · have hl : lowerChar c = c := by
        simp only [lowerChar]
        rw [if_neg hcond, hf]
      rw [hl]
      exact ⟨hn, hc, hl⟩
    · have hp : p ∈ lowerTable := List.mem_of_find?_eq_some hf
      have hl : lowerChar c = Char.ofNat p.2 := by
        simp only [lowerChar]
        rw [if_neg hcond, hf]
      rw [hl]
      have hfin : ∀ q ∈ lowerTable,
          nfkdChar (Char.ofNat q.2) = [Char.ofNat q.2] ∧
          isCombining (Char.ofNat q.2) = false ∧
          lowerChar (Char.ofNat q.2) = Char.ofNat q.2 := by decide
      exact hfin p hp

-- collapse properties
theorem collapse_props (xs : List Char) :
    (∀ c ∈ collapseSpaceRuns xs, isPySpace c = true → c = ' ') ∧
    noAdjSpaces (collapseSpaceRuns xs) = true ∧
    (∀ c ∈ collapseSpaceRuns xs, c = ' ' ∨ (c ∈ xs ∧ isPySpace c = false)) := by
  induction xs with
  | nil =>
    refine ⟨?_, rfl, ?_⟩ <;> intro c hc <;> exact absurd hc (List.not_mem_nil c)
  | cons x t ih =>
    obtain ⟨ih1, ih2, ih3⟩ := ih
    have hunf : collapseSpaceRuns (x :: t) =
        (if isPySpace x then
          (if (collapseSpaceRuns t).head? == some ' ' then collapseSpaceRuns t
           else ' ' :: collapseSpaceRuns t)
         else x :: collapseSpaceRuns t) := rfl
    by_cases hx : isPySpace x = true
    · by_cases hh : (collapseSpaceRuns t).head? == some ' '
      · rw [hunf, if_pos hx, if_pos hh]
        refine ⟨ih1, ih2, ?_⟩
        intro c hc
        rcases ih3 c hc with h | ⟨h1, h2⟩
        · exact Or.inl h
        · exact Or.inr ⟨List.mem_cons_of_mem x h1, h2⟩
      · rw [hunf, if_pos hx, if_neg hh]
        refine ⟨?_, ?_, ?_⟩
        · intro c hc
          rcases List.mem_cons.mp hc with hc | hc
          · intro _; exact hc
          · exact ih1 c hc
        · rcases hr : collapseSpaceRuns t with _ | ⟨h, r⟩
          · rfl
          · have hhs : isPySpace h = false := by
              by_cases hsp : isPySpace h = true
              · have := ih1 h (by rw [hr]; exact List.mem_cons_self h r) hsp
                subst this
                rw [hr] at hh
                simp at hh
              · exact Bool.eq_false_iff.mpr hsp
            show (!(isPySpace ' ' && isPySpace h) && noAdjSpaces (h :: r)) = true
            rw [hhs]
            rw [hr] at ih2
            simp [ih2]
        · intro c hc
          rcases List.mem_cons.mp hc with hc | hc
          · exact Or.inl hc
          · rcases ih3 c hc with h | ⟨h1, h2⟩
            · exact Or.inl h
            · exact Or.inr ⟨List.mem_cons_of_mem x h1, h2⟩
    · have hx' : isPySpace x = false := Bool.eq_false_iff.mpr hx
      rw [hunf, if_neg hx]
      refine ⟨?_, ?_, ?_⟩
      · intro c hc
        rcases List.mem_cons.mp hc with hc | hc
        · subst hc
          intro hs
          rw [hs] at hx'
          exact absurd hx' (by simp)
        · exact ih1 c hc
      · rcases hr : collapseSpaceRuns t with _ | ⟨h, r⟩
        · rfl
        · show (!(isPySpace x && isPySpace h) && noAdjSpaces (h :: r)) = true
          rw [hx']
          rw [hr] at ih2
          simp [ih2]
      · intro c hc
        rcases List.mem_cons.mp hc with hc | hc
        · subst hc
          exact Or.inr ⟨List.mem_cons_self c t, hx'⟩
        · rcases ih3 c hc with h | ⟨h1, h2⟩
          · exact Or.inl h
          · exact Or.inr ⟨List.mem_cons_of_mem x h1, h2⟩

-- collapse identity on "already collapsed" lists
theorem collapse_id (xs : List Char)
    (h1 : ∀ c ∈ xs, isPySpace c = true → c = ' ')
    (h2 : noAdjSpaces xs = true) :
    collapseSpaceRuns xs = xs := by
  induction xs with
  | nil => rfl
  | cons x t ih =>
    have h2t : noAdjSpaces t = true := by
      rcases t with _ | ⟨h, r⟩
      · rfl
      · have := h2
        show noAdjSpaces (h :: r) = true
        have : (!(isPySpace x && isPySpace h) && noAdjSpaces (h :: r)) = true := h2
        exact (Bool.and_eq_true_iff.mp this).2
    have iht : collapseSpaceRuns t = t :=
      ih (fun c hc => h1 c (List.mem_cons_of_mem x hc)) h2t
    have hunf : collapseSpaceRuns (x :: t) =
        (if isPySpace x then
          (if (collapseSpaceRuns t).head? == some ' ' then collapseSpaceRuns t
           else ' ' :: collapseSpaceRuns t)
         else x :: collapseSpaceRuns t) := rfl
    by_cases hx : isPySpace x = true
    · have hxsp : x = ' ' := h1 x (List.mem_cons_self x t) hx
      rw [hunf, if_pos hx, iht]
      rcases t with _ | ⟨h, r⟩
      · simp [hxsp]
      · have hhd : isPySpace h = false := by
          have hb : (!(isPySpace x && isPySpace h) && noAdjSpaces (h :: r)) = true := h2
          have := (Bool.and_eq_true_iff.mp hb).1
          rw [hx] at this
          simpa using this
        have hne : ¬(((h :: r).head? == some ' ') = true) := by
          simp only [List.head?_cons, beq_iff_eq, Option.some.injEq]
          intro he
          rw [he] at hhd
          exact absurd hhd (by decide)
        rw [if_neg hne, hxsp]
    · rw [hunf, if_neg hx, iht]

-- membership through strip
theorem mem_dropTrailing {c : Char} : ∀ {xs : List Char},
    c ∈ dropTrailingSpaces xs → c ∈ xs := by
  intro xs
  induction xs with
  | nil => intro h; exact absurd h (List.not_mem_nil c)
  | cons x t ih =>
    intro h
    have hunf : dropTrailingSpaces (x :: t) =
        (if (dropTrailingSpaces t).isEmpty && isPySpace x then []
         else x :: dropTrailingSpaces t) := rfl
    rw [hunf] at h
    by_cases hcond : ((dropTrailingSpaces t).isEmpty && isPySpace x) = true
    · rw [if_pos hcond] at h
      exact absurd h (List.not_mem_nil c)
    · rw [if_neg hcond] at h
      rcases List.mem_cons.mp h with h | h
      · subst h; exact List.mem_cons_self c t
      · exact List.mem_cons_of_mem x (ih h)

theorem mem_stripEnds {c : Char} {xs : List Char} (h : c ∈ stripEnds xs) : c ∈ xs := by
  unfold stripEnds at h
  have h1 := mem_dropTrailing h
  exact (List.dropWhile_sublist isPySpace).subset h1

-- noAdj through dropWhile and dropTrailing
theorem noAdj_tail {x : Char} {t : List Char} (h : noAdjSpaces (x :: t) = true) :
    noAdjSpaces t = true := by
  rcases t with _ | ⟨h2, r⟩
  · rfl
  · have hb : (!(isPySpace x && isPySpace h2) && noAdjSpaces (h2 :: r)) = true := h
    exact (Bool.and_eq_true_iff.mp hb).2

theorem noAdj_dropWhile {p : Char → Bool} : ∀ {xs : List Char},
    noAdjSpaces xs = true → noAdjSpaces (xs.dropWhile p) = true := by
  intro xs
  induction xs with
  | nil => intro _; rfl
  | cons x t ih =>
    intro h
    rw [List.dropWhile_cons]
    by_cases hp : p x = true
    · rw [if_pos hp]
      exact ih (noAdj_tail h)
    · rw [if_neg hp]
      exact h

theorem dropTrailing_shape (x : Char) (t : List Char) :
    dropTrailingSpaces (x :: t) = [] ∨
      dropTrailingSpaces (x :: t) = x :: dropTrailingSpaces t := by
  have hunf : dropTrailingSpaces (x :: t) =
      (if (dropTrailingSpaces t).isEmpty && isPySpace x then []
       else x :: dropTrailingSpaces t) := rfl
  rw [hunf]
  by_cases hcond : ((dropTrailingSpaces t).isEmpty && isPySpace x) = true
  · rw [if_pos hcond]; exact Or.inl rfl
  · rw [if_neg hcond]; exact Or.inr rfl

theorem noAdj_dropTrailing : ∀ {xs : List Char},
    noAdjSpaces xs = true → noAdjSpaces (dropTrailingSpaces xs) = true := by
  intro xs
  induction xs with
  | nil => intro _; rfl
  | cons x t ih =>
    intro h
    rcases dropTrailing_shape x t with hs | hs
    · rw [hs]; rfl
    · rw [hs]
      have iht := ih (noAdj_tail h)
      rcases t with _ | ⟨y, r⟩
      · rfl
      · rcases dropTrailing_shape y r with hs2 | hs2
        · rw [hs2]; rfl
        · rw [hs2]
          rw [hs2] at iht
          have hb : (!(isPySpace x && isPySpace y) && noAdjSpaces (y :: r)) = true := h
          have hxy := (Bool.and_eq_true_iff.mp hb).1
          show (!(isPySpace x && isPySpace y) && noAdjSpaces (y :: dropTrailingSpaces r)) = true
          rw [Bool.and_eq_true]
          exact ⟨hxy, iht⟩

-- strip idempotence
theorem dropTrailing_idem : ∀ (xs : List Char),
    dropTrailingSpaces (dropTrailingSpaces xs) = dropTrailingSpaces xs := by
  intro xs
  induction xs with
  | nil => rfl
  | cons x t ih =>
    rcases dropTrailing_shape x t with hs | hs
    · rw [hs]; rfl
    · rw [hs]
      have hunf : dropTrailingSpaces (x :: dropTrailingSpaces t) =
          (if (dropTrailingSpaces (dropTrailingSpaces t)).isEmpty && isPySpace x then []
           else x :: dropTrailingSpaces (dropTrailingSpaces t)) := rfl
      rw [hunf, ih]
      have hcond : ¬(((dropTrailingSpaces t).isEmpty && isPySpace x) = true) := by
        intro hc
        have hunf2 : dropTrailingSpaces (x :: t) =
            (if (dropTrailingSpaces t).isEmpty && isPySpace x then []
             else x :: dropTrailingSpaces t) := rfl
        rw [hunf2, if_pos hc] at hs
        exact List.noConfusion hs
      rw [if_neg hcond]

theorem head_dropWhile_false {p : Char → Bool} : ∀ (xs : List Char) {c : Char},
    (xs.dropWhile p).head? = some c → p c = false := by
  intro xs
  induction xs with
  | nil => intro c h; exact absurd h (by simp)
  | cons x t ih =>
    intro c h
    rw [List.dropWhile_cons] at h
    by_cases hp : p x = true
    · rw [if_pos hp] at h
      exact ih h
    · rw [if_neg hp] at h
      rw [List.head?_cons, Option.some.injEq] at h
      subst h
      exact Bool.eq_false_iff.mpr hp

theorem dropWhile_eq_self_of_head {p : Char → Bool} : ∀ {xs : List Char},
    (∀ c, xs.head? = some c → p c = false) → xs.dropWhile p = xs := by
  intro xs h
  rcases xs with _ | ⟨x, t⟩
  · rfl
  · rw [List.dropWhile_cons, if_neg]
    rw [h x (by rw [List.head?_cons])]
    simp

theorem stripEnds_idem (xs : List Char) : stripEnds (stripEnds xs) = stripEnds xs := by
  unfold stripEnds
  have h1 : (dropTrailingSpaces (xs.dropWhile isPySpace)).dropWhile isPySpace =
      dropTrailingSpaces (xs.dropWhile isPySpace) := by
    apply dropWhile_eq_self_of_head
    intro c hc
    rcases hz : xs.dropWhile isPySpace with _ | ⟨z, r⟩
    · rw [hz] at hc
      exact absurd hc (by simp [dropTrailingSpaces])
    · rw [hz] at hc
      rcases dropTrailing_shape z r with hs | hs
      · rw [hs] at hc
        exact absurd hc (by simp)
      · rw [hs] at hc
        rw [List.head?_cons, Option.some.injEq] at hc
        subst hc
        exact head_dropWhile_false xs (by rw [hz, List.head?_cons])
    
  rw [h1, dropTrailing_idem]

theorem flatMap_nfkd_id {xs : List Char} (h : ∀ c ∈ xs, nfkdChar c = [c]) :
    xs.flatMap nfkdChar = xs := by
  induction xs with
  | nil => rfl
  | cons x t ih =>
    rw [List.flatMap_cons, h x (List.mem_cons_self x t),
      ih (fun c hc => h c (List.mem_cons_of_mem x hc))]
    rfl

theorem filter_id_of {p : Char → Bool} {xs : List Char} (h : ∀ c ∈ xs, p c = true) :
    xs.filter p = xs := by
  induction xs with
  | nil => rfl
  | cons x t ih =>
    rw [List.filter_cons, if_pos (h x (List.mem_cons_self x t)),
      ih (fun c hc => h c (List.mem_cons_of_mem x hc))]

theorem map_id_of {f : Char → Char} {xs : List Char} (h : ∀ c ∈ xs, f c = c) :
    xs.map f = xs := by
  induction xs with
  | nil => rfl
  | cons x t ih =>
    rw [List.map_cons, h x (List.mem_cons_self x t),
      ih (fun c hc => h c (List.mem_cons_of_mem x hc))]

theorem postNorm_chars (cs : List Char) :
    ∀ c ∈ postNorm cs,
      nfkdChar c = [c] ∧ isCombining c = false ∧ lowerChar c = c ∧
        (isWordChar c = true ∨ c = ' ') := by
  intro c hc
  unfold postNorm at hc
  have hc1 := mem_stripEnds hc
  obtain ⟨p1, p2, p3⟩ := collapse_props
    ((((cs.flatMap nfkdChar).filter (fun c => !(isCombining c))).map lowerChar).filter
      (fun c => isWordChar c || isPySpace c))
  rcases p3 c hc1 with h | ⟨hmem, hns⟩
  · subst h
    exact ⟨nfkdChar_of_lt _ (by decide), isCombining_of_lt _ (by decide),
      lowerChar_id_of _ (by decide) (by decide), Or.inr rfl⟩
  · rw [List.mem_filter] at hmem
    obtain ⟨hl, hkeep⟩ := hmem
    rw [List.mem_map] at hl
    obtain ⟨c0, hc0, rfl⟩ := hl
    rw [List.mem_filter] at hc0
    obtain ⟨hc0f, hc0nc⟩ := hc0
    rw [List.mem_flatMap] at hc0f
    obtain ⟨c1, _, hc01⟩ := hc0f
    have hnc0 : isCombining c0 = false := by simpa using hc0nc
    have hstab := nfkd_out_stable c1 c0 hc01 hnc0
    obtain ⟨b1, b2, b3⟩ := lower_pres c0 hstab hnc0
    have hword : isWordChar (lowerChar c0) = true ∨ lowerChar c0 = ' ' := by
      rcases Bool.or_eq_true_iff.mp hkeep with h | h
      · exact Or.inl h
      · rw [hns] at h
        exact Bool.noConfusion h
    exact ⟨b1, b2, b3, hword⟩

theorem postNorm_out_props (cs : List Char) :
    (∀ c ∈ postNorm cs, isPySpace c = true → c = ' ') ∧
    noAdjSpaces (postNorm cs) = true := by
  obtain ⟨p1, p2, _⟩ := collapse_props
    ((((cs.flatMap nfkdChar).filter (fun c => !(isCombining c))).map lowerChar).filter
      (fun c => isWordChar c || isPySpace c))
  constructor
  · intro c hc
    exact p1 c (mem_stripEnds hc)
  · show noAdjSpaces (stripEnds (collapseSpaceRuns _)) = true
    unfold stripEnds
    exact noAdj_dropTrailing (noAdj_dropWhile p2)

theorem postNorm_idem (cs : List Char) : postNorm (postNorm cs) = postNorm cs := by
  have hch := postNorm_chars cs
  obtain ⟨hsp, hadj⟩ := postNorm_out_props cs
  have h1 : (postNorm cs).flatMap nfkdChar = postNorm cs :=
    flatMap_nfkd_id (fun c hc => (hch c hc).1)
  have e1 : postNorm (postNorm cs) =
      stripEnds (collapseSpaceRuns (((((postNorm cs).flatMap nfkdChar).filter
        (fun c => !(isCombining c))).map lowerChar).filter
        (fun c => isWordChar c || isPySpace c))) := rfl
  rw [e1, h1]
  have h2 : (postNorm cs).filter (fun c => !(isCombining c)) = postNorm cs :=
    filter_id_of (fun c hc => by rw [(hch c hc).2.1]; rfl)
  rw [h2]
  have h3 : (postNorm cs).map lowerChar = postNorm cs :=
    map_id_of (fun c hc => (hch c hc).2.2.1)
  rw [h3]
  have h4 : (postNorm cs).filter (fun c => isWordChar c || isPySpace c) = postNorm cs :=
    filter_id_of (fun c hc => by
      rcases (hch c hc).2.2.2 with h | h
      · rw [h]
        rfl
      · subst h
        decide)
  rw [h4, collapse_id _ hsp hadj]
  exact stripEnds_idem _

/-- C6 (amended): `_normalize_title` is a pure total function (the codec
round-trip is wrapped in try/except), and it is idempotent exactly when the
mojibake-repair step fixes its own output: for every title whose normalized
form is left unchanged by `encode('windows-1252').decode('utf-8')`, applying
normalize twice equals applying it once, because the decompose / lower /
filter / collapse tail is idempotent on its own output. -/
theorem c6_amended (t : String) (h : mojibakeRepair (normalizeTitle t) = normalizeTitle t) :
    normalizeTitle (normalizeTitle t) = normalizeTitle t := by
  have e1 : normalizeTitle (normalizeTitle t) =
      String.mk (postNorm (mojibakeRepair (normalizeTitle t)).toList) := rfl
  rw [e1, h]
  have e2 : (normalizeTitle t).toList = postNorm (mojibakeRepair t).toList := rfl
  rw [e2, postNorm_idem]
  rfl

set_option maxRecDepth 100000 in
/-- C6 (counterexample): the claim says normalize is idempotent for every
title; for "ß-œ" the first pass yields "ßœ" (the cp1252/UTF-8 repair fails
and leaves the title alone, the hyphen is dropped), but on the second pass
the repair succeeds — cp1252 bytes DF 9C decode as the UTF-8 sequence of
U+07DC — so normalize of the normalized title differs. -/
theorem c6_counterexample :
    normalizeTitle (normalizeTitle (String.mk [Char.ofNat 0xDF, '-', Char.ofNat 0x153])) ≠
      normalizeTitle (String.mk [Char.ofNat 0xDF, '-', Char.ofNat 0x153]) := by
  decide

set_option maxRecDepth 100000 in
/-- C6 (witness): the amended statement at "The Matrix", whose normalized
form "the matrix" is pure ASCII and hence a fixed point of the repair. -/
theorem c6_witness :
    mojibakeRepair (normalizeTitle "The Matrix") = normalizeTitle "The Matrix" ∧
    normalizeTitle (normalizeTitle "The Matrix") = normalizeTitle "The Matrix" :=
  ⟨by decide, c6_amended "The Matrix" (by decide)⟩


/-! ## C9/C10 — per-entity averages, counts and like ratios -/

theorem foldl_preserve_mem {σ α : Type} (P : σ → Prop) (f : σ → α → σ) (l : List α)
    (h : ∀ s a, a ∈ l → P s → P (f s a)) : ∀ s, P s → P (l.foldl f s) := by
  induction l with
  | nil => exact fun s hs => hs
  | cons x xs ih =>
    intro s hs
    rw [List.foldl_cons]
    exact ih (fun s a ha hsa => h s a (List.mem_cons_of_mem x ha) hsa) _
      (h s x (List.mem_cons_self x xs) hs)

theorem perm_stableInsertWith (lt : α → α → Bool) (x : α) :
    ∀ (l : List α), List.Perm (stableInsertWith lt x l) (x :: l) := by
  intro l
  induction l with
  | nil => exact List.Perm.refl _
  | cons z zs ih =>
    show List.Perm (if lt z x then x :: z :: zs else z :: stableInsertWith lt x zs)
      (x :: z :: zs)
    by_cases hlt : lt z x = true
    · rw [if_pos hlt]
    · rw [if_neg hlt]
      exact (List.Perm.cons z ih).trans (List.Perm.swap x z zs)

theorem perm_stableSortDescWith (lt : α → α → Bool) (l : List α) :
    List.Perm (stableSortDescWith lt l) l := by
  have haux : ∀ (l acc : List α),
      List.Perm (l.foldl (fun acc x => stableInsertWith lt x acc) acc) (acc ++ l) := by
    intro l
    induction l with
    | nil => intro acc; simp
    | cons x xs ih =>
      intro acc
      rw [List.foldl_cons]
      refine ((ih _).trans ?_)
      refine (List.Perm.append_right xs (perm_stableInsertWith lt x acc)).trans ?_
      exact List.perm_middle.symm
  have := haux l []
  simpa using this

theorem perm_stableSortDescBy (key : α → ℚ) (l : List α) :
    List.Perm (stableSortDescBy key l) l :=
  perm_stableSortDescWith _ l

theorem mem_mostCommon {α : Type} {c : Counter α} {n : Nat} {p : α × Nat}
    (h : p ∈ mostCommon c n) : p ∈ c :=
  (perm_stableSortDescBy _ c).subset (List.mem_of_mem_take h)

theorem map_fst_map_preserve {α β : Type} {g : α × β → α × β}
    (hg : ∀ p, (g p).1 = p.1) (l : List (α × β)) :
    (l.map g).map Prod.fst = l.map Prod.fst := by
  rw [List.map_map]
  exact List.map_congr_left (fun p _ => hg p)

theorem not_mem_keys_of_any_eq_false {α β : Type} [BEq α] [LawfulBEq α]
    {l : List (α × β)} {k : α}
    (h : ¬(l.any (fun p => p.1 == k) = true)) : k ∉ l.map Prod.fst := by
  intro hk
  rw [List.mem_map] at hk
  obtain ⟨p, hp, he⟩ := hk
  apply h
  rw [List.any_eq_true]
  exact ⟨p, hp, by rw [he]; simp⟩

theorem cInc_keys_nodup {α : Type} [BEq α] [LawfulBEq α] {c : Counter α} (k : α)
    (h : (c.map Prod.fst).Nodup) : ((cInc c k).map Prod.fst).Nodup := by
  unfold cInc
  by_cases ha : c.any (fun p => p.1 == k) = true
  · rw [if_pos ha,
      map_fst_map_preserve (fun p => by by_cases hp : (p.1 == k) = true <;> simp [hp])]
    exact h
  · have hmap : (c ++ [(k, 1)]).map Prod.fst = c.map Prod.fst ++ [k] := by simp
    rw [if_neg ha, hmap]
    refine List.Nodup.append h (List.nodup_singleton k) ?_
    intro a hak hmem
    rw [List.mem_singleton] at hmem
    subst hmem
    exact not_mem_keys_of_any_eq_false ha hak

theorem aAppend_keys_nodup {α β : Type} [BEq α] [LawfulBEq α] {l : List (α × List β)}
    (k : α) (v : β)
    (h : (l.map Prod.fst).Nodup) : ((aAppend l k v).map Prod.fst).Nodup := by
  unfold aAppend
  by_cases ha : l.any (fun p => p.1 == k) = true
  · rw [if_pos ha,
      map_fst_map_preserve (fun p => by by_cases hp : (p.1 == k) = true <;> simp [hp])]
    exact h
  · have hmap : (l ++ [(k, [v])]).map Prod.fst = l.map Prod.fst ++ [k] := by simp
    rw [if_neg ha, hmap]
    refine List.Nodup.append h (List.nodup_singleton k) ?_
    intro a hak hmem
    rw [List.mem_singleton] at hmem
    subst hmem
    exact not_mem_keys_of_any_eq_false ha hak

theorem cGet_of_mem_nodup {α : Type} [BEq α] [LawfulBEq α] {c : Counter α} {e : α × Nat}
    (hnd : (c.map Prod.fst).Nodup) (hp : e ∈ c) : cGet c e.1 = e.2 := by
  induction c with
  | nil => exact absurd hp (List.not_mem_nil e)
  | cons q t ih =>
    rw [List.map_cons, List.nodup_cons] at hnd
    obtain ⟨hq, hnd2⟩ := hnd
    rcases List.mem_cons.mp hp with hp | hp
    · subst hp
      unfold cGet
      rw [List.find?_cons_of_pos _ (by simp)]
      rfl
    · have hne : ¬((fun r : α × Nat => r.1 == e.1) q = true) := by
        intro he
        apply hq
        rw [List.mem_map]
        exact ⟨e, hp, (beq_iff_eq.mp he).symm⟩
      unfold cGet
      rw [List.find?_cons_of_neg (p := fun r : α × Nat => r.1 == e.1) _ hne]
      exact ih hnd2 hp

theorem aGet?_of_mem_nodup {α β : Type} [BEq α] [LawfulBEq α] {l : List (α × β)}
    {e : α × β}
    (hnd : (l.map Prod.fst).Nodup) (hp : e ∈ l) : aGet? l e.1 = some e.2 := by
  induction l with
  | nil => exact absurd hp (List.not_mem_nil e)
  | cons q t ih =>
    rw [List.map_cons, List.nodup_cons] at hnd
    obtain ⟨hq, hnd2⟩ := hnd
    rcases List.mem_cons.mp hp with hp | hp
    · subst hp
      unfold aGet?
      rw [List.find?_cons_of_pos _ (by simp)]
      rfl
    · have hne : ¬((fun r : α × β => r.1 == e.1) q = true) := by
        intro he
        apply hq
        rw [List.mem_map]
        exact ⟨e, hp, (beq_iff_eq.mp he).symm⟩
      unfold aGet?
      rw [List.find?_cons_of_neg (p := fun r : α × β => r.1 == e.1) _ hne]
      exact ih hnd2 hp

theorem aGet?_aInsert_cases {α β : Type} [BEq α] [LawfulBEq α] (l : List (α × β))
    (k k' : α) (v w : β)
    (h : aGet? (aInsert l k v) k' = some w) : w = v ∨ aGet? l k' = some w := by
  by_cases hk : k' = k
  · subst hk
    rw [aGet?_aInsert_self] at h
    exact Or.inl ((Option.some.injEq _ _).mp h).symm
  · rw [aGet?_aInsert_ne _ _ _ _ hk] at h
    exact Or.inr h

theorem ratingDict_provenance (ctx : Ctx) :
    ∀ k v, aGet? (ratingDictOf ctx) k = some v → ∃ r ∈ ctx.lb.ratings, v = r.rating := by
  unfold ratingDictOf
  refine foldl_preserve_mem
    (fun acc : List (FilmKey × ℚ) =>
      ∀ k v, aGet? acc k = some v → ∃ r ∈ ctx.lb.ratings, v = r.rating)
    _ _ ?_ [] ?_
  · intro acc r hr hP k v hv
    rcases aGet?_aInsert_cases _ _ _ _ _ hv with h | h
    · exact ⟨r, hr, h⟩
    · exact hP k v h
  · intro k v hv
    exact Option.noConfusion hv

theorem getFilmRating_nonneg (ctx : Ctx) (h : ∀ r ∈ ctx.lb.ratings, 0 ≤ r.rating) :
    ∀ k, 0 ≤ getFilmRating ctx k := by
  intro k
  unfold getFilmRating
  rcases hv : aGet? (ratingDictOf ctx) k with _ | v
  · simp
  · obtain ⟨r, hr, rfl⟩ := ratingDict_provenance ctx k v hv
    simpa using h r hr

theorem meanQ_perm {l m : List ℚ} (h : List.Perm l m) : meanQ l = meanQ m := by
  unfold meanQ
  rw [h.sum_eq, h.length_eq]

theorem ratedOfA_perm {l m : List ActorFilm} (h : List.Perm l m) :
    List.Perm (ratedOfA l) (ratedOfA m) :=
  (h.filter _).map _

theorem ratedOfI_perm {l m : List FilmInfo} (h : List.Perm l m) :
    List.Perm (ratedOfI l) (ratedOfI m) :=
  (h.filter _).map _

theorem ratedOfA_append (l : List ActorFilm) (f : ActorFilm) :
    ratedOfA (l ++ [f]) =
      ratedOfA l ++ (if truthyRating f.rating then [f.rating.getD 0] else []) := by
  unfold ratedOfA
  rw [List.filter_append, List.map_append]
  congr 1
  by_cases ht : truthyRating f.rating = true
  · simp [ht]
  · simp [ht]

theorem ratedOfI_append (l : List FilmInfo) (f : FilmInfo) :
    ratedOfI (l ++ [f]) =
      ratedOfI l ++ (if truthyRating f.rating then [f.rating.getD 0] else []) := by
  unfold ratedOfI
  rw [List.filter_append, List.map_append]
  congr 1
  by_cases ht : truthyRating f.rating = true
  · simp [ht]
  · simp [ht]

theorem pyRoundInt_nonneg {q : ℚ} (h : 0 ≤ q) : 0 ≤ pyRoundInt q := by
  have hf : (0 : ℤ) ≤ ⌊q⌋ := Int.le_floor.mpr (by exact_mod_cast h)
  unfold pyRoundInt
  dsimp only
  split_ifs <;> omega

theorem pyRoundInt_le {q : ℚ} {B : ℤ} (h : q ≤ (B : ℚ)) : pyRoundInt q ≤ B := by
  have hf : ⌊q⌋ ≤ B := by
    have := Int.floor_le_floor h
    rwa [Int.floor_intCast] at this
  have hq : (⌊q⌋ : ℚ) ≤ q := Int.floor_le q
  unfold pyRoundInt
  dsimp only
  split_ifs with h1 h2 h3
  · exact hf
  · have hhalf : (⌊q⌋ : ℚ) + 1/2 < q := by
      have : (1 : ℚ)/2 < q - (⌊q⌋ : ℚ) := h2
      linarith
    have : (⌊q⌋ : ℚ) < (B : ℚ) := by linarith
    have : ⌊q⌋ < B := by exact_mod_cast this
    omega
  · exact hf
  · have hhalf : (⌊q⌋ : ℚ) + 1/2 ≤ q := by
      have : (1 : ℚ)/2 ≤ q - (⌊q⌋ : ℚ) := not_lt.mp h1
      linarith
    have : (⌊q⌋ : ℚ) < (B : ℚ) := by linarith
    have : ⌊q⌋ < B := by exact_mod_cast this
    omega

theorem round1_bounds {x : ℚ} (h0 : 0 ≤ x) (h1 : x ≤ 100) :
    0 ≤ round1 x ∧ round1 x ≤ 100 := by
  have hl : (0 : ℤ) ≤ pyRoundInt (x * 10) := pyRoundInt_nonneg (by linarith)
  have hu : pyRoundInt (x * 10) ≤ (1000 : ℤ) := pyRoundInt_le (by push_cast; linarith)
  unfold round1
  constructor
  · apply div_nonneg _ (by norm_num)
    exact_mod_cast hl
  · rw [div_le_iff (by norm_num : (0:ℚ) < 10)]
    calc ((pyRoundInt (x * 10) : ℤ) : ℚ) ≤ ((1000 : ℤ) : ℚ) := by exact_mod_cast hu
      _ = 100 * 10 := by norm_num

theorem ratio_in_range {a b : Nat} (hab : a ≤ b) (hb : 0 < b) :
    0 ≤ ((a : ℚ) / (b : ℚ)) * 100 ∧ ((a : ℚ) / (b : ℚ)) * 100 ≤ 100 := by
  have hb' : (0 : ℚ) < (b : ℚ) := by exact_mod_cast hb
  have hab' : (a : ℚ) ≤ (b : ℚ) := by exact_mod_cast hab
  have h01 : (a : ℚ) / (b : ℚ) ≤ 1 := (div_le_one hb').mpr hab'
  have h00 : 0 ≤ (a : ℚ) / (b : ℚ) := div_nonneg (by positivity) (le_of_lt hb')
  constructor
  · nlinarith
  · nlinarith


theorem actorAgg_ratings_inv (ctx : Ctx) (h : ∀ k, 0 ≤ getFilmRating ctx k) :
    (∀ n, ratedOfA ((aGet? (actorAggOf ctx).films n).getD []) =
        (aGet? (actorAggOf ctx).ratings n).getD []) ∧
    (∀ n rl, aGet? (actorAggOf ctx).ratings n = some rl → rl ≠ []) ∧
    ((actorAggOf ctx).ratings.map Prod.fst).Nodup := by
  unfold actorAggOf
  refine foldl_preserve (fun agg : ActorAgg =>
      (∀ n, ratedOfA ((aGet? agg.films n).getD []) = (aGet? agg.ratings n).getD []) ∧
      (∀ n rl, aGet? agg.ratings n = some rl → rl ≠ []) ∧
      (agg.ratings.map Prod.fst).Nodup) _ ?_ _ _ ?_
  · intro agg p hP
    by_cases hw : isFilmWatched ctx p.1 = true
    · rw [if_pos hw]
      refine foldl_preserve (fun agg : ActorAgg =>
          (∀ n, ratedOfA ((aGet? agg.films n).getD []) = (aGet? agg.ratings n).getD []) ∧
          (∀ n rl, aGet? agg.ratings n = some rl → rl ≠ []) ∧
          (agg.ratings.map Prod.fst).Nodup) _ ?_ _ _ hP
      intro agg2 a hP2
      obtain ⟨P1, P2, P3⟩ := hP2
      dsimp only
      refine ⟨?_, ?_, ?_⟩
      · intro n
        by_cases hn : n = a.name
        · subst hn
          rw [aGet?_aAppend_self]
          by_cases hr0 : (0 : ℚ) < getFilmRating ctx p.1
          · have hne : getFilmRating ctx p.1 ≠ 0 := ne_of_gt hr0
            rw [if_pos hr0, aGet?_aAppend_self]
            simp only [Option.getD_some]
            rw [ratedOfA_append, P1 a.name]
            simp [truthyRating, hne]
          · have hr0' : getFilmRating ctx p.1 = 0 :=
              le_antisymm (not_lt.mp hr0) (h p.1)
            rw [if_neg hr0]
            simp only [Option.getD_some]
            rw [ratedOfA_append, P1 a.name]
            simp [truthyRating, hr0']
        · rw [aGet?_aAppend_ne _ _ _ _ hn]
          by_cases hr0 : (0 : ℚ) < getFilmRating ctx p.1
          · rw [if_pos hr0, aGet?_aAppend_ne _ _ _ _ hn]
            exact P1 n
          · rw [if_neg hr0]
            exact P1 n
      · intro n rl hrl
        by_cases hr0 : (0 : ℚ) < getFilmRating ctx p.1
        · rw [if_pos hr0] at hrl
          by_cases hn : n = a.name
          · subst hn
            rw [aGet?_aAppend_self] at hrl
            have he := (Option.some.injEq _ _).mp hrl
            intro hnil
            rw [← he] at hnil
            exact absurd hnil (by simp)
          · rw [aGet?_aAppend_ne _ _ _ _ hn] at hrl
            exact P2 n rl hrl
        · rw [if_neg hr0] at hrl
          exact P2 n rl hrl
      · by_cases hr0 : (0 : ℚ) < getFilmRating ctx p.1
        · rw [if_pos hr0]
          exact aAppend_keys_nodup _ _ P3
        · rw [if_neg hr0]
          exact P3
    · rw [if_neg hw]
      exact hP
  · refine ⟨fun n => rfl, ?_, List.nodup_nil⟩
    intro n rl hrl
    exact Option.noConfusion hrl

theorem actorAgg_counts_inv (ctx : Ctx) :
    ((actorAggOf ctx).counts.map Prod.fst).Nodup ∧
    (∀ n, cGet (actorAggOf ctx).likedCounts n ≤ cGet (actorAggOf ctx).counts n) := by
  unfold actorAggOf
  refine foldl_preserve (fun agg : ActorAgg =>
      (agg.counts.map Prod.fst).Nodup ∧
      (∀ n, cGet agg.likedCounts n ≤ cGet agg.counts n)) _ ?_ _ _
    ⟨List.nodup_nil, fun n => le_refl _⟩
  intro agg p hP
  by_cases hw : isFilmWatched ctx p.1 = true
  · rw [if_pos hw]
    refine foldl_preserve (fun agg : ActorAgg =>
        (agg.counts.map Prod.fst).Nodup ∧
        (∀ n, cGet agg.likedCounts n ≤ cGet agg.counts n)) _ ?_ _ _ hP
    intro agg2 a hP2
    obtain ⟨P4, P5⟩ := hP2
    dsimp only
    refine ⟨cInc_keys_nodup _ P4, ?_⟩
    intro n
    by_cases hil : isFilmLiked ctx p.1 = true
    · rw [if_pos hil]
      by_cases hn : n = a.name
      · subst hn
        rw [cGet_cInc_self, cGet_cInc_self]
        exact Nat.succ_le_succ (P5 a.name)
      · rw [cGet_cInc_ne _ _ _ hn, cGet_cInc_ne _ _ _ hn]
        exact P5 n
    · rw [if_neg hil]
      exact cGet_le_of_cInc _ _ _ P5 n
  · rw [if_neg hw]
    exact hP

theorem directorAgg_ratings_inv (ctx : Ctx) (h : ∀ k, 0 ≤ getFilmRating ctx k) :
    (∀ n, ratedOfI ((aGet? (directorAggOf ctx).films n).getD []) =
        (aGet? (directorAggOf ctx).ratings n).getD []) ∧
    (∀ n rl, aGet? (directorAggOf ctx).ratings n = some rl → rl ≠ []) ∧
    ((directorAggOf ctx).ratings.map Prod.fst).Nodup := by
  unfold directorAggOf
  refine foldl_preserve (fun agg : DirectorAgg =>
      (∀ n, ratedOfI ((aGet? agg.films n).getD []) = (aGet? agg.ratings n).getD []) ∧
      (∀ n rl, aGet? agg.ratings n = some rl → rl ≠ []) ∧
      (agg.ratings.map Prod.fst).Nodup) _ ?_ _ _ ?_
  · intro agg p hP
    by_cases hw : isFilmWatched ctx p.1 = true
    · rw [if_pos hw]
      refine foldl_preserve (fun agg : DirectorAgg =>
          (∀ n, ratedOfI ((aGet? agg.films n).getD []) = (aGet? agg.ratings n).getD []) ∧
          (∀ n rl, aGet? agg.ratings n = some rl → rl ≠ []) ∧
          (agg.ratings.map Prod.fst).Nodup) _ ?_ _ _ hP
      intro agg2 d hP2
      obtain ⟨P1, P2, P3⟩ := hP2
      dsimp only
      refine ⟨?_, ?_, ?_⟩
      · intro n
        by_cases hn : n = d
        · subst hn
          rw [aGet?_aAppend_self]
          by_cases hr0 : (0 : ℚ) < getFilmRating ctx p.1
          · have hne : getFilmRating ctx p.1 ≠ 0 := ne_of_gt hr0
            rw [if_pos hr0, aGet?_aAppend_self]
            simp only [Option.getD_some]
            rw [ratedOfI_append, P1 n]
            simp [truthyRating, hne]
          · have hr0' : getFilmRating ctx p.1 = 0 :=
              le_antisymm (not_lt.mp hr0) (h p.1)
            rw [if_neg hr0]
            simp only [Option.getD_some]
            rw [ratedOfI_append, P1 n]
            simp [truthyRating, hr0']
        · rw [aGet?_aAppend_ne _ _ _ _ hn]
          by_cases hr0 : (0 : ℚ) < getFilmRating ctx p.1
          · rw [if_pos hr0, aGet?_aAppend_ne _ _ _ _ hn]
            exact P1 n
          · rw [if_neg hr0]
            exact P1 n
      · intro n rl hrl
        by_cases hr0 : (0 : ℚ) < getFilmRating ctx p.1
        · rw [if_pos hr0] at hrl
          by_cases hn : n = d
          · subst hn
            rw [aGet?_aAppend_self] at hrl
            have he := (Option.some.injEq _ _).mp hrl
            intro hnil
            rw [← he] at hnil
            exact absurd hnil (by simp)
          · rw [aGet?_aAppend_ne _ _ _ _ hn] at hrl
            exact P2 n rl hrl
        · rw [if_neg hr0] at hrl
          exact P2 n rl hrl
      · by_cases hr0 : (0 : ℚ) < getFilmRating ctx p.1
        · rw [if_pos hr0]
          exact aAppend_keys_nodup _ _ P3
        · rw [if_neg hr0]
          exact P3
    · rw [if_neg hw]
      exact hP
  · refine ⟨fun n => rfl, ?_, List.nodup_nil⟩
    intro n rl hrl
    exact Option.noConfusion hrl

theorem directorAgg_counts_inv (ctx : Ctx) :
    ((directorAggOf ctx).counts.map Prod.fst).Nodup ∧
    (∀ n, cGet (directorAggOf ctx).likedCounts n ≤ cGet (directorAggOf ctx).counts n) := by
  unfold directorAggOf
  refine foldl_preserve (fun agg : DirectorAgg =>
      (agg.counts.map Prod.fst).Nodup ∧
      (∀ n, cGet agg.likedCounts n ≤ cGet agg.counts n)) _ ?_ _ _
    ⟨List.nodup_nil, fun n => le_refl _⟩
  intro agg p hP
  by_cases hw : isFilmWatched ctx p.1 = true
  · rw [if_pos hw]
    refine foldl_preserve (fun agg : DirectorAgg =>
        (agg.counts.map Prod.fst).Nodup ∧
        (∀ n, cGet agg.likedCounts n ≤ cGet agg.counts n)) _ ?_ _ _ hP
    intro agg2 d hP2
    obtain ⟨P4, P5⟩ := hP2
    dsimp only
    refine ⟨cInc_keys_nodup _ P4, ?_⟩
    intro n
    by_cases hil : isFilmLiked ctx p.1 = true
    · rw [if_pos hil]
      by_cases hn : n = d
      · subst hn
        rw [cGet_cInc_self, cGet_cInc_self]
        exact Nat.succ_le_succ (P5 n)
      · rw [cGet_cInc_ne _ _ _ hn, cGet_cInc_ne _ _ _ hn]
        exact P5 n
    · rw [if_neg hil]
      exact cGet_le_of_cInc _ _ _ P5 n
  · rw [if_neg hw]
    exact hP

theorem crewAgg_counts_inv (sel : Movie → List Person) (ctx : Ctx) :
    ((crewAggOf sel ctx).counts.map Prod.fst).Nodup ∧
    (∀ n, cGet (crewAggOf sel ctx).likedCounts n ≤ cGet (crewAggOf sel ctx).counts n) := by
  unfold crewAggOf
  refine foldl_preserve (fun agg : CrewAgg =>
      (agg.counts.map Prod.fst).Nodup ∧
      (∀ n, cGet agg.likedCounts n ≤ cGet agg.counts n)) _ ?_ _ _
    ⟨List.nodup_nil, fun n => le_refl _⟩
  intro agg p hP
  by_cases hw : isFilmWatched ctx p.1 = true
  · rw [if_pos hw]
    refine foldl_preserve (fun agg : CrewAgg =>
        (agg.counts.map Prod.fst).Nodup ∧
        (∀ n, cGet agg.likedCounts n ≤ cGet agg.counts n)) _ ?_ _ _ hP
    intro agg2 person hP2
    obtain ⟨P4, P5⟩ := hP2
    dsimp only
    refine ⟨cInc_keys_nodup _ P4, ?_⟩
    intro n
    by_cases hil : isFilmLiked ctx p.1 = true
    · rw [if_pos hil]
      by_cases hn : n = person.name
      · subst hn
        rw [cGet_cInc_self, cGet_cInc_self]
        exact Nat.succ_le_succ (P5 person.name)
      · rw [cGet_cInc_ne _ _ _ hn, cGet_cInc_ne _ _ _ hn]
        exact P5 n
    · rw [if_neg hil]
      exact cGet_le_of_cInc _ _ _ P5 n
  · rw [if_neg hw]
    exact hP

theorem studioAgg_counts_inv (ctx : Ctx) :
    ((studioAggOf ctx).counts.map Prod.fst).Nodup ∧
    (∀ n, cGet (studioAggOf ctx).likedCounts n ≤ cGet (studioAggOf ctx).counts n) := by
  unfold studioAggOf
  refine foldl_preserve (fun agg : StudioAgg =>
      (agg.counts.map Prod.fst).Nodup ∧
      (∀ n, cGet agg.likedCounts n ≤ cGet agg.counts n)) _ ?_ _ _
    ⟨List.nodup_nil, fun n => le_refl _⟩
  intro agg p hP
  by_cases hw : isFilmWatched ctx p.1 = true
  · rw [if_pos hw]
    refine foldl_preserve (fun agg : StudioAgg =>
        (agg.counts.map Prod.fst).Nodup ∧
        (∀ n, cGet agg.likedCounts n ≤ cGet agg.counts n)) _ ?_ _ _ hP
    intro agg2 c hP2
    obtain ⟨P4, P5⟩ := hP2
    dsimp only
    refine ⟨cInc_keys_nodup _ P4, ?_⟩
    intro n
    by_cases hil : isFilmLiked ctx p.1 = true
    · rw [if_pos hil]
      by_cases hn : n = c.name
      · subst hn
        rw [cGet_cInc_self, cGet_cInc_self]
        exact Nat.succ_le_succ (P5 c.name)
      · rw [cGet_cInc_ne _ _ _ hn, cGet_cInc_ne _ _ _ hn]
        exact P5 n
    · rw [if_neg hil]
      exact cGet_le_of_cInc _ _ _ P5 n
  · rw [if_neg hw]
    exact hP


theorem headD_mem {α : Type} {l : List α} {d : α} (h : l ≠ []) : l.headD d ∈ l := by
  cases l with
  | nil => exact absurd rfl h
  | cons x t => exact List.mem_cons_self x t

/-- C9: in the actors and directors views, every `top_by_count` entry's
`avg_rating` is the 2-decimal-rounded arithmetic mean of its films'
non-empty ratings (0 when it has none); every `favorites` entry has at
least 3 (actors) / 2 (directors) rated films — so a zero-rated entity is
never a favorite — with its average and count drawn from the same rated
list; every `most_common` name still gets a `top_by_count` entry; and
rated films [4, 5, 3] average to exactly 4.  The hypothesis mirrors the
domain: Letterboxd ratings are never negative. -/
theorem c9_avg_rating (ctx : Ctx) (h : ∀ r ∈ ctx.lb.ratings, 0 ≤ r.rating) :
    (∀ e ∈ (calcActorStats ctx).topByCount,
      (ratedOfA e.films = [] → e.avgRating = 0) ∧
      (ratedOfA e.films ≠ [] → e.avgRating = round2 (meanQ (ratedOfA e.films)))) ∧
    (∀ f ∈ (calcActorStats ctx).favorites, 3 ≤ f.count ∧
      ∃ rl, aGet? (actorAggOf ctx).ratings f.name = some rl ∧ f.count = rl.length ∧
        f.avgRating = round2 (meanQ rl)) ∧
    (∀ p ∈ mostCommon (actorAggOf ctx).counts TOP_ACTORS_COUNT,
      ∃ e ∈ (calcActorStats ctx).topByCount, e.name = p.1 ∧ e.count = p.2) ∧
    (∀ e ∈ (calcDirectorStats ctx).topByCount,
      (ratedOfI e.films = [] → e.avgRating = 0) ∧
      (ratedOfI e.films ≠ [] → e.avgRating = round2 (meanQ (ratedOfI e.films)))) ∧
    (∀ f ∈ (calcDirectorStats ctx).favorites, 2 ≤ f.count ∧
      ∃ rl, aGet? (directorAggOf ctx).ratings f.name = some rl ∧ f.count = rl.length ∧
        f.avgRating = round2 (meanQ rl)) ∧
    (∀ p ∈ mostCommon (directorAggOf ctx).counts TOP_DIRECTORS_COUNT,
      ∃ e ∈ (calcDirectorStats ctx).topByCount, e.name = p.1 ∧ e.count = p.2) ∧
    round2 (meanQ [4, 5, 3]) = 4 := by
  obtain ⟨S1, S2, S3⟩ := actorAgg_ratings_inv ctx (getFilmRating_nonneg ctx h)
  obtain ⟨T1, T2, T3⟩ := directorAgg_ratings_inv ctx (getFilmRating_nonneg ctx h)
  refine ⟨?_, ?_, ?_, ?_, ?_, ?_, ?_⟩
  · intro e he
    unfold calcActorStats at he
    dsimp only at he
    rw [List.mem_map] at he
    obtain ⟨p, hp, rfl⟩ := he
    dsimp only
    have hperm : List.Perm
        (ratedOfA (stableSortDescBy (fun f => (f.year : ℚ))
          ((aGet? (actorAggOf ctx).films p.1).getD [])))
        (ratedOfA ((aGet? (actorAggOf ctx).films p.1).getD [])) :=
      ratedOfA_perm (perm_stableSortDescBy _ _)
    rcases hr : aGet? (actorAggOf ctx).ratings p.1 with _ | rl
    · have hnil : ratedOfA ((aGet? (actorAggOf ctx).films p.1).getD []) = [] := by
        rw [S1 p.1, hr]
        rfl
      have hnil2 := List.Perm.eq_nil (hnil ▸ hperm)
      constructor
      · intro _
        rfl
      · intro hne
        exact absurd hnil2 hne
    · have hsync : ratedOfA ((aGet? (actorAggOf ctx).films p.1).getD []) = rl := by
        rw [S1 p.1, hr]
        rfl
      have hnonnil : rl ≠ [] := S2 p.1 rl hr
      constructor
      · intro h0
        have hlen := hperm.length_eq
        rw [h0, hsync] at hlen
        exact absurd (List.length_eq_zero.mp hlen.symm) hnonnil
      · intro _
        rw [meanQ_perm hperm, hsync]
  · intro f hf
    unfold calcActorStats at hf
    dsimp only at hf
    have hf2 := (perm_stableSortDescBy _ _).subset (List.mem_of_mem_take hf)
    refine foldl_preserve_mem
      (fun acc : List FavPerson => ∀ x ∈ acc, 3 ≤ x.count ∧
        ∃ rl, aGet? (actorAggOf ctx).ratings x.name = some rl ∧ x.count = rl.length ∧
          x.avgRating = round2 (meanQ rl))
      _ _ ?_ [] ?_ f hf2
    · intro acc p hp hP x hx
      by_cases h3 : 3 ≤ p.2.length
      · rw [if_pos h3] at hx
        rcases List.mem_append.mp hx with hx | hx
        · exact hP x hx
        · rw [List.mem_singleton] at hx
          subst hx
          exact ⟨h3, p.2, aGet?_of_mem_nodup S3 hp, rfl, rfl⟩
      · rw [if_neg h3] at hx
        exact hP x hx
    · intro x hx
      exact absurd hx (List.not_mem_nil x)
  · intro p hp
    unfold calcActorStats
    dsimp only
    exact ⟨_, List.mem_map.mpr ⟨p, hp, rfl⟩, rfl, rfl⟩
  · intro e he
    unfold calcDirectorStats at he
    dsimp only at he
    rw [List.mem_map] at he
    obtain ⟨p, hp, rfl⟩ := he
    dsimp only
    have hperm : List.Perm
        (ratedOfI (stableSortDescBy (fun f => (f.year : ℚ))
          ((aGet? (directorAggOf ctx).films p.1).getD [])))
        (ratedOfI ((aGet? (directorAggOf ctx).films p.1).getD [])) :=
      ratedOfI_perm (perm_stableSortDescBy _ _)
    rcases hr : aGet? (directorAggOf ctx).ratings p.1 with _ | rl
    · have hnil : ratedOfI ((aGet? (directorAggOf ctx).films p.1).getD []) = [] := by
        rw [T1 p.1, hr]
        rfl
      have hnil2 := List.Perm.eq_nil (hnil ▸ hperm)
      constructor
      · intro _
        rfl
      · intro hne
        exact absurd hnil2 hne
    · have hsync : ratedOfI ((aGet? (directorAggOf ctx).films p.1).getD []) = rl := by
        rw [T1 p.1, hr]
        rfl
      have hnonnil : rl ≠ [] := T2 p.1 rl hr
      constructor
      · intro h0
        have hlen := hperm.length_eq
        rw [h0, hsync] at hlen
        exact absurd (List.length_eq_zero.mp hlen.symm) hnonnil
      · intro _
        rw [meanQ_perm hperm, hsync]
  · intro f hf
    unfold calcDirectorStats at hf
    dsimp only at hf
    have hf2 := (perm_stableSortDescBy _ _).subset (List.mem_of_mem_take hf)
    refine foldl_preserve_mem
      (fun acc : List FavPerson => ∀ x ∈ acc, 2 ≤ x.count ∧
        ∃ rl, aGet? (directorAggOf ctx).ratings x.name = some rl ∧ x.count = rl.length ∧
          x.avgRating = round2 (meanQ rl))
      _ _ ?_ [] ?_ f hf2
    · intro acc p hp hP x hx
      by_cases h2 : 2 ≤ p.2.length
      · rw [if_pos h2] at hx
        rcases List.mem_append.mp hx with hx | hx
        · exact hP x hx
        · rw [List.mem_singleton] at hx
          subst hx
          exact ⟨h2, p.2, aGet?_of_mem_nodup T3 hp, rfl, rfl⟩
      · rw [if_neg h2] at hx
        exact hP x hx
    · intro x hx
      exact absurd hx (List.not_mem_nil x)
  · intro p hp
    unfold calcDirectorStats
    dsimp only
    exact ⟨_, List.mem_map.mpr ⟨p, hp, rfl⟩, rfl, rfl⟩
  · norm_num [round2, meanQ, pyRoundInt, List.sum_cons, List.sum_nil]

/-- C9 (witness): in the rated example context (three films rated 4, 5 and
3, all featuring actor X), the hypothesis holds, X appears in
`most_common` with count 3, and the theorem places X in `top_by_count`
with that count. -/
theorem c9_witness :
    (∀ r ∈ ctxRated.lb.ratings, 0 ≤ r.rating) ∧
    ((("X", 3) : String × Nat) ∈ mostCommon (actorAggOf ctxRated).counts TOP_ACTORS_COUNT) ∧
    (∃ e ∈ (calcActorStats ctxRated).topByCount, e.name = "X" ∧ e.count = 3) := by
  have h : ∀ r ∈ ctxRated.lb.ratings, 0 ≤ r.rating := by
    intro r hr
    fin_cases hr <;> norm_num
  have hm : (("X", 3) : String × Nat) ∈
      mostCommon (actorAggOf ctxRated).counts TOP_ACTORS_COUNT := by decide
  exact ⟨h, hm, (c9_avg_rating ctxRated h).2.2.1 _ hm⟩

/-- C10: in every per-entity `top_by_count` list (actors, directors, every
crew role, studios), `liked_count` never exceeds `count`; where the
`like_ratio` field exists (all but studios) it equals
`liked_count / count * 100` rounded to 1 decimal and lies in [0, 100]. -/
theorem c10_like_ratio_bounds (ctx : Ctx) :
    (∀ e ∈ (calcActorStats ctx).topByCount,
      e.likedCount ≤ e.count ∧ 0 ≤ e.likeRatio ∧ e.likeRatio ≤ 100 ∧
        (0 < e.count → e.likeRatio = round1 ((e.likedCount : ℚ) / (e.count : ℚ) * 100))) ∧
    (∀ e ∈ (calcDirectorStats ctx).topByCount,
      e.likedCount ≤ e.count ∧ 0 ≤ e.likeRatio ∧ e.likeRatio ≤ 100 ∧
        (0 < e.count → e.likeRatio = round1 ((e.likedCount : ℚ) / (e.count : ℚ) * 100))) ∧
    (∀ sel : Movie → List Person, ∀ e ∈ (calcCrewRole sel ctx).topByCount,
      e.likedCount ≤ e.count ∧ 0 ≤ e.likeRatio ∧ e.likeRatio ≤ 100 ∧
        (0 < e.count → e.likeRatio = round1 ((e.likedCount : ℚ) / (e.count : ℚ) * 100))) ∧
    (∀ e ∈ (calcStudioStats ctx).topByCount, e.likedCount ≤ e.count) := by
  refine ⟨?_, ?_, ?_, ?_⟩
  · intro e he
    unfold calcActorStats at he
    dsimp only at he
    rw [List.mem_map] at he
    obtain ⟨p, hp, rfl⟩ := he
    obtain ⟨N4, N5⟩ := actorAgg_counts_inv ctx
    have hcount : cGet (actorAggOf ctx).counts p.1 = p.2 :=
      cGet_of_mem_nodup N4 (mem_mostCommon hp)
    have hle : cGet (actorAggOf ctx).likedCounts p.1 ≤ p.2 := hcount ▸ N5 p.1
    dsimp only
    refine ⟨hle, ?_, ?_, ?_⟩
    · by_cases hpos : 0 < p.2
      · rw [if_pos hpos]
        exact (round1_bounds (ratio_in_range hle hpos).1 (ratio_in_range hle hpos).2).1
      · rw [if_neg hpos]
    · by_cases hpos : 0 < p.2
      · rw [if_pos hpos]
        exact (round1_bounds (ratio_in_range hle hpos).1 (ratio_in_range hle hpos).2).2
      · rw [if_neg hpos]
        norm_num
    · intro hcpos
      rw [if_pos hcpos]
  · intro e he
    unfold calcDirectorStats at he
    dsimp only at he
    rw [List.mem_map] at he
    obtain ⟨p, hp, rfl⟩ := he
    obtain ⟨N4, N5⟩ := directorAgg_counts_inv ctx
    have hcount : cGet (directorAggOf ctx).counts p.1 = p.2 :=
      cGet_of_mem_nodup N4 (mem_mostCommon hp)
    have hle : cGet (directorAggOf ctx).likedCounts p.1 ≤ p.2 := hcount ▸ N5 p.1
    dsimp only
    refine ⟨hle, ?_, ?_, ?_⟩
    · by_cases hpos : 0 < p.2
      · rw [if_pos hpos]
        exact (round1_bounds (ratio_in_range hle hpos).1 (ratio_in_range hle hpos).2).1
      · rw [if_neg hpos]
    · by_cases hpos : 0 < p.2
      · rw [if_pos hpos]
        exact (round1_bounds (ratio_in_range hle hpos).1 (ratio_in_range hle hpos).2).2
      · rw [if_neg hpos]
        norm_num
    · intro hcpos
      rw [if_pos hcpos]
  · intro sel e he
    unfold calcCrewRole at he
    dsimp only at he
    rw [List.mem_map] at he
    obtain ⟨p, hp, rfl⟩ := he
    obtain ⟨N4, N5⟩ := crewAgg_counts_inv sel ctx
    have hcount : cGet (crewAggOf sel ctx).counts p.1 = p.2 :=
      cGet_of_mem_nodup N4 (mem_mostCommon hp)
    have hle : cGet (crewAggOf sel ctx).likedCounts p.1 ≤ p.2 := hcount ▸ N5 p.1
    dsimp only
    refine ⟨hle, ?_, ?_, ?_⟩
    · by_cases hpos : 0 < p.2
      · rw [if_pos hpos]
        exact (round1_bounds (ratio_in_range hle hpos).1 (ratio_in_range hle hpos).2).1
      · rw [if_neg hpos]
    · by_cases hpos : 0 < p.2
      · rw [if_pos hpos]
        exact (round1_bounds (ratio_in_range hle hpos).1 (ratio_in_range hle hpos).2).2
      · rw [if_neg hpos]
        norm_num
    · intro hcpos
      rw [if_pos hcpos]
  · intro e he
    unfold calcStudioStats at he
    dsimp only at he
    rw [List.mem_map] at he
    obtain ⟨p, hp, rfl⟩ := he
    obtain ⟨N4, N5⟩ := studioAgg_counts_inv ctx
    have hcount : cGet (studioAggOf ctx).counts p.1 = p.2 :=
      cGet_of_mem_nodup N4 (mem_mostCommon hp)
    exact hcount ▸ N5 p.1

/-- C10 (witness): the first actor entry of the rated example context is in
`top_by_count` and the theorem applies to it: liked ≤ count and the like
ratio lies in [0, 100]. -/
theorem c10_witness :
    actorEntryW ∈ (calcActorStats ctxRated).topByCount ∧
    actorEntryW.likedCount ≤ actorEntryW.count ∧
    0 ≤ actorEntryW.likeRatio ∧ actorEntryW.likeRatio ≤ 100 := by
  have hlen : (calcActorStats ctxRated).topByCount.length = 1 := rfl
  have hne : (calcActorStats ctxRated).topByCount ≠ [] := by
    intro hnil
    rw [hnil] at hlen
    exact absurd hlen (by decide)
  have hm : actorEntryW ∈ (calcActorStats ctxRated).topByCount := headD_mem hne
  obtain ⟨h1, h2, h3, _⟩ := (c10_like_ratio_bounds ctxRated).1 actorEntryW hm
  exact ⟨hm, h1, h2, h3⟩

end LbStats
